import Mathlib

/-!
Verification of the Boop game engine (server game logic, `BoopGame` class) and
the client-side bot layer (`LocalGame` simulator and `BotAI` tier cascade).

The TypeScript sources are translated into a shallow embedding:
  * the 6×6 board becomes a function from positions to optional pieces;
  * class fields become a `GameState` structure threaded explicitly;
  * the imperative loops (boop pass, graduation scan, win scan) become folds
    over the same index lists the source iterates over;
  * row/column arithmetic is done over `Int` so that out-of-bounds
    coordinates (negative, ≥ 6) behave exactly like the source's bounds
    checks.

Field and function names follow the source where Lean allows; `from` is a
Lean keyword so the boop-effect field is called `fromCell` (and `to`
becomes `toCell`).
-/

namespace Boop

/-- Player colors, from `types.ts`: `'orange' | 'gray'`. -/
inductive PlayerColor where
  | orange
  | gray
deriving DecidableEq, Repr

/-- Piece kinds, from `types.ts`: `'kitten' | 'cat'`. -/
inductive PieceType where
  | kitten
  | cat
deriving DecidableEq, Repr

/-- A piece on the board: `{color, type}`. -/
structure Piece where
  color : PlayerColor
  type : PieceType
deriving DecidableEq, Repr

/-- A cell coordinate `{row, col}`.  Coordinates are `Int` so the boop
destination arithmetic can step off the board exactly as in the source. -/
structure Cell where
  row : Int
  col : Int
deriving DecidableEq, Repr

/-- In-bounds board positions. -/
abbrev Pos := Fin 6 × Fin 6

/-- The 6×6 board: one optional piece per in-bounds position. -/
abbrev Board := Pos → Option Piece

/-- Game phases of the `BoopGame` state machine. -/
inductive Phase where
  | waiting
  | playing
  | selecting_graduation
  | finished
deriving DecidableEq, Repr

/-- Win conditions: `'three_cats_in_row' | 'all_eight_cats'`. -/
inductive WinCondition where
  | three_cats_in_row
  | all_eight_cats
deriving DecidableEq, Repr

/-- Player state (`PlayerState` in `types.ts`). -/
structure PlayerState where
  color : PlayerColor
  kittensInPool : Nat
  catsInPool : Nat
  kittensRetired : Nat
  socketId : String
  name : String
  connected : Bool
  playerToken : Option String
deriving DecidableEq, Repr

/-- The two player slots (`this.players` in `BoopGame`). -/
structure Players where
  orange : Option PlayerState
  gray : Option PlayerState
deriving DecidableEq, Repr

/-- A recorded boop effect `{from, to}`; `to = none` means pushed off-board. -/
structure BoopEffect where
  fromCell : Cell
  toCell : Option Cell
deriving DecidableEq, Repr

/-- The full engine state (the private fields of `BoopGame`). -/
structure GameState where
  board : Board
  players : Players
  currentTurn : PlayerColor
  phase : Phase
  winner : Option PlayerColor
  lastMove : Option Cell
  boopedPieces : List BoopEffect
  graduatedPieces : List Cell
  pendingGraduationOptions : Option (List (List Cell))
  pendingGraduationPlayer : Option PlayerColor

instance : DecidableEq GameState := fun a b =>
  decidable_of_iff
    (a.board = b.board ∧ a.players = b.players ∧ a.currentTurn = b.currentTurn ∧
      a.phase = b.phase ∧ a.winner = b.winner ∧ a.lastMove = b.lastMove ∧
      a.boopedPieces = b.boopedPieces ∧ a.graduatedPieces = b.graduatedPieces ∧
      a.pendingGraduationOptions = b.pendingGraduationOptions ∧
      a.pendingGraduationPlayer = b.pendingGraduationPlayer)
    (by cases a; cases b; rw [GameState.mk.injEq])

/-- `MoveResult` from `types.ts`. -/
structure MoveResult where
  valid : Bool
  error : Option String
  boopedPieces : List BoopEffect
  graduatedPieces : List Cell
  newCatsEarned : Nat
  winner : Option PlayerColor
  winCondition : Option WinCondition
  pendingGraduationOptions : Option (List (List Cell))
  requiresGraduationChoice : Bool
deriving DecidableEq, Repr

/-- `GraduationResult` from `types.ts`. -/
structure GraduationResult where
  valid : Bool
  error : Option String
  graduatedPieces : List Cell
  newCatsEarned : Nat
  winner : Option PlayerColor
  winCondition : Option WinCondition
deriving DecidableEq, Repr

/-- The 8 adjacency directions (`DIRECTIONS` in `types.ts`). -/
def DIRECTIONS : List (Int × Int) :=
  [(-1, -1), (-1, 0), (-1, 1), (0, -1), (0, 1), (1, -1), (1, 0), (1, 1)]

/-- The 4 line directions (`LINE_DIRECTIONS` in `types.ts`). -/
def LINE_DIRECTIONS : List (Int × Int) :=
  [(0, 1), (1, 0), (1, 1), (1, -1)]

/-- `isValidPosition`: `row >= 0 && row < 6 && col >= 0 && col < 6`. -/
def isValidPosition (row col : Int) : Bool :=
  0 ≤ row && row < 6 && 0 ≤ col && col < 6

/-- Convert an `Int` coordinate pair to an in-bounds position, when valid. -/
def toPos? (row col : Int) : Option Pos :=
  if h : 0 ≤ row ∧ row < 6 ∧ 0 ≤ col ∧ col < 6 then
    some (⟨row.toNat, by omega⟩, ⟨col.toNat, by omega⟩)
  else none

/-- `getPiece` / direct board reads: out-of-bounds reads yield `null`. -/
def getCell (b : Board) (row col : Int) : Option Piece :=
  match toPos? row col with
  | some q => b q
  | none => none

/-- Board writes `this.board[row][col] = v` (only ever done in bounds in the
source; an out-of-bounds write is a no-op here). -/
def setCell (b : Board) (row col : Int) (v : Option Piece) : Board :=
  match toPos? row col with
  | some q => Function.update b q v
  | none => b

/-- The empty board (`createEmptyBoard`). -/
def emptyBoard : Board := fun _ => none

/-- Row-major list of all in-bounds coordinates, in the iteration order of
the source's nested `for (row) for (col)` loops. -/
def cellList : List (Int × Int) :=
  (List.range 6).flatMap fun r => (List.range 6).map fun c => ((r : Int), (c : Int))

/-- Read a player slot by color (`this.players[color]`). -/
def slotPlayer (ps : Players) : PlayerColor → Option PlayerState
  | .orange => ps.orange
  | .gray => ps.gray

/-- Write a player slot by color. -/
def setSlot (ps : Players) : PlayerColor → PlayerState → Players
  | .orange, p => { ps with orange := some p }
  | .gray, p => { ps with gray := some p }

/-- Mutate the player object held in a slot, if present (the source mutates
the object in place through an alias). -/
def updateSlot (ps : Players) (c : PlayerColor) (f : PlayerState → PlayerState) : Players :=
  match slotPlayer ps c with
  | some p => setSlot ps c (f p)
  | none => ps

/-- `getPlayerBySocketId`, also recording which slot matched (the source
returns an alias into the slot; the slot color is needed to write back). -/
def findPlayer (ps : Players) (sid : String) : Option (PlayerColor × PlayerState) :=
  match ps.orange with
  | some p =>
    if p.socketId = sid then some (PlayerColor.orange, p)
    else
      match ps.gray with
      | some q => if q.socketId = sid then some (PlayerColor.gray, q) else none
      | none => none
  | none =>
    match ps.gray with
    | some q => if q.socketId = sid then some (PlayerColor.gray, q) else none
    | none => none

/-- `this.currentTurn === 'orange' ? 'gray' : 'orange'`. -/
def otherColor : PlayerColor → PlayerColor
  | .orange => .gray
  | .gray => .orange

/-! ### Board counting

The source's counting loops (`countPiecesOnBoard`, the cat count in
`checkWinCondition`) visit every cell once and count matches; they are
rendered as sums over all positions. -/

/-- The contribution of one cell content to a count. -/
def contrib (o : Option Piece) (pred : Piece → Bool) : Nat :=
  match o with
  | some p => if pred p then 1 else 0
  | none => 0

/-- Count the board cells whose piece satisfies `pred`. -/
def countP (b : Board) (pred : Piece → Bool) : Nat :=
  Finset.univ.sum fun q : Pos => contrib (b q) pred

/-- Kittens of a color currently on the board. -/
def kittensOnBoard (b : Board) (c : PlayerColor) : Nat :=
  countP b fun p => p.color = c && p.type = PieceType.kitten

/-- Cats of a color currently on the board. -/
def catsOnBoard (b : Board) (c : PlayerColor) : Nat :=
  countP b fun p => p.color = c && p.type = PieceType.cat

/-- `countPiecesOnBoard`: all pieces of a color on the board. -/
def countPiecesOnBoard (b : Board) (c : PlayerColor) : Nat :=
  countP b fun p => p.color = c

/-! ### Boop resolution (`executeBoop`)

The source's loop body for one direction first reads the current board
(adjacent piece, kitten-vs-cat rule, blocked destination) and then mutates
it.  The body is factored into a read phase (`boopDecision`) and a write
phase (`applyBoopAction`); `boopStep` is the composed loop body and
`executeBoop` folds it over the 8 directions in source order. -/

/-- What the loop body decides to do for one direction: which piece moves
from where to where (`dest = none` = pushed off-board), or `none` = skip. -/
structure BoopAction where
  fromR : Int
  fromC : Int
  dest : Option (Int × Int)
  piece : Piece
deriving DecidableEq, Repr

/-- The read phase of the boop loop body: inspect the adjacent cell and the
landing cell on board `b` and decide the action for direction `d`. -/
def boopDecision (b : Board) (placedType : PieceType) (placedRow placedCol : Int)
    (d : Int × Int) : Option BoopAction :=
  let adjRow := placedRow + d.1
  let adjCol := placedCol + d.2
  match getCell b adjRow adjCol with
  | none => none
  | some adjPiece =>
    -- Kittens cannot boop cats
    if placedType = PieceType.kitten ∧ adjPiece.type = PieceType.cat then none
    else
      let destRow := adjRow + d.1
      let destCol := adjCol + d.2
      -- Cannot push into an occupied space
      if isValidPosition destRow destCol ∧ getCell b destRow destCol ≠ none then none
      else if isValidPosition destRow destCol then
        some ⟨adjRow, adjCol, some (destRow, destCol), adjPiece⟩
      else
        some ⟨adjRow, adjCol, none, adjPiece⟩

/-- Mutable state of the boop pass: the board, the player slots (for
off-board pool returns) and the effect log. -/
structure BoopState where
  board : Board
  players : Players
  booped : List BoopEffect
deriving DecidableEq

/-- Off-board return: increment the owner's matching pool (no-op when the
owner slot is empty, as in the source's `if (owner)` guard). -/
def returnToPool (ps : Players) (p : Piece) : Players :=
  updateSlot ps p.color fun owner =>
    if p.type = PieceType.kitten then
      { owner with kittensInPool := owner.kittensInPool + 1 }
    else
      { owner with catsInPool := owner.catsInPool + 1 }

/-- The write phase of the boop loop body. -/
def applyBoopAction (s : BoopState) (act : Option BoopAction) : BoopState :=
  match act with
  | none => s
  | some a =>
    let b1 := setCell s.board a.fromR a.fromC none
    match a.dest with
    | some (dr, dc) =>
      { board := setCell b1 dr dc (some a.piece)
        players := s.players
        booped := s.booped ++ [⟨⟨a.fromR, a.fromC⟩, some ⟨dr, dc⟩⟩] }
    | none =>
      { board := b1
        players := returnToPool s.players a.piece
        booped := s.booped ++ [⟨⟨a.fromR, a.fromC⟩, none⟩] }

/-- One iteration of the `for (const [dRow, dCol] of DIRECTIONS)` loop. -/
def boopStep (placedType : PieceType) (placedRow placedCol : Int)
    (s : BoopState) (d : Int × Int) : BoopState :=
  applyBoopAction s (boopDecision s.board placedType placedRow placedCol d)

/-- `executeBoop` (identical logic in `BoopGame.executeBoop` and in
`LocalGame.executeBoop`): a single pass over the 8 directions. -/
def executeBoop (b : Board) (ps : Players) (placedRow placedCol : Int)
    (placedPiece : Piece) : BoopState :=
  DIRECTIONS.foldl (boopStep placedPiece.type placedRow placedCol) ⟨b, ps, []⟩

/-! ### Lines and graduation options -/

/-- `getLineFromPosition`'s while loop, with explicit fuel.  The loop walks
in direction `d` while the cell holds a piece of `color`; starting
in-bounds with a direction from `LINE_DIRECTIONS` it runs at most 6
iterations, so fuel 8 is never exhausted. -/
def getLineAux (b : Board) (d : Int × Int) (color : PlayerColor) :
    Nat → Int → Int → List Cell
  | 0, _, _ => []
  | fuel + 1, row, col =>
    match getCell b row col with
    | some p =>
      if p.color = color then
        ⟨row, col⟩ :: getLineAux b d color fuel (row + d.1) (col + d.2)
      else []
    | none => []

/-- `getLineFromPosition` (same code in `BoopGame` and `LocalGame`). -/
def getLineFrom (b : Board) (row col : Int) (d : Int × Int)
    (color : PlayerColor) : List Cell :=
  getLineAux b d color 8 row col

/-- `line.some(cell => piece && piece.type === 'kitten')`. -/
def hasKittenAt (b : Board) (cells : List Cell) : Bool :=
  cells.any fun cell =>
    match getCell b cell.row cell.col with
    | some p => p.type = PieceType.kitten
    | none => false

/-- The dedup key: the option's cells as coordinate pairs, sorted — the
source sorts the `"row,col"` strings, which (single-digit coordinates)
orders exactly like the lexicographic order on `(row, col)`. -/
def keyLe (a b : Int × Int) : Bool :=
  a.1 < b.1 || (a.1 = b.1 && a.2 ≤ b.2)

/-- Insertion into a `keyLe`-sorted list. -/
def keyInsert (x : Int × Int) : List (Int × Int) → List (Int × Int)
  | [] => [x]
  | y :: ys => if keyLe x y then x :: y :: ys else y :: keyInsert x ys

/-- Insertion sort by `keyLe`. -/
def keySort (l : List (Int × Int)) : List (Int × Int) :=
  l.foldr keyInsert []

/-- The unique key of an option (`option.map(c => "r,c").sort().join('|')`). -/
def optKey (option : List Cell) : List (Int × Int) :=
  keySort (option.map fun c => (c.row, c.col))

/-- The contiguous 3-cell window of a line starting at index `i`
(`line.slice(i, i + 3)`). -/
def window (line : List Cell) (i : Nat) : List Cell :=
  (line.drop i).take 3

/-- The inner loop of `findGraduationOptions` over one discovered line: push
every kitten-containing 3-window whose cell-set has not been seen. -/
def addLineOptions (b : Board) (line : List Cell)
    (acc : List (List Cell) × List (List (Int × Int))) :
    List (List Cell) × List (List (Int × Int)) :=
  (List.range (line.length - 2)).foldl
    (fun acc i =>
      let option := window line i
      if hasKittenAt b option then
        let key := optKey option
        if key ∈ acc.2 then acc else (acc.1 ++ [option], acc.2 ++ [key])
      else acc)
    acc

/-- All `(row, col, direction)` scan origins, in source iteration order. -/
def scanTriples : List (Int × Int × (Int × Int)) :=
  cellList.flatMap fun rc => LINE_DIRECTIONS.map fun d => (rc.1, rc.2, d)

/-- One iteration of the scan: extend the line from this origin and, if it
is long enough and contains a kitten, collect its windows. -/
def scanStep (b : Board) (color : PlayerColor)
    (acc : List (List Cell) × List (List (Int × Int)))
    (t : Int × Int × (Int × Int)) :
    List (List Cell) × List (List (Int × Int)) :=
  let line := getLineFrom b t.1 t.2.1 t.2.2 color
  if 3 ≤ line.length ∧ hasKittenAt b line then addLineOptions b line acc else acc

/-- `findGraduationOptions` (same code in `BoopGame` and `LocalGame`). -/
def findGraduationOptions (b : Board) (color : PlayerColor) : List (List Cell) :=
  (scanTriples.foldl (scanStep b color) ([], [])).1

/-! ### Graduation execution -/

/-- One iteration of `executeGraduationOption`'s loop over the option's
cells, threading the engine state and the cats-earned counter. -/
def gradStep (color : PlayerColor) (acc : GameState × Nat) (cell : Cell) :
    GameState × Nat :=
  let (g, earned) := acc
  match getCell g.board cell.row cell.col with
  | none => (g, earned)
  | some piece =>
    let g1 := { g with
      board := setCell g.board cell.row cell.col none
      graduatedPieces := g.graduatedPieces ++ [cell] }
    if piece.type = PieceType.kitten then
      ({ g1 with players := updateSlot g1.players color fun p =>
          { p with kittensRetired := p.kittensRetired + 1
                   catsInPool := p.catsInPool + 1 } },
        earned + 1)
    else
      -- Cat was part of the line, just returns to pool
      ({ g1 with players := updateSlot g1.players color fun p =>
          { p with catsInPool := p.catsInPool + 1 } },
        earned)

/-- `executeGraduationOption`: empty the option's cells, retiring kittens
(pool cat minted) and returning cats to the pool.  Returns cats earned. -/
def executeGraduationOption (g : GameState) (option : List Cell)
    (color : PlayerColor) : GameState × Nat :=
  match slotPlayer g.players color with
  | none => (g, 0)
  | some _ => option.foldl (gradStep color) (g, 0)

/-- The row-major scan of `checkAndExecuteGraduation`'s forced-graduation
branch: the first kitten of the color. -/
def findFirstKitten (b : Board) (color : PlayerColor) : Option Cell :=
  cellList.findSome? fun rc =>
    match getCell b rc.1 rc.2 with
    | some p =>
      if p.color = color ∧ p.type = PieceType.kitten then some ⟨rc.1, rc.2⟩
      else none
    | none => none

/-- `checkAndExecuteGraduation`: zero options → forced-graduation fallback;
one option → auto-apply; several → store them and pause in
`selecting_graduation`.  Returns cats earned. -/
def checkAndExecuteGraduation (g : GameState) (playerColor : PlayerColor) :
    GameState × Nat :=
  match slotPlayer g.players playerColor with
  | none => (g, 0)
  | some player =>
    match findGraduationOptions g.board playerColor with
    | [] =>
      let piecesOnBoard := countPiecesOnBoard g.board playerColor
      if 8 ≤ piecesOnBoard ∧ player.kittensRetired + player.catsInPool < 8 then
        match findFirstKitten g.board playerColor with
        | some cell =>
          ({ g with
              board := setCell g.board cell.row cell.col none
              players := updateSlot g.players playerColor fun p =>
                { p with kittensRetired := p.kittensRetired + 1
                         catsInPool := p.catsInPool + 1 }
              graduatedPieces := g.graduatedPieces ++ [cell] }, 1)
        | none => (g, 0)
      else (g, 0)
    | [option] => executeGraduationOption g option playerColor
    | options =>
      ({ g with
          pendingGraduationOptions := some options
          pendingGraduationPlayer := some playerColor
          phase := Phase.selecting_graduation }, 0)

/-! ### Win check -/

/-- `checkCatLineFromPosition`: 3 consecutive cats of the color from a
start position along a direction. -/
def checkCatLine (b : Board) (startRow startCol : Int) (d : Int × Int)
    (color : PlayerColor) : Bool :=
  [0, 1, 2].all fun i =>
    match getCell b (startRow + i * d.1) (startCol + i * d.2) with
    | some p => p.color = color && p.type = PieceType.cat
    | none => false

/-- The scan of `checkWinCondition`'s first phase: any 3-cat line. -/
def hasCatLine (b : Board) (color : PlayerColor) : Bool :=
  scanTriples.any fun t => checkCatLine b t.1 t.2.1 t.2.2 color

/-- `BoopGame.checkWinCondition`. -/
def checkWinCondition (g : GameState) (playerColor : PlayerColor) :
    Option WinCondition :=
  match slotPlayer g.players playerColor with
  | none => none
  | some _ =>
    if hasCatLine g.board playerColor then some WinCondition.three_cats_in_row
    else if 8 ≤ catsOnBoard g.board playerColor then some WinCondition.all_eight_cats
    else none

/-! ### The public operations -/

/-- A failed `MoveResult`. -/
def invalidMove (err : String) : MoveResult :=
  { valid := false, error := some err, boopedPieces := [], graduatedPieces := []
    newCatsEarned := 0, winner := none, winCondition := none
    pendingGraduationOptions := none, requiresGraduationChoice := false }

/-- A failed `GraduationResult`. -/
def invalidGraduation (err : String) : GraduationResult :=
  { valid := false, error := some err, graduatedPieces := []
    newCatsEarned := 0, winner := none, winCondition := none }

/-- The placement step of `placePiece`: put the piece on the board, deduct
the pool, record `lastMove`. -/
def afterPlace (g : GameState) (slot : PlayerColor) (player : PlayerState)
    (row col : Int) (pieceType : PieceType) : GameState :=
  let newPiece : Piece := ⟨player.color, pieceType⟩
  let player1 :=
    if pieceType = PieceType.kitten then
      { player with kittensInPool := player.kittensInPool - 1 }
    else
      { player with catsInPool := player.catsInPool - 1 }
  { g with
    board := setCell g.board row col (some newPiece)
    players := setSlot g.players slot player1
    lastMove := some ⟨row, col⟩ }

/-- The state after placement and the boop pass. -/
def afterBoop (g : GameState) (slot : PlayerColor) (player : PlayerState)
    (row col : Int) (pieceType : PieceType) : GameState :=
  let g1 := afterPlace g slot player row col pieceType
  let s := executeBoop g1.board g1.players row col ⟨player.color, pieceType⟩
  { g1 with board := s.board, players := s.players, boopedPieces := s.booped }

/-- `this.pendingGraduationOptions && this.pendingGraduationOptions.length > 1`. -/
def pendingLarge (g : GameState) : Bool :=
  match g.pendingGraduationOptions with
  | some opts => 1 < opts.length
  | none => false

/-- The successful tail of `placePiece` after all validation: place the
piece, run the boop pass, resolve graduation, and either suspend for a
choice or run the win check and switch turns. -/
def placePieceCore (g : GameState) (slot : PlayerColor) (player : PlayerState)
    (row col : Int) (pieceType : PieceType) : GameState × MoveResult :=
  let g2 := afterBoop g slot player row col pieceType
  let gr := checkAndExecuteGraduation g2 player.color
  let g3 := gr.1
  -- If we entered graduation selection phase, don't switch turns or check win yet
  if pendingLarge g3 then
    (g3,
      { valid := true, error := none, boopedPieces := g3.boopedPieces
        graduatedPieces := [], newCatsEarned := 0, winner := none
        winCondition := none, pendingGraduationOptions := g3.pendingGraduationOptions
        requiresGraduationChoice := true })
  else
    let winResult := checkWinCondition g3 player.color
    let g4 :=
      if winResult.isSome then
        { g3 with phase := Phase.finished, winner := some player.color }
      else g3
    let g5 := { g4 with currentTurn := otherColor g4.currentTurn }
    (g5,
      { valid := true, error := none, boopedPieces := g5.boopedPieces
        graduatedPieces := g5.graduatedPieces, newCatsEarned := gr.2
        winner := g5.winner, winCondition := winResult
        pendingGraduationOptions := none, requiresGraduationChoice := false })

/-- `BoopGame.placePiece`.  Note that the animation logs are reset *before*
any validation, exactly as in the source. -/
def placePiece (g0 : GameState) (socketId : String) (row col : Int)
    (pieceType : PieceType) : GameState × MoveResult :=
  -- Reset animation tracking
  let g := { g0 with boopedPieces := [], graduatedPieces := [] }
  match findPlayer g.players socketId with
  | none => (g, invalidMove "Player not found")
  | some (slot, player) =>
    if g.phase ≠ Phase.playing then
      (g, invalidMove "Game is not in playing phase")
    else if player.color ≠ g.currentTurn then
      (g, invalidMove "Not your turn")
    else if ¬ isValidPosition row col then
      (g, invalidMove "Invalid position")
    else if getCell g.board row col ≠ none then
      (g, invalidMove "Cell is occupied")
    else if pieceType = PieceType.kitten ∧ player.kittensInPool = 0 then
      (g, invalidMove "No kittens available")
    else if pieceType = PieceType.cat ∧ player.catsInPool = 0 then
      (g, invalidMove "No cats available")
    else
      placePieceCore g slot player row col pieceType

/-- The successful tail of `selectGraduation` after all validation: reset
the graduation log, apply the chosen option, clear the pending state, run
the win check and finish or switch turns. -/
def selectGraduationCore (g : GameState) (player : PlayerState)
    (opts : List (List Cell)) (optionIndex : Int) : GameState × GraduationResult :=
  -- Reset graduated pieces tracking
  let g1 := { g with graduatedPieces := [] }
  let option := opts.getD optionIndex.toNat []
  let gr := executeGraduationOption g1 option player.color
  let g2 := { gr.1 with
    pendingGraduationOptions := none
    pendingGraduationPlayer := none }
  let winResult := checkWinCondition g2 player.color
  if winResult.isSome then
    let g3 := { g2 with phase := Phase.finished, winner := some player.color }
    (g3,
      { valid := true, error := none, graduatedPieces := g3.graduatedPieces
        newCatsEarned := gr.2, winner := g3.winner, winCondition := winResult })
  else
    let g3 := { g2 with phase := Phase.playing
                        currentTurn := otherColor g2.currentTurn }
    (g3,
      { valid := true, error := none, graduatedPieces := g3.graduatedPieces
        newCatsEarned := gr.2, winner := g3.winner, winCondition := winResult })

/-- `BoopGame.selectGraduation`. -/
def selectGraduation (g : GameState) (socketId : String) (optionIndex : Int) :
    GameState × GraduationResult :=
  match findPlayer g.players socketId with
  | none => (g, invalidGraduation "Player not found")
  | some (_, player) =>
    if g.phase ≠ Phase.selecting_graduation then
      (g, invalidGraduation "Not in graduation selection phase")
    else if some player.color ≠ g.pendingGraduationPlayer then
      (g, invalidGraduation "Not your turn to select graduation")
    else
      match g.pendingGraduationOptions with
      | none => (g, invalidGraduation "Invalid graduation option")
      | some opts =>
        if optionIndex < 0 ∨ (opts.length : Int) ≤ optionIndex then
          (g, invalidGraduation "Invalid graduation option")
        else
          selectGraduationCore g player opts optionIndex

/-! ### Game construction (`constructor` and `addPlayer`) -/

/-- The freshly constructed game (`new BoopGame()`). -/
def newGame : GameState :=
  { board := emptyBoard
    players := { orange := none, gray := none }
    currentTurn := PlayerColor.orange
    phase := Phase.waiting
    winner := none
    lastMove := none
    boopedPieces := []
    graduatedPieces := []
    pendingGraduationOptions := none
    pendingGraduationPlayer := none }

/-- `!slot || !slot.connected`: the slot can be (re)filled. -/
def slotOpen : Option PlayerState → Bool
  | none => true
  | some p => !p.connected

/-- The condition `!slot || (!slot.connected && available)` guarding each
branch of `addPlayer`. -/
def slotTakeable (slot : Option PlayerState) (available : Bool) : Bool :=
  match slot with
  | none => true
  | some p => !p.connected && available

/-- Build the `PlayerState` that `addPlayer` writes into a slot, keeping the
pools of a previous (disconnected) occupant via `?? defaults`. -/
def fillSlot (old : Option PlayerState) (c : PlayerColor) (sid name : String)
    (token : Option String) : PlayerState :=
  { color := c
    kittensInPool := (old.map PlayerState.kittensInPool).getD 8
    catsInPool := (old.map PlayerState.catsInPool).getD 0
    kittensRetired := (old.map PlayerState.kittensRetired).getD 0
    socketId := sid
    name := name
    connected := true
    playerToken := token }

/-- `(op?.connected) === true`, for the "start the game" checks. -/
def slotConnected : Option PlayerState → Bool
  | none => false
  | some p => p.connected

/-- `BoopGame.addPlayer`. -/
def addPlayer (g : GameState) (sid name : String) (token : Option String) :
    GameState × Option PlayerColor :=
  let orangeAvailable := slotOpen g.players.orange
  let grayAvailable := slotOpen g.players.gray
  if slotTakeable g.players.orange orangeAvailable then
    let g1 := { g with players := { g.players with
      orange := some (fillSlot g.players.orange PlayerColor.orange sid name token) } }
    let g2 :=
      if slotConnected g1.players.gray then { g1 with phase := Phase.playing } else g1
    (g2, some PlayerColor.orange)
  else if slotTakeable g.players.gray grayAvailable then
    let g1 := { g with players := { g.players with
      gray := some (fillSlot g.players.gray PlayerColor.gray sid name token) } }
    let g2 :=
      if slotConnected g1.players.orange then { g1 with phase := Phase.playing } else g1
    (g2, some PlayerColor.gray)
  else
    (g, none)

/-- A fresh two-player game: `new BoopGame()` followed by two successful
`addPlayer` calls. -/
def freshGame (sid1 name1 : String) (t1 : Option String)
    (sid2 name2 : String) (t2 : Option String) : GameState :=
  (addPlayer (addPlayer newGame sid1 name1 t1).1 sid2 name2 t2).1

/-! ### The client-side simulator (`LocalGame.ts`)

`LocalGame` duplicates the engine's boop pass, line scan and graduation
options verbatim (`executeBoop`, `getLineFromPosition`,
`findGraduationOptions` are the same code), so those definitions are
shared.  The functions below differ from the engine versions in their
state plumbing and are translated separately. -/

/-- A candidate move `{row, col, pieceType}` (bot/simulator only). -/
structure Move where
  row : Int
  col : Int
  pieceType : PieceType
deriving DecidableEq, Repr

/-- `getAllEmptyCells`: row-major list of empty cells. -/
def getAllEmptyCells (b : Board) : List Cell :=
  cellList.filterMap fun rc =>
    if getCell b rc.1 rc.2 = none then some ⟨rc.1, rc.2⟩ else none

/-- `getAllValidMoves`: for each empty cell, a kitten move if the pool has
kittens and a cat move if it has cats. -/
def getAllValidMoves (state : GameState) (color : PlayerColor) : List Move :=
  match slotPlayer state.players color with
  | none => []
  | some player =>
    (getAllEmptyCells state.board).flatMap fun cell =>
      (if 0 < player.kittensInPool then [⟨cell.row, cell.col, PieceType.kitten⟩] else []) ++
      (if 0 < player.catsInPool then [⟨cell.row, cell.col, PieceType.cat⟩] else [])

/-- `LocalGame.executeGraduationOption`, which threads `(board, player)`
instead of the whole engine state. -/
def localExecuteGraduationOption (b : Board) (player : PlayerState)
    (option : List Cell) : Board × List Cell × PlayerState × Nat :=
  option.foldl
    (fun acc cell =>
      let (b, grad, player, earned) := acc
      match getCell b cell.row cell.col with
      | none => (b, grad, player, earned)
      | some piece =>
        let b1 := setCell b cell.row cell.col none
        if piece.type = PieceType.kitten then
          (b1, grad ++ [cell],
            { player with kittensRetired := player.kittensRetired + 1
                          catsInPool := player.catsInPool + 1 },
            earned + 1)
        else
          (b1, grad ++ [cell],
            { player with catsInPool := player.catsInPool + 1 }, earned))
    (b, [], player, 0)

/-- Result record of `LocalGame.checkAndExecuteGraduation`. -/
structure LocalGradResult where
  board : Board
  graduatedPieces : List Cell
  player : PlayerState
  catsEarned : Nat
  pendingOptions : Option (List (List Cell))
deriving DecidableEq

/-- `LocalGame.checkAndExecuteGraduation`. -/
def localCheckAndExecuteGraduation (b : Board) (player : PlayerState)
    (color : PlayerColor) : LocalGradResult :=
  match findGraduationOptions b color with
  | [] =>
    if 8 ≤ countPiecesOnBoard b color ∧
        player.kittensRetired + player.catsInPool < 8 then
      match findFirstKitten b color with
      | some cell =>
        { board := setCell b cell.row cell.col none
          graduatedPieces := [cell]
          player := { player with kittensRetired := player.kittensRetired + 1
                                  catsInPool := player.catsInPool + 1 }
          catsEarned := 1
          pendingOptions := none }
      | none =>
        { board := b, graduatedPieces := [], player := player
          catsEarned := 0, pendingOptions := none }
    else
      { board := b, graduatedPieces := [], player := player
        catsEarned := 0, pendingOptions := none }
  | [option] =>
    let r := localExecuteGraduationOption b player option
    { board := r.1, graduatedPieces := r.2.1, player := r.2.2.1
      catsEarned := r.2.2.2, pendingOptions := none }
  | options =>
    { board := b, graduatedPieces := [], player := player
      catsEarned := 0, pendingOptions := some options }

/-- `LocalGame.findCatLines`: all 3-cat lines of a color. -/
def findCatLines (b : Board) (color : PlayerColor) : List (List Cell) :=
  scanTriples.foldl
    (fun acc t =>
      if checkCatLine b t.1 t.2.1 t.2.2 color then
        acc ++ [[⟨t.1, t.2.1⟩,
                 ⟨t.1 + t.2.2.1, t.2.1 + t.2.2.2⟩,
                 ⟨t.1 + 2 * t.2.2.1, t.2.1 + 2 * t.2.2.2⟩]]
      else acc)
    []

/-- `LocalGame.checkWinCondition` (no player-present guard, unlike the
engine's). -/
def localCheckWinCondition (b : Board) (color : PlayerColor) : Option WinCondition :=
  if findCatLines b color ≠ [] then some WinCondition.three_cats_in_row
  else if 8 ≤ catsOnBoard b color then some WinCondition.all_eight_cats
  else none

/-- `SimulationResult` from `bot/types.ts`. -/
structure SimulationResult where
  valid : Bool
  newBoard : Board
  boopedPieces : List BoopEffect
  graduatedPieces : List Cell
  wins : Bool
  winCondition : Option WinCondition
  createsGraduation : Bool
  newKittensInPool : Nat
  newCatsInPool : Nat
deriving DecidableEq

/-- An invalid simulation result with the given reported pool counts. -/
def invalidSim (b : Board) (kp cp : Nat) : SimulationResult :=
  { valid := false, newBoard := b, boopedPieces := [], graduatedPieces := []
    wins := false, winCondition := none, createsGraduation := false
    newKittensInPool := kp, newCatsInPool := cp }

/-- `LocalGame.simulateMove`: validation, then the whole placement + boop +
graduation + win-check pipeline on cloned structures.  The source's
`simPlayer` is an alias into `simPlayers[color]`, so after the boop pass
(which can return the mover's own booped-off piece to their pool) the
player is re-read from the slot; the slot is necessarily occupied, so the
`getD` default is never used. -/
def simulateMove (state : GameState) (row col : Int) (pieceType : PieceType)
    (color : PlayerColor) : SimulationResult :=
  if ¬ isValidPosition row col ∨ getCell state.board row col ≠ none then
    invalidSim state.board
      (((slotPlayer state.players color).map PlayerState.kittensInPool).getD 0)
      (((slotPlayer state.players color).map PlayerState.catsInPool).getD 0)
  else
    match slotPlayer state.players color with
    | none => invalidSim state.board 0 0
    | some player =>
      if pieceType = PieceType.kitten ∧ player.kittensInPool = 0 then
        invalidSim state.board player.kittensInPool player.catsInPool
      else if pieceType = PieceType.cat ∧ player.catsInPool = 0 then
        invalidSim state.board player.kittensInPool player.catsInPool
      else
        let newPiece : Piece := ⟨color, pieceType⟩
        let simBoard := setCell state.board row col (some newPiece)
        let simPlayer1 :=
          if pieceType = PieceType.kitten then
            { player with kittensInPool := player.kittensInPool - 1 }
          else
            { player with catsInPool := player.catsInPool - 1 }
        let s := executeBoop simBoard (setSlot state.players color simPlayer1) row col newPiece
        let simPlayer2 := (slotPlayer s.players color).getD simPlayer1
        let grad := localCheckAndExecuteGraduation s.board simPlayer2 color
        let winResult := localCheckWinCondition grad.board color
        { valid := true
          newBoard := grad.board
          boopedPieces := s.booped
          graduatedPieces := grad.graduatedPieces
          wins := winResult.isSome
          winCondition := winResult
          createsGraduation := 0 < grad.graduatedPieces.length
          newKittensInPool := grad.player.kittensInPool
          newCatsInPool := grad.player.catsInPool }

/-- Result of `LocalGame.executeMove`. -/
structure ExecResult where
  newState : GameState
  valid : Bool
  error : Option String
deriving DecidableEq

/-- `LocalGame.executeMove` (the committing variant used by bot-vs-bot
driving).  The source reads the player slot with a non-null assertion;
the impossible empty-slot case is rendered as an invalid result. -/
def executeMove (state : GameState) (row col : Int) (pieceType : PieceType)
    (color : PlayerColor) : ExecResult :=
  if state.currentTurn ≠ color then
    { newState := state, valid := false, error := some "Not your turn" }
  else if state.phase ≠ Phase.playing then
    { newState := state, valid := false, error := some "Game not in playing phase" }
  else
    match slotPlayer state.players color with
    | none => { newState := state, valid := false, error := some "Player not found" }
    | some player =>
      if ¬ isValidPosition row col ∨ getCell state.board row col ≠ none then
        { newState := state, valid := false, error := some "Invalid position" }
      else if pieceType = PieceType.kitten ∧ player.kittensInPool = 0 then
        { newState := state, valid := false, error := some "No kittens available" }
      else if pieceType = PieceType.cat ∧ player.catsInPool = 0 then
        { newState := state, valid := false, error := some "No cats available" }
      else
        let newPiece : Piece := ⟨color, pieceType⟩
        let player1 :=
          if pieceType = PieceType.kitten then
            { player with kittensInPool := player.kittensInPool - 1 }
          else
            { player with catsInPool := player.catsInPool - 1 }
        let b1 := setCell state.board row col (some newPiece)
        let ps1 := setSlot state.players color player1
        let s := executeBoop b1 ps1 row col newPiece
        let player2 := (slotPlayer s.players color).getD player1
        let grad := localCheckAndExecuteGraduation s.board player2 color
        let ns := { state with
          board := grad.board
          players := setSlot s.players color grad.player
          lastMove := some ⟨row, col⟩
          boopedPieces := s.booped
          graduatedPieces := grad.graduatedPieces }
        match grad.pendingOptions with
        | some opts =>
          if 1 < opts.length then
            ({ newState := { ns with
                phase := Phase.selecting_graduation
                pendingGraduationOptions := some opts
                pendingGraduationPlayer := some color }
               valid := true, error := none })
          else
            match localCheckWinCondition ns.board color with
            | some _ =>
              { newState := { ns with phase := Phase.finished, winner := some color }
                valid := true, error := none }
            | none =>
              { newState := { ns with currentTurn := otherColor color }
                valid := true, error := none }
        | none =>
          match localCheckWinCondition ns.board color with
          | some _ =>
            { newState := { ns with phase := Phase.finished, winner := some color }
              valid := true, error := none }
          | none =>
            { newState := { ns with currentTurn := otherColor color }
              valid := true, error := none }

/-! ### The bot's tier cascade (`BotAI.ts`)

`pickRandom` (uniform random tie-break) and `pickBestByTreeSearch` (the
negamax search used as tie-break by tiers 2–5) are abstracted as
parameters `pick` and `tree`; the tier-1 theorem holds for every
instantiation, in particular the source's. -/

/-- `BotAI.findWinningMoves` (tier 1 predicate). -/
def findWinningMoves (state : GameState) (color : PlayerColor)
    (moves : List Move) : List Move :=
  moves.filter fun m =>
    let sim := simulateMove state m.row m.col m.pieceType color
    sim.valid && sim.wins

/-- `BotAI.findBlockingMoves` (tier 2): own moves landing on a cell where
the opponent's next move would win.  The source collects the win cells in
a `Set` of `"row,col"` strings; a list of coordinate pairs with membership
tests is equivalent. -/
def findBlockingMoves (state : GameState) (color : PlayerColor)
    (moves : List Move) : List Move :=
  let opponentColor := otherColor color
  let opponentMoves := getAllValidMoves state opponentColor
  let opponentWinCells := opponentMoves.filterMap fun om =>
    let sim := simulateMove state om.row om.col om.pieceType opponentColor
    if sim.valid && sim.wins then some (om.row, om.col) else none
  if opponentWinCells = [] then []
  else moves.filter fun m => (m.row, m.col) ∈ opponentWinCells

/-- `BotAI.findGraduationMoves` (tier 3). -/
def findGraduationMoves (state : GameState) (color : PlayerColor)
    (moves : List Move) : List Move :=
  moves.filter fun m =>
    let sim := simulateMove state m.row m.col m.pieceType color
    sim.valid && sim.createsGraduation

/-- `BotAI.findBlockGraduationMoves` (tier 4). -/
def findBlockGraduationMoves (state : GameState) (color : PlayerColor)
    (moves : List Move) : List Move :=
  let opponentColor := otherColor color
  let opponentMoves := getAllValidMoves state opponentColor
  let opponentGradCells := opponentMoves.filterMap fun om =>
    let sim := simulateMove state om.row om.col om.pieceType opponentColor
    if sim.valid && sim.createsGraduation then some (om.row, om.col) else none
  if opponentGradCells = [] then []
  else moves.filter fun m => (m.row, m.col) ∈ opponentGradCells

/-- `BotAI.findBestMove`: the five-tier cascade.  `pick` stands for
`pickRandom`, `tree` for `pickBestByTreeSearch`. -/
def findBestMove (color : PlayerColor) (pick : List Move → Move)
    (tree : GameState → List Move → Move) (state : GameState) : Option Move :=
  let allMoves := getAllValidMoves state color
  if allMoves.length = 0 then none
  else
    let winningMoves := findWinningMoves state color allMoves
    if 0 < winningMoves.length then some (pick winningMoves)
    else
      let blockingMoves := findBlockingMoves state color allMoves
      if 0 < blockingMoves.length then some (tree state blockingMoves)
      else
        let graduationMoves := findGraduationMoves state color allMoves
        if 0 < graduationMoves.length then some (tree state graduationMoves)
        else
          let blockGraduationMoves := findBlockGraduationMoves state color allMoves
          if 0 < blockGraduationMoves.length then some (tree state blockGraduationMoves)
          else some (tree state allMoves)

/-! ### Concrete state builders (used by the witness theorems) -/

/-- Build a board from a placement list. -/
def boardOf (l : List (Cell × Piece)) : Board :=
  l.foldl (fun b cp => setCell b cp.1.row cp.1.col (some cp.2)) emptyBoard

/-- A connected player with explicit counters. -/
def mkPlayer (c : PlayerColor) (kp cp kr : Nat) (sid : String) : PlayerState :=
  { color := c, kittensInPool := kp, catsInPool := cp, kittensRetired := kr
    socketId := sid, name := "p", connected := true, playerToken := none }

/-- A mid-game two-player state in the `playing` phase. -/
def mkState (b : Board) (po pg : PlayerState) (turn : PlayerColor) : GameState :=
  { board := b
    players := { orange := some po, gray := some pg }
    currentTurn := turn
    phase := Phase.playing
    winner := none
    lastMove := none
    boopedPieces := []
    graduatedPieces := []
    pendingGraduationOptions := none
    pendingGraduationPlayer := none }

/-- Witness state for the tier-1 bot claim: gray (the bot) has two cats at
(0,0) and (0,1) and a cat in pool, so placing a cat at (0,2) wins. -/
def gW9 : GameState :=
  mkState (boardOf [(⟨0, 0⟩, ⟨.gray, .cat⟩), (⟨0, 1⟩, ⟨.gray, .cat⟩)])
    (mkPlayer .orange 8 0 0 "o") (mkPlayer .gray 5 1 3 "g") .gray

/-- Witness state for atomicity: a real position (reached from a fresh game
by two placements) whose boop-effect log is non-empty — gray's kitten at
(2,3) booped orange's kitten from (2,2) to (2,1), and it is orange's turn. -/
def gC3 : GameState :=
  (placePiece (placePiece (freshGame "s1" "a" none "s2" "b" none)
    "s1" 2 2 PieceType.kitten).1 "s2" 2 3 PieceType.kitten).1

/-- Failing input for the win-turn claim: orange has cats at (0,0) and
(0,1) and a cat in pool; placing a cat at (0,2) completes 3 cats in a
row. -/
def gC2 : GameState :=
  mkState (boardOf [(⟨0, 0⟩, ⟨.orange, .cat⟩), (⟨0, 1⟩, ⟨.orange, .cat⟩)])
    (mkPlayer .orange 5 1 3 "o") (mkPlayer .gray 8 0 0 "g") .orange

/-- Witness state for forced graduation: all 8 orange kittens are on the
board in 2-cell groups (no 3-in-line in any direction), pools empty. -/
def gC7 : GameState :=
  mkState (boardOf [
    (⟨0, 0⟩, ⟨.orange, .kitten⟩), (⟨0, 1⟩, ⟨.orange, .kitten⟩),
    (⟨0, 3⟩, ⟨.orange, .kitten⟩), (⟨0, 4⟩, ⟨.orange, .kitten⟩),
    (⟨2, 0⟩, ⟨.orange, .kitten⟩), (⟨2, 1⟩, ⟨.orange, .kitten⟩),
    (⟨2, 3⟩, ⟨.orange, .kitten⟩), (⟨2, 4⟩, ⟨.orange, .kitten⟩)])
    (mkPlayer .orange 0 0 0 "o") (mkPlayer .gray 8 0 0 "g") .orange

/-- The state reached inside a valid `placePiece` call right after the boop
pass (the "post-boop board" against which graduation options are found). -/
def postBoopState (g : GameState) (slot : PlayerColor) (player : PlayerState)
    (row col : Int) (pt : PieceType) : GameState :=
  afterBoop { g with boopedPieces := [], graduatedPieces := [] }
    slot player row col pt

/-- Witness state for graduation branching: orange kittens at (0,0) and
(0,1); placing a kitten at (0,2) forms exactly one 3-in-row option. -/
def gC5 : GameState :=
  mkState (boardOf [(⟨0, 0⟩, ⟨.orange, .kitten⟩), (⟨0, 1⟩, ⟨.orange, .kitten⟩)])
    (mkPlayer .orange 6 0 0 "o") (mkPlayer .gray 8 0 0 "g") .orange

/-- Colored-cell test: the cell holds a piece of the given color (the
walk condition of `getLineFromPosition`). -/
def cellColored (b : Board) (r c : Int) (color : PlayerColor) : Bool :=
  match getCell b r c with
  | some p => p.color = color
  | none => false

/-- Kitten-cell test (`piece && piece.type === 'kitten'` for one cell). -/
def kittenAt (b : Board) (cell : Cell) : Bool :=
  match getCell b cell.row cell.col with
  | some p => p.type = PieceType.kitten
  | none => false

/-- The `[0,1,2]` window of a 4-line starting at `(sr, sc)` along `d`. -/
def windowA (sr sc : Int) (d : Int × Int) : List Cell :=
  [⟨sr, sc⟩, ⟨sr + d.1, sc + d.2⟩, ⟨sr + d.1 + d.1, sc + d.2 + d.2⟩]

/-- The `[1,2,3]` window of a 4-line starting at `(sr, sc)` along `d`. -/
def windowB (sr sc : Int) (d : Int × Int) : List Cell :=
  [⟨sr + d.1, sc + d.2⟩, ⟨sr + d.1 + d.1, sc + d.2 + d.2⟩,
    ⟨sr + d.1 + d.1 + d.1, sc + d.2 + d.2 + d.2⟩]

/-- C6 counterexample board: three orange cats and one orange kitten in a
row — a maximal straight line of exactly 4 same-color pieces containing a
kitten, whose `[0,1,2]` window is all cats. -/
def bC6 : Board :=
  boardOf [(⟨2, 0⟩, ⟨.orange, .cat⟩), (⟨2, 1⟩, ⟨.orange, .cat⟩),
    (⟨2, 2⟩, ⟨.orange, .cat⟩), (⟨2, 3⟩, ⟨.orange, .kitten⟩)]

/-- C6 witness board: four gray kittens in a row (row 1, columns 1-4). -/
def bW6 : Board :=
  boardOf [(⟨1, 1⟩, ⟨.gray, .kitten⟩), (⟨1, 2⟩, ⟨.gray, .kitten⟩),
    (⟨1, 3⟩, ⟨.gray, .kitten⟩), (⟨1, 4⟩, ⟨.gray, .kitten⟩)]

/-! ### Heap model of the simulator (C8)

`simulateMove`'s purity claim is about JavaScript heap mutation, so the
relevant fragment is re-translated against an explicit object heap: board
arrays and player objects live in the heap, references are indices, and
every `x.f = v` / `x.f++` of the source becomes an explicit heap write.
`simulateMoveH` mirrors `simulateMove` line by line: it clones the player
objects and the board (fresh allocations, as the source's spreads and
`cloneBoard` do) and mutates only those. -/

/-- Heap reference to a board object. -/
abbrev BRef := Nat

/-- Heap reference to a player object. -/
abbrev PRef := Nat

/-- The object heap: board arrays and player objects, addressed by index. -/
structure Heap where
  boards : List Board
  players : List PlayerState

/-- Placeholder for reads of dangling references. -/
def defaultPlayer : PlayerState := mkPlayer PlayerColor.orange 0 0 0 ""

def readB (h : Heap) (r : BRef) : Board := h.boards.getD r emptyBoard

def writeB (h : Heap) (r : BRef) (b : Board) : Heap :=
  { h with boards := h.boards.set r b }

def allocB (h : Heap) (b : Board) : Heap × BRef :=
  ({ h with boards := h.boards ++ [b] }, h.boards.length)

def readP (h : Heap) (r : PRef) : PlayerState := h.players.getD r defaultPlayer

def writeP (h : Heap) (r : PRef) (p : PlayerState) : Heap :=
  { h with players := h.players.set r p }

def allocP (h : Heap) (p : PlayerState) : Heap × PRef :=
  ({ h with players := h.players ++ [p] }, h.players.length)

def modifyP (h : Heap) (r : PRef) (f : PlayerState → PlayerState) : Heap :=
  writeP h r (f (readP h r))

/-- A game state whose board and player objects live in the heap. -/
structure HGameState where
  board : BRef
  orange : Option PRef
  gray : Option PRef

/-- `players[color]` over optional player references. -/
def hslot (o g : Option PRef) : PlayerColor → Option PRef
  | PlayerColor.orange => o
  | PlayerColor.gray => g

/-- One direction of `LocalGame.executeBoop` on the heap: reads and writes
go through the cloned board ref `rb`; off-board returns mutate the cloned
player refs `po` / `pg`. -/
def boopStepH (pr pc : Int) (placedType : PieceType) (po pg : Option PRef)
    (rb : BRef) (acc : Heap × List BoopEffect) (d : Int × Int) :
    Heap × List BoopEffect :=
  let h := acc.1
  let adjRow := pr + d.1
  let adjCol := pc + d.2
  match getCell (readB h rb) adjRow adjCol with
  | none => acc
  | some adjPiece =>
    if placedType = PieceType.kitten ∧ adjPiece.type = PieceType.cat then acc
    else
      let destRow := adjRow + d.1
      let destCol := adjCol + d.2
      if isValidPosition destRow destCol ∧
          getCell (readB h rb) destRow destCol ≠ none then acc
      else
        let h1 := writeB h rb (setCell (readB h rb) adjRow adjCol none)
        if isValidPosition destRow destCol then
          (writeB h1 rb (setCell (readB h1 rb) destRow destCol (some adjPiece)),
            acc.2 ++ [⟨⟨adjRow, adjCol⟩, some ⟨destRow, destCol⟩⟩])
        else
          match hslot po pg adjPiece.color with
          | none => (h1, acc.2 ++ [⟨⟨adjRow, adjCol⟩, none⟩])
          | some owner =>
            (modifyP h1 owner fun p =>
              if adjPiece.type = PieceType.kitten then
                { p with kittensInPool := p.kittensInPool + 1 }
              else { p with catsInPool := p.catsInPool + 1 },
              acc.2 ++ [⟨⟨adjRow, adjCol⟩, none⟩])

/-- `LocalGame.executeBoop` on the heap: clones the board into a fresh ref
and mutates only that ref and the given player refs. -/
def executeBoopH (h : Heap) (rb0 : BRef) (pr pc : Int) (piece : Piece)
    (po pg : Option PRef) : Heap × BRef × List BoopEffect :=
  let a := allocB h (readB h rb0)
  let r := DIRECTIONS.foldl (boopStepH pr pc piece.type po pg a.2) (a.1, [])
  (r.1, a.2, r.2)

/-- One cell of `LocalGame.executeGraduationOption` on the heap. -/
def gradStepH (rp : PRef) (rb : BRef) (acc : Heap × List Cell × Nat)
    (cell : Cell) : Heap × List Cell × Nat :=
  let h := acc.1
  match getCell (readB h rb) cell.row cell.col with
  | none => acc
  | some piece =>
    let h1 := writeB h rb (setCell (readB h rb) cell.row cell.col none)
    if piece.type = PieceType.kitten then
      (modifyP h1 rp fun p =>
        { p with kittensRetired := p.kittensRetired + 1
                 catsInPool := p.catsInPool + 1 },
        acc.2.1 ++ [cell], acc.2.2 + 1)
    else
      (modifyP h1 rp fun p => { p with catsInPool := p.catsInPool + 1 },
        acc.2.1 ++ [cell], acc.2.2)

/-- `LocalGame.executeGraduationOption` on the heap: clones the board and
mutates only the clone and the player ref. -/
def executeGraduationOptionH (h : Heap) (rb0 : BRef) (option : List Cell)
    (rp : PRef) : Heap × BRef × List Cell × Nat :=
  let a := allocB h (readB h rb0)
  let r := option.foldl (gradStepH rp a.2) (a.1, [], 0)
  (r.1, a.2, r.2.1, r.2.2)

/-- `LocalGame.checkAndExecuteGraduation` on the heap. -/
def checkAndExecuteGraduationH (h : Heap) (rb0 : BRef) (rp : PRef)
    (color : PlayerColor) : Heap × BRef × List Cell × Nat :=
  let a := allocB h (readB h rb0)
  let h1 := a.1
  let rb := a.2
  match findGraduationOptions (readB h1 rb) color with
  | [] =>
    if 8 ≤ countPiecesOnBoard (readB h1 rb) color ∧
        (readP h1 rp).kittensRetired + (readP h1 rp).catsInPool < 8 then
      match findFirstKitten (readB h1 rb) color with
      | some cell =>
        (modifyP (writeB h1 rb (setCell (readB h1 rb) cell.row cell.col none))
          rp fun p =>
            { p with kittensRetired := p.kittensRetired + 1
                     catsInPool := p.catsInPool + 1 },
          rb, [cell], 1)
      | none => (h1, rb, [], 0)
    else (h1, rb, [], 0)
  | [option] => executeGraduationOptionH h1 rb option rp
  | _ => (h1, rb, [], 0)

/-- The tail of `simulateMove` after the player objects have been cloned:
clone the board, place, deduct, boop, graduate, win-check.  `sb` is the
caller's board ref, `po` / `pg` the cloned player refs and `rpSim` the
acting clone (`simPlayers[color]!`). -/
def simCoreH (h2 : Heap) (sb : BRef) (po pg : Option PRef) (rpSim : PRef)
    (row col : Int) (pieceType : PieceType) (color : PlayerColor) :
    Heap × SimulationResult :=
  -- let simBoard = cloneBoard(state.board); simBoard[row][col] = piece
  let ab := allocB h2 (readB h2 sb)
  let rb := ab.2
  let newPiece : Piece := ⟨color, pieceType⟩
  let h4 := writeB ab.1 rb (setCell (readB ab.1 rb) row col (some newPiece))
  -- deduct from pool
  let h5 := modifyP h4 rpSim fun p =>
    if pieceType = PieceType.kitten then
      { p with kittensInPool := p.kittensInPool - 1 }
    else { p with catsInPool := p.catsInPool - 1 }
  let eb := executeBoopH h5 rb row col newPiece po pg
  let gr := checkAndExecuteGraduationH eb.1 eb.2.1 rpSim color
  let h7 := gr.1
  let rb3 := gr.2.1
  let winResult := localCheckWinCondition (readB h7 rb3) color
  (h7,
    { valid := true
      newBoard := readB h7 rb3
      boopedPieces := eb.2.2
      graduatedPieces := gr.2.2.1
      wins := winResult.isSome
      winCondition := winResult
      createsGraduation := 0 < gr.2.2.1.length
      newKittensInPool := (readP h7 rpSim).kittensInPool
      newCatsInPool := (readP h7 rpSim).catsInPool })

/-- `LocalGame.simulateMove` on the heap: validation reads the caller's
objects; on the success path the player objects and the board are cloned
into fresh references and only those are ever written. -/
def simulateMoveH (h : Heap) (s : HGameState) (row col : Int)
    (pieceType : PieceType) (color : PlayerColor) : Heap × SimulationResult :=
  if ¬ isValidPosition row col ∨ getCell (readB h s.board) row col ≠ none then
    (h, invalidSim (readB h s.board)
      (((hslot s.orange s.gray color).map
        fun r => (readP h r).kittensInPool).getD 0)
      (((hslot s.orange s.gray color).map
        fun r => (readP h r).catsInPool).getD 0))
  else
    match hslot s.orange s.gray color with
    | none => (h, invalidSim (readB h s.board) 0 0)
    | some rp0 =>
      let player := readP h rp0
      if pieceType = PieceType.kitten ∧ player.kittensInPool = 0 then
        (h, invalidSim (readB h s.board) player.kittensInPool player.catsInPool)
      else if pieceType = PieceType.cat ∧ player.catsInPool = 0 then
        (h, invalidSim (readB h s.board) player.kittensInPool player.catsInPool)
      else
        -- const simPlayers = { orange: {...}, gray: {...} }
        let ao := match s.orange with
          | some r => let a := allocP h (readP h r); (a.1, some a.2)
          | none => (h, none)
        let ag := match s.gray with
          | some r => let a := allocP ao.1 (readP ao.1 r); (a.1, some a.2)
          | none => (ao.1, none)
        simCoreH ag.1 s.board ao.2 ag.2 ((hslot ao.2 ag.2 color).getD 0)
          row col pieceType color

/-- Heap non-interference: every board object below index `nb` and every
player object below index `np` is unchanged between the two heaps. -/
def PreservedBelow (nb np : Nat) (h0 h1 : Heap) : Prop :=
  (∀ i, i < nb → h1.boards.getD i emptyBoard = h0.boards.getD i emptyBoard) ∧
  (∀ j, j < np →
    h1.players.getD j defaultPlayer = h0.players.getD j defaultPlayer)

/-- The heap is at least as large as the given bounds. -/
def HeapGE (nb np : Nat) (h : Heap) : Prop :=
  nb ≤ h.boards.length ∧ np ≤ h.players.length

/-- C8 witness heap: one board object and one player object. -/
def hC8 : Heap :=
  { boards := [bC6], players := [mkPlayer PlayerColor.orange 8 0 0 "o"] }

/-- C8 witness state: references into `hC8`. -/
def sC8 : HGameState := { board := 0, orange := some 0, gray := none }

/-! ### Reachability and the conservation invariant -/

/-- The conservation bookkeeping for one color: the slot is occupied, its
`color` field agrees with the slot, every kitten is in the pool, on the
board or retired, and every cat is either pooled or on the board and came
from a retired kitten. -/
def consOk (b : Board) (ps : Players) (c : PlayerColor) : Prop :=
  ∃ pl, slotPlayer ps c = some pl ∧ pl.color = c ∧
    pl.kittensInPool + kittensOnBoard b c + pl.kittensRetired = 8 ∧
    pl.catsInPool + catsOnBoard b c = pl.kittensRetired

/-- Pending graduation options only ever hold cells occupied by pieces of
the pending player's color (they are recomputed from the board when set,
and the board cannot change while they are pending). -/
def PendingOk (g : GameState) : Prop :=
  ∀ opts, g.pendingGraduationOptions = some opts →
    ∃ p, g.pendingGraduationPlayer = some p ∧
      ∀ opt ∈ opts, ∀ cell ∈ opt, ∀ piece,
        getCell g.board cell.row cell.col = some piece → piece.color = p

/-- Pending options exist only in the `selecting_graduation` phase. -/
def PhasePendingOk (g : GameState) : Prop :=
  g.phase ≠ Phase.selecting_graduation → g.pendingGraduationOptions = none

/-- The inductive invariant maintained by every engine operation. -/
def Inv (g : GameState) : Prop :=
  consOk g.board g.players PlayerColor.orange ∧
  consOk g.board g.players PlayerColor.gray ∧
  PendingOk g ∧ PhasePendingOk g

/-- States reachable from a fresh two-player game by `placePiece` /
`selectGraduation` calls. -/
inductive Reachable : GameState → Prop where
  | fresh : ∀ sid1 name1 t1 sid2 name2 t2,
      Reachable (freshGame sid1 name1 t1 sid2 name2 t2)
  | place : ∀ g sid row col pt, Reachable g →
      Reachable (placePiece g sid row col pt).1
  | select : ∀ g sid i, Reachable g →
      Reachable (selectGraduation g sid i).1

/-! ## Helper lemmas -/

theorem foldl_preserve {α β : Type _} (P : α → Prop) (f : α → β → α)
    (l : List β) (init : α) (h0 : P init)
    (hstep : ∀ a b, b ∈ l → P a → P (f a b)) : P (l.foldl f init) := by
  induction l generalizing init with
  | nil => exact h0
  | cons x xs ih =>
    exact ih (f init x) (hstep init x (by simp) h0)
      fun a b hb => hstep a b (by simp [hb])

theorem foldl_establish {α β : Type _} (K : α → Prop) (f : α → β → α)
    (l : List β) (t : β) (ht : t ∈ l)
    (mono : ∀ a b, K a → K (f a b))
    (est : ∀ a, K (f a t)) (init : α) : K (l.foldl f init) := by
  induction l generalizing init with
  | nil => cases ht
  | cons x xs ih =>
    rcases List.mem_cons.mp ht with h | h
    · have hx : K (f init x) := h ▸ est init
      exact foldl_preserve K f xs (f init x) hx fun a b _ => mono a b
    · exact ih h (f init x)

theorem toPos?_coords {row col : Int} {q : Pos} (h : toPos? row col = some q) :
    ((q.1 : Nat) : Int) = row ∧ ((q.2 : Nat) : Int) = col := by
  unfold toPos? at h
  split at h
  · next hv =>
    cases h
    refine ⟨?_, ?_⟩
    · show ((row.toNat : Nat) : Int) = row
      omega
    · show ((col.toNat : Nat) : Int) = col
      omega
  · cases h

theorem toPos?_roundtrip (q : Pos) :
    toPos? ((q.1 : Nat) : Int) ((q.2 : Nat) : Int) = some q := by
  unfold toPos?
  have h1 : (q.1 : Nat) < 6 := q.1.isLt
  have h2 : (q.2 : Nat) < 6 := q.2.isLt
  rw [dif_pos (by refine ⟨?_, ?_, ?_, ?_⟩ <;> omega)]
  obtain ⟨⟨a, ha⟩, ⟨b, hb⟩⟩ := q
  simp

theorem getCell_pos {b : Board} {row col : Int} {q : Pos}
    (h : toPos? row col = some q) : getCell b row col = b q := by
  unfold getCell
  rw [h]

theorem setCell_pos {b : Board} {row col : Int} {q : Pos} {v : Option Piece}
    (h : toPos? row col = some q) :
    setCell b row col v = Function.update b q v := by
  unfold setCell
  rw [h]

theorem getCell_setCell_same {b : Board} {row col : Int} {q : Pos}
    {v : Option Piece} (h : toPos? row col = some q) :
    getCell (setCell b row col v) row col = v := by
  rw [getCell_pos h, setCell_pos h, Function.update_same]

theorem getCell_setCell_ne {b : Board} {row col row' col' : Int}
    {v : Option Piece} (h : (row, col) ≠ (row', col')) :
    getCell (setCell b row col v) row' col' = getCell b row' col' := by
  unfold getCell setCell
  cases hq : toPos? row col with
  | none => rfl
  | some q =>
    cases hq' : toPos? row' col' with
    | none => rfl
    | some q' =>
      have hne : q ≠ q' := by
        intro he
        subst he
        obtain ⟨h1, h2⟩ := toPos?_coords hq
        obtain ⟨h1', h2'⟩ := toPos?_coords hq'
        exact h (by rw [← h1, ← h2, h1', h2'])
      simp [Function.update_noteq (Ne.symm hne)]

theorem countP_setCell (b : Board) (v : Option Piece) {row col : Int} {q : Pos}
    (h : toPos? row col = some q) (pred : Piece → Bool) :
    countP (setCell b row col v) pred + contrib (b q) pred =
      countP b pred + contrib v pred := by
  rw [setCell_pos h]
  unfold countP
  have hL : ∑ x : Pos, contrib (Function.update b q v x) pred
      = contrib (Function.update b q v q) pred
        + ∑ x ∈ Finset.univ.erase q, contrib (Function.update b q v x) pred :=
    (Finset.add_sum_erase _ _ (Finset.mem_univ q)).symm
  have hR : ∑ x : Pos, contrib (b x) pred
      = contrib (b q) pred + ∑ x ∈ Finset.univ.erase q, contrib (b x) pred :=
    (Finset.add_sum_erase _ _ (Finset.mem_univ q)).symm
  have hE : ∑ x ∈ Finset.univ.erase q, contrib (Function.update b q v x) pred
      = ∑ x ∈ Finset.univ.erase q, contrib (b x) pred := by
    refine Finset.sum_congr rfl fun x hx => ?_
    rw [Function.update_noteq (Finset.ne_of_mem_erase hx)]
  rw [hL, hE, Function.update_same, hR]
  omega

theorem countP_pos {b : Board} {pred : Piece → Bool} (h : countP b pred ≠ 0) :
    ∃ (q : Pos) (p : Piece), b q = some p ∧ pred p = true := by
  unfold countP at h
  obtain ⟨q, _, hq⟩ := Finset.exists_ne_zero_of_sum_ne_zero h
  refine ⟨q, ?_⟩
  unfold contrib at hq
  split at hq
  · next p hp =>
    refine ⟨p, hp, ?_⟩
    by_contra hcp
    simp [hcp] at hq
  · simp at hq

theorem cellList_complete (q : Pos) :
    (((q.1 : Nat) : Int), ((q.2 : Nat) : Int)) ∈ cellList := by
  unfold cellList
  rw [List.mem_flatMap]
  refine ⟨(q.1 : Nat), by simp [q.1.isLt], ?_⟩
  rw [List.mem_map]
  exact ⟨(q.2 : Nat), by simp [q.2.isLt], rfl⟩

theorem findSome?_isSome {α β : Type _} {l : List α} {f : α → Option β}
    {x : α} {y : β} (hx : x ∈ l) (hf : f x = some y) :
    ∃ z, l.findSome? f = some z := by
  induction l with
  | nil => cases hx
  | cons a t ih =>
    rcases List.mem_cons.mp hx with h | h
    · subst h
      exact ⟨y, by rw [List.findSome?_cons, hf]⟩
    · rw [List.findSome?_cons]
      cases hfa : f a with
      | some z => exact ⟨z, rfl⟩
      | none => exact ih h

theorem slotPlayer_setSlot_same (ps : Players) (c : PlayerColor) (p : PlayerState) :
    slotPlayer (setSlot ps c p) c = some p := by
  cases c <;> rfl

theorem slotPlayer_setSlot_ne (ps : Players) {c c' : PlayerColor} (p : PlayerState)
    (h : c ≠ c') : slotPlayer (setSlot ps c p) c' = slotPlayer ps c' := by
  cases c <;> cases c' <;> first | rfl | exact absurd rfl h

theorem countPiecesOnBoard_split (b : Board) (c : PlayerColor) :
    countPiecesOnBoard b c = kittensOnBoard b c + catsOnBoard b c := by
  unfold countPiecesOnBoard kittensOnBoard catsOnBoard countP
  rw [← Finset.sum_add_distrib]
  refine Finset.sum_congr rfl fun q _ => ?_
  unfold contrib
  cases b q with
  | none => rfl
  | some p =>
    cases hc : decide (p.color = c) <;> cases ht : p.type <;>
      simp_all

/-! ## C9: tier-1 winning moves -/

/-- C9: for every game state in which at least one legal move for the bot's
color has a simulation result with `wins = true`, `findBestMove` returns a
move from the set of such winning moves — never `null` and never a
non-winning move — for every tie-break selector `pick` (the source's
uniform random `pickRandom`) satisfying the membership contract, and every
tree-search tie-breaker `tree`. -/
theorem findBestMove_tier1_wins (state : GameState) (color : PlayerColor)
    (pick : List Move → Move) (tree : GameState → List Move → Move)
    (hpick : ∀ l : List Move, l ≠ [] → pick l ∈ l)
    (m : Move) (hm : m ∈ getAllValidMoves state color)
    (hv : (simulateMove state m.row m.col m.pieceType color).valid = true)
    (hw : (simulateMove state m.row m.col m.pieceType color).wins = true) :
    ∃ r : Move, findBestMove color pick tree state = some r ∧
      r ∈ getAllValidMoves state color ∧
      (simulateMove state r.row r.col r.pieceType color).valid = true ∧
      (simulateMove state r.row r.col r.pieceType color).wins = true := by
  have hmem : m ∈ findWinningMoves state color (getAllValidMoves state color) := by
    unfold findWinningMoves
    exact List.mem_filter.mpr ⟨hm, by simp [hv, hw]⟩
  have hne : findWinningMoves state color (getAllValidMoves state color) ≠ [] :=
    List.ne_nil_of_mem hmem
  have hpos : 0 < (findWinningMoves state color (getAllValidMoves state color)).length :=
    List.length_pos.mpr hne
  have hlen : ¬ (getAllValidMoves state color).length = 0 := by
    intro h
    rw [List.length_eq_zero] at h
    rw [h] at hm
    cases hm
  have hp := hpick _ hne
  have hfilter := List.mem_filter.mp (by unfold findWinningMoves at hp; exact hp)
  have hpred := hfilter.2
  simp only [Bool.and_eq_true] at hpred
  refine ⟨pick (findWinningMoves state color (getAllValidMoves state color)),
    ?_, hfilter.1, hpred.1, hpred.2⟩
  unfold findBestMove
  simp only []
  rw [if_neg hlen, if_pos hpos]

/-! ## Characterization of the public operations -/

theorem placePieceCore_valid (g : GameState) (slot : PlayerColor)
    (player : PlayerState) (row col : Int) (pt : PieceType) :
    (placePieceCore g slot player row col pt).2.valid = true := by
  unfold placePieceCore
  dsimp only
  split <;> rfl

theorem selectGraduationCore_valid (g : GameState) (player : PlayerState)
    (opts : List (List Cell)) (i : Int) :
    (selectGraduationCore g player opts i).2.valid = true := by
  unfold selectGraduationCore
  dsimp only
  split <;> rfl

/-- Every `placePiece` call either fails one of the validations — leaving
exactly the state with the animation logs reset — or passes them all and
runs `placePieceCore`. -/
theorem placePiece_cases (g : GameState) (sid : String) (row col : Int)
    (pt : PieceType) :
    (∃ err, placePiece g sid row col pt =
        ({ g with boopedPieces := [], graduatedPieces := [] }, invalidMove err)) ∨
    (∃ slot player, findPlayer g.players sid = some (slot, player) ∧
      g.phase = Phase.playing ∧
      player.color = g.currentTurn ∧
      isValidPosition row col = true ∧
      getCell g.board row col = none ∧
      ¬(pt = PieceType.kitten ∧ player.kittensInPool = 0) ∧
      ¬(pt = PieceType.cat ∧ player.catsInPool = 0) ∧
      placePiece g sid row col pt =
        placePieceCore { g with boopedPieces := [], graduatedPieces := [] }
          slot player row col pt) := by
  unfold placePiece
  dsimp only
  cases hfp : findPlayer g.players sid with
  | none => exact Or.inl ⟨_, rfl⟩
  | some sp =>
    obtain ⟨slot, player⟩ := sp
    dsimp only
    by_cases h1 : g.phase ≠ Phase.playing
    · rw [if_pos h1]
      exact Or.inl ⟨_, rfl⟩
    rw [if_neg h1]
    by_cases h2 : player.color ≠ g.currentTurn
    · rw [if_pos h2]
      exact Or.inl ⟨_, rfl⟩
    rw [if_neg h2]
    by_cases h3 : ¬ isValidPosition row col
    · rw [if_pos h3]
      exact Or.inl ⟨_, rfl⟩
    rw [if_neg h3]
    by_cases h4 : getCell g.board row col ≠ none
    · rw [if_pos h4]
      exact Or.inl ⟨_, rfl⟩
    rw [if_neg h4]
    by_cases h5 : pt = PieceType.kitten ∧ player.kittensInPool = 0
    · rw [if_pos h5]
      exact Or.inl ⟨_, rfl⟩
    rw [if_neg h5]
    by_cases h6 : pt = PieceType.cat ∧ player.catsInPool = 0
    · rw [if_pos h6]
      exact Or.inl ⟨_, rfl⟩
    rw [if_neg h6]
    exact Or.inr ⟨slot, player, rfl, not_not.mp (fun h => h1 h),
      not_not.mp (fun h => h2 h), by
        cases hvp : isValidPosition row col
        · exact absurd (by simp [hvp]) h3
        · rfl,
      not_not.mp h4, h5, h6, rfl⟩

/-- Every `selectGraduation` call either fails one of the validations —
leaving the state exactly unchanged — or passes them all and runs
`selectGraduationCore`. -/
theorem selectGraduation_cases (g : GameState) (sid : String) (i : Int) :
    (∃ err, selectGraduation g sid i = (g, invalidGraduation err)) ∨
    (∃ slot player opts, findPlayer g.players sid = some (slot, player) ∧
      g.phase = Phase.selecting_graduation ∧
      g.pendingGraduationPlayer = some player.color ∧
      g.pendingGraduationOptions = some opts ∧
      0 ≤ i ∧ i < (opts.length : Int) ∧
      selectGraduation g sid i = selectGraduationCore g player opts i) := by
  unfold selectGraduation
  cases hfp : findPlayer g.players sid with
  | none => exact Or.inl ⟨_, rfl⟩
  | some sp =>
    obtain ⟨slot, player⟩ := sp
    dsimp only
    by_cases h1 : g.phase ≠ Phase.selecting_graduation
    · rw [if_pos h1]
      exact Or.inl ⟨_, rfl⟩
    rw [if_neg h1]
    by_cases h2 : some player.color ≠ g.pendingGraduationPlayer
    · rw [if_pos h2]
      exact Or.inl ⟨_, rfl⟩
    rw [if_neg h2]
    cases hopts : g.pendingGraduationOptions with
    | none => exact Or.inl ⟨_, rfl⟩
    | some opts =>
      dsimp only
      by_cases h3 : i < 0 ∨ (opts.length : Int) ≤ i
      · rw [if_pos h3]
        exact Or.inl ⟨_, rfl⟩
      rw [if_neg h3]
      push_neg at h3
      exact Or.inr ⟨slot, player, opts, rfl, not_not.mp (fun h => h1 h),
        (not_not.mp (fun h => h2 h)).symm, rfl, h3.1, h3.2, rfl⟩

/-! ## C3: atomicity of failed operations -/

set_option maxRecDepth 400000 in
/-- C3 counterexample: at the reachable state `gC3` (whose boop-effect log
is non-empty), a `placePiece` call by the non-current player fails
validation — yet the resulting state is *not* identical to the old one:
the boop log has been cleared.  This falsifies the claim that the entire
state, effect logs included, is unchanged on every invalid call. -/
theorem placePiece_invalid_resets_logs :
    (placePiece gC3 "s2" 0 0 PieceType.kitten).2.valid = false ∧
    gC3.boopedPieces = [⟨⟨2, 2⟩, some ⟨2, 1⟩⟩] ∧
    (placePiece gC3 "s2" 0 0 PieceType.kitten).1.boopedPieces = [] ∧
    (placePiece gC3 "s2" 0 0 PieceType.kitten).1 ≠ gC3 := by decide

/-- C3 (amended): a failed `placePiece` returns a structured error and
leaves the board, players (pools), phase, turn, winner, `lastMove` and
pending-graduation state exactly unchanged, but resets the two animation
logs to `[]` (the source clears them before validating); a failed
`selectGraduation` returns a structured error and leaves the entire state
unchanged, logs included. -/
theorem invalid_calls_frame (g : GameState) (sid : String) (row col : Int)
    (pt : PieceType) (i : Int) :
    ((placePiece g sid row col pt).2.valid = false →
      (placePiece g sid row col pt).1.board = g.board ∧
      (placePiece g sid row col pt).1.players = g.players ∧
      (placePiece g sid row col pt).1.currentTurn = g.currentTurn ∧
      (placePiece g sid row col pt).1.phase = g.phase ∧
      (placePiece g sid row col pt).1.winner = g.winner ∧
      (placePiece g sid row col pt).1.lastMove = g.lastMove ∧
      (placePiece g sid row col pt).1.pendingGraduationOptions
        = g.pendingGraduationOptions ∧
      (placePiece g sid row col pt).1.pendingGraduationPlayer
        = g.pendingGraduationPlayer ∧
      (placePiece g sid row col pt).1.boopedPieces = [] ∧
      (placePiece g sid row col pt).1.graduatedPieces = [] ∧
      (placePiece g sid row col pt).2.error.isSome = true) ∧
    ((selectGraduation g sid i).2.valid = false →
      (selectGraduation g sid i).1 = g ∧
      (selectGraduation g sid i).2.error.isSome = true) := by
  constructor
  · intro hval
    rcases placePiece_cases g sid row col pt with ⟨err, heq⟩ |
      ⟨slot, player, _, _, _, _, _, _, _, heq⟩
    · rw [heq]
      exact ⟨rfl, rfl, rfl, rfl, rfl, rfl, rfl, rfl, rfl, rfl, rfl⟩
    · rw [heq, placePieceCore_valid] at hval
      cases hval
  · intro hval
    rcases selectGraduation_cases g sid i with ⟨err, heq⟩ |
      ⟨slot, player, opts, _, _, _, _, _, _, heq⟩
    · rw [heq]
      exact ⟨rfl, rfl⟩
    · rw [heq, selectGraduationCore_valid] at hval
      cases hval

set_option maxRecDepth 400000 in
/-- Witness for the amended C3 at the invalid wrong-turn call on `gC3`. -/
theorem invalid_calls_frame_witness :
    (placePiece gC3 "s2" 0 0 PieceType.kitten).2.valid = false ∧
    (placePiece gC3 "s2" 0 0 PieceType.kitten).1.board = gC3.board ∧
    (placePiece gC3 "s2" 0 0 PieceType.kitten).1.players = gC3.players ∧
    (placePiece gC3 "s2" 0 0 PieceType.kitten).2.error.isSome = true := by
  have h := (invalid_calls_frame gC3 "s2" 0 0 PieceType.kitten 0).1 (by decide)
  exact ⟨by decide, h.1, h.2.1, h.2.2.2.2.2.2.2.2.2.2⟩

set_option maxRecDepth 400000 in
/-- Witness for C9 at the concrete state `gW9`: gray to move, the cat
placement (0,2) wins. -/
theorem findBestMove_tier1_wins_witness :
    ∃ r : Move,
      findBestMove PlayerColor.gray (fun l => l.headD ⟨0, 0, PieceType.kitten⟩)
        (fun _ _ => ⟨0, 0, PieceType.kitten⟩) gW9 = some r ∧
      r ∈ getAllValidMoves gW9 PlayerColor.gray ∧
      (simulateMove gW9 r.row r.col r.pieceType PlayerColor.gray).valid = true ∧
      (simulateMove gW9 r.row r.col r.pieceType PlayerColor.gray).wins = true :=
  findBestMove_tier1_wins gW9 PlayerColor.gray _ _
    (fun l hl => by
      cases l with
      | nil => exact absurd rfl hl
      | cons a t => exact List.mem_cons_self a t)
    ⟨0, 2, PieceType.cat⟩ (by decide) (by decide) (by decide)

/-! ## Frame lemmas for graduation -/

theorem gradStep_frame (c : PlayerColor) (acc : GameState × Nat) (cell : Cell) :
    (gradStep c acc cell).1.winner = acc.1.winner ∧
    (gradStep c acc cell).1.phase = acc.1.phase ∧
    (gradStep c acc cell).1.currentTurn = acc.1.currentTurn ∧
    (gradStep c acc cell).1.lastMove = acc.1.lastMove ∧
    (gradStep c acc cell).1.pendingGraduationOptions
      = acc.1.pendingGraduationOptions ∧
    (gradStep c acc cell).1.pendingGraduationPlayer
      = acc.1.pendingGraduationPlayer ∧
    (gradStep c acc cell).1.boopedPieces = acc.1.boopedPieces := by
  obtain ⟨g, n⟩ := acc
  unfold gradStep
  dsimp only
  cases hc : getCell g.board cell.row cell.col with
  | none => exact ⟨rfl, rfl, rfl, rfl, rfl, rfl, rfl⟩
  | some piece =>
    dsimp only
    by_cases ht : piece.type = PieceType.kitten
    · rw [if_pos ht]
      exact ⟨rfl, rfl, rfl, rfl, rfl, rfl, rfl⟩
    · rw [if_neg ht]
      exact ⟨rfl, rfl, rfl, rfl, rfl, rfl, rfl⟩

theorem executeGraduationOption_frame (g : GameState) (option : List Cell)
    (c : PlayerColor) :
    (executeGraduationOption g option c).1.winner = g.winner ∧
    (executeGraduationOption g option c).1.phase = g.phase ∧
    (executeGraduationOption g option c).1.currentTurn = g.currentTurn ∧
    (executeGraduationOption g option c).1.lastMove = g.lastMove ∧
    (executeGraduationOption g option c).1.pendingGraduationOptions
      = g.pendingGraduationOptions ∧
    (executeGraduationOption g option c).1.pendingGraduationPlayer
      = g.pendingGraduationPlayer ∧
    (executeGraduationOption g option c).1.boopedPieces = g.boopedPieces := by
  unfold executeGraduationOption
  cases slotPlayer g.players c with
  | none => exact ⟨rfl, rfl, rfl, rfl, rfl, rfl, rfl⟩
  | some p =>
    refine foldl_preserve
      (fun acc : GameState × Nat => acc.1.winner = g.winner ∧
        acc.1.phase = g.phase ∧ acc.1.currentTurn = g.currentTurn ∧
        acc.1.lastMove = g.lastMove ∧
        acc.1.pendingGraduationOptions = g.pendingGraduationOptions ∧
        acc.1.pendingGraduationPlayer = g.pendingGraduationPlayer ∧
        acc.1.boopedPieces = g.boopedPieces)
      _ option (g, 0) ⟨rfl, rfl, rfl, rfl, rfl, rfl, rfl⟩ ?_
    intro a cell _ hP
    have h := gradStep_frame c a cell
    exact ⟨h.1.trans hP.1, h.2.1.trans hP.2.1, h.2.2.1.trans hP.2.2.1,
      h.2.2.2.1.trans hP.2.2.2.1, h.2.2.2.2.1.trans hP.2.2.2.2.1,
      h.2.2.2.2.2.1.trans hP.2.2.2.2.2.1, h.2.2.2.2.2.2.trans hP.2.2.2.2.2.2⟩

theorem checkAndExecuteGraduation_frame (g : GameState) (c : PlayerColor) :
    (checkAndExecuteGraduation g c).1.winner = g.winner ∧
    (checkAndExecuteGraduation g c).1.currentTurn = g.currentTurn ∧
    (checkAndExecuteGraduation g c).1.lastMove = g.lastMove ∧
    (checkAndExecuteGraduation g c).1.boopedPieces = g.boopedPieces ∧
    ((checkAndExecuteGraduation g c).1.phase = g.phase ∨
      (checkAndExecuteGraduation g c).1.phase = Phase.selecting_graduation) := by
  unfold checkAndExecuteGraduation
  cases slotPlayer g.players c with
  | none => exact ⟨rfl, rfl, rfl, rfl, Or.inl rfl⟩
  | some player =>
    dsimp only
    cases hopt : findGraduationOptions g.board c with
    | nil =>
      dsimp only
      by_cases hcond : 8 ≤ countPiecesOnBoard g.board c ∧
        player.kittensRetired + player.catsInPool < 8
      · rw [if_pos hcond]
        cases hk : findFirstKitten g.board c with
        | none => exact ⟨rfl, rfl, rfl, rfl, Or.inl rfl⟩
        | some cell => exact ⟨rfl, rfl, rfl, rfl, Or.inl rfl⟩
      · rw [if_neg hcond]
        exact ⟨rfl, rfl, rfl, rfl, Or.inl rfl⟩
    | cons o rest =>
      cases rest with
      | nil =>
        have h := executeGraduationOption_frame g o c
        exact ⟨h.1, h.2.2.1, h.2.2.2.1, h.2.2.2.2.2.2, Or.inl h.2.1⟩
      | cons o2 rest2 =>
        exact ⟨rfl, rfl, rfl, rfl, Or.inr rfl⟩

/-- On the valid path, the result of `placePieceCore` either keeps the old
winner with a non-`finished`-via-win phase, or records a win for the
acting player. -/
theorem placePieceCore_winner_phase (g : GameState) (slot : PlayerColor)
    (player : PlayerState) (row col : Int) (pt : PieceType) :
    ((placePieceCore g slot player row col pt).1.winner = g.winner ∧
      ((placePieceCore g slot player row col pt).1.phase = g.phase ∨
        (placePieceCore g slot player row col pt).1.phase
          = Phase.selecting_graduation)) ∨
    ((placePieceCore g slot player row col pt).1.winner = some player.color ∧
      (placePieceCore g slot player row col pt).1.phase = Phase.finished) := by
  unfold placePieceCore
  dsimp only
  have hfr := checkAndExecuteGraduation_frame
    (afterBoop g slot player row col pt) player.color
  have hwin : (afterBoop g slot player row col pt).winner = g.winner := rfl
  have hph : (afterBoop g slot player row col pt).phase = g.phase := rfl
  split
  · exact Or.inl ⟨hfr.1.trans hwin, hfr.2.2.2.2.imp (fun h => h.trans hph) id⟩
  · split
    · next hws =>
      exact Or.inr ⟨rfl, rfl⟩
    · next hws =>
      exact Or.inl ⟨hfr.1.trans hwin,
        hfr.2.2.2.2.imp (fun h => h.trans hph) id⟩

/-! ## C10: the win check only runs for the acting color -/

/-- C10: if a `placePiece` call sets a winner, that winner is the acting
(current-turn) color — a placement whose boops give the *opponent* three
cats in a row (or eight board cats) never sets `winner` or ends the game
during that call. -/
theorem placePiece_winner_only_acting (g : GameState) (sid : String)
    (row col : Int) (pt : PieceType) (hW : g.winner = none) :
    (∀ w, (placePiece g sid row col pt).1.winner = some w → w = g.currentTurn) ∧
    ((placePiece g sid row col pt).1.phase = Phase.finished →
      g.phase = Phase.finished ∨
      (placePiece g sid row col pt).1.winner = some g.currentTurn) := by
  rcases placePiece_cases g sid row col pt with ⟨err, heq⟩ |
    ⟨slot, player, hfp, hphase, hturn, hpos, hcell, hk, hc, heq⟩
  · rw [heq]
    constructor
    · intro w hw
      have hw2 : g.winner = some w := hw
      rw [hW] at hw2
      cases hw2
    · intro hph
      exact Or.inl hph
  · rw [heq]
    have hcore := placePieceCore_winner_phase
      { g with boopedPieces := [], graduatedPieces := [] } slot player row col pt
    rcases hcore with ⟨hwin, hph⟩ | ⟨hwin, hph⟩
    · have hwin2 : (placePieceCore { g with boopedPieces := [], graduatedPieces := [] }
        slot player row col pt).1.winner = none := hwin.trans hW
      constructor
      · intro w hw
        rw [hwin2] at hw
        cases hw
      · intro hph2
        rcases hph with h | h
        · exact Or.inl (h ▸ hph2)
        · rw [h] at hph2
          simp at hph2
    · constructor
      · intro w hw
        rw [hwin] at hw
        injection hw with h
        rw [← h]
        exact hturn
      · intro _
        exact Or.inr (hwin.trans (by rw [hturn]))

set_option maxRecDepth 400000 in
/-- Witness for C10 at the concrete winning placement on `gC2`. -/
theorem placePiece_winner_only_acting_witness :
    PlayerColor.orange = gC2.currentTurn ∧
    (gC2.phase = Phase.finished ∨
      (placePiece gC2 "o" 0 2 PieceType.cat).1.winner = some gC2.currentTurn) :=
  ⟨(placePiece_winner_only_acting gC2 "o" 0 2 PieceType.cat (by decide)).1
      PlayerColor.orange (by decide),
    (placePiece_winner_only_acting gC2 "o" 0 2 PieceType.cat (by decide)).2
      (by decide)⟩

/-! ## C2: winning placement — engine vs. spec -/

set_option maxRecDepth 400000 in
/-- C2 (code bug evidence): on the concrete winning placement `gC2` +
orange cat at (0,2), the engine's `placePiece` reports the win and sets
`phase = finished` and `winner = orange`, but *still toggles*
`currentTurn` to gray — while the client-side `executeMove` (same rules,
same input) leaves the turn with the winner, as the spec prescribes. -/
theorem placePiece_win_still_toggles_turn :
    (placePiece gC2 "o" 0 2 PieceType.cat).2.valid = true ∧
    (placePiece gC2 "o" 0 2 PieceType.cat).1.winner = some PlayerColor.orange ∧
    (placePiece gC2 "o" 0 2 PieceType.cat).1.phase = Phase.finished ∧
    (placePiece gC2 "o" 0 2 PieceType.cat).1.currentTurn = PlayerColor.gray ∧
    (executeMove gC2 0 2 PieceType.cat PlayerColor.orange).valid = true ∧
    (executeMove gC2 0 2 PieceType.cat PlayerColor.orange).newState.winner
      = some PlayerColor.orange ∧
    (executeMove gC2 0 2 PieceType.cat PlayerColor.orange).newState.phase
      = Phase.finished ∧
    (executeMove gC2 0 2 PieceType.cat PlayerColor.orange).newState.currentTurn
      = PlayerColor.orange := by
  decide

/-! ## C7: forced graduation -/

theorem findFirstKitten_isSome {b : Board} {color : PlayerColor}
    (h : kittensOnBoard b color ≠ 0) :
    ∃ cell, findFirstKitten b color = some cell := by
  obtain ⟨q, p0, hq, hpred⟩ := countP_pos h
  simp only [Bool.and_eq_true, decide_eq_true_eq] at hpred
  have hget : getCell b ((q.1 : Nat) : Int) ((q.2 : Nat) : Int) = some p0 := by
    rw [getCell_pos (toPos?_roundtrip q)]
    exact hq
  unfold findFirstKitten
  have hy : (match getCell b ((q.1 : Nat) : Int) ((q.2 : Nat) : Int) with
    | some p =>
      if p.color = color ∧ p.type = PieceType.kitten then
        some (⟨((q.1 : Nat) : Int), ((q.2 : Nat) : Int)⟩ : Cell)
      else none
    | none => none) =
    some (⟨((q.1 : Nat) : Int), ((q.2 : Nat) : Int)⟩ : Cell) := by
    rw [hget]
    exact if_pos hpred
  exact findSome?_isSome (cellList_complete q) hy

/-- C7: after a placement with zero graduation options, if the acting color
has ≥ 8 pieces on the board and fewer than 8 total cats (retired + pooled),
exactly the first kitten in row-major order is removed from the board and
converted to a retired kitten plus a pool cat (the conservation equations,
which hold in every reachable state, guarantee such a kitten exists); if
either precondition fails, `checkAndExecuteGraduation` changes nothing. -/
theorem forced_graduation (g : GameState) (color : PlayerColor)
    (player : PlayerState) (hp : slotPlayer g.players color = some player) :
    (findGraduationOptions g.board color = [] →
      8 ≤ countPiecesOnBoard g.board color →
      player.kittensRetired + player.catsInPool < 8 →
      player.kittensInPool + kittensOnBoard g.board color
        + player.kittensRetired = 8 →
      player.catsInPool + catsOnBoard g.board color = player.kittensRetired →
      ∃ cell, findFirstKitten g.board color = some cell ∧
        checkAndExecuteGraduation g color =
          ({ g with
              board := setCell g.board cell.row cell.col none
              players := updateSlot g.players color fun p =>
                { p with kittensRetired := p.kittensRetired + 1
                         catsInPool := p.catsInPool + 1 }
              graduatedPieces := g.graduatedPieces ++ [cell] }, 1)) ∧
    (findGraduationOptions g.board color = [] →
      ¬(8 ≤ countPiecesOnBoard g.board color ∧
        player.kittensRetired + player.catsInPool < 8) →
      checkAndExecuteGraduation g color = (g, 0)) := by
  constructor
  · intro hopt hpieces hcats hcons1 hcons2
    have hkb : kittensOnBoard g.board color ≠ 0 := by
      have hsplit := countPiecesOnBoard_split g.board color
      omega
    obtain ⟨cell, hcell⟩ := findFirstKitten_isSome hkb
    refine ⟨cell, hcell, ?_⟩
    unfold checkAndExecuteGraduation
    rw [hp]
    dsimp only
    rw [hopt]
    dsimp only
    rw [if_pos ⟨hpieces, hcats⟩, hcell]
  · intro hopt hneg
    unfold checkAndExecuteGraduation
    rw [hp]
    dsimp only
    rw [hopt]
    dsimp only
    rw [if_neg hneg]

set_option maxRecDepth 400000 in
/-- Witness for C7 at `gC7`: the first kitten in row-major order, (0,0), is
force-graduated. -/
theorem forced_graduation_witness :
    checkAndExecuteGraduation gC7 PlayerColor.orange
      = ({ gC7 with
            board := setCell gC7.board 0 0 none
            players := updateSlot gC7.players PlayerColor.orange fun p =>
              { p with kittensRetired := p.kittensRetired + 1
                       catsInPool := p.catsInPool + 1 }
            graduatedPieces := gC7.graduatedPieces ++ [⟨0, 0⟩] }, 1) := by
  obtain ⟨cell, hcell, heq⟩ := (forced_graduation gC7 PlayerColor.orange
    (mkPlayer PlayerColor.orange 0 0 0 "o") rfl).1
    (by decide) (by decide) (by decide) (by decide) (by decide)
  have h0 : findFirstKitten gC7.board PlayerColor.orange = some ⟨0, 0⟩ := by decide
  rw [h0] at hcell
  injection hcell with h
  rw [← h] at heq
  exact heq

/-! ## C5: graduation branching -/

theorem placePiece_valid_eq (g : GameState) (sid : String) (row col : Int)
    (pt : PieceType) (slot : PlayerColor) (player : PlayerState)
    (hfp : findPlayer g.players sid = some (slot, player))
    (hphase : g.phase = Phase.playing)
    (hturn : player.color = g.currentTurn)
    (hpos : isValidPosition row col = true)
    (hcell : getCell g.board row col = none)
    (hk : ¬(pt = PieceType.kitten ∧ player.kittensInPool = 0))
    (hc : ¬(pt = PieceType.cat ∧ player.catsInPool = 0)) :
    placePiece g sid row col pt =
      placePieceCore { g with boopedPieces := [], graduatedPieces := [] }
        slot player row col pt := by
  unfold placePiece
  dsimp only
  rw [hfp]
  dsimp only
  rw [if_neg (show ¬(g.phase ≠ Phase.playing) from fun h => h hphase),
    if_neg (show ¬(player.color ≠ g.currentTurn) from fun h => h hturn),
    if_neg (show ¬¬(isValidPosition row col = true) from fun h => h hpos),
    if_neg (show ¬(getCell g.board row col ≠ none) from fun h => h hcell),
    if_neg hk, if_neg hc]

theorem updateSlot_isSome (ps : Players) (c c' : PlayerColor)
    (f : PlayerState → PlayerState) :
    (slotPlayer (updateSlot ps c' f) c).isSome = (slotPlayer ps c).isSome := by
  unfold updateSlot
  cases hsp : slotPlayer ps c' with
  | none => rfl
  | some p => cases c' <;> cases c <;> simp_all [slotPlayer, setSlot]

theorem executeBoop_slot_isSome (b : Board) (ps : Players) (r c : Int)
    (piece : Piece) (col : PlayerColor) :
    (slotPlayer (executeBoop b ps r c piece).players col).isSome
      = (slotPlayer ps col).isSome := by
  unfold executeBoop
  refine foldl_preserve
    (fun s : BoopState =>
      (slotPlayer s.players col).isSome = (slotPlayer ps col).isSome)
    _ DIRECTIONS _ rfl ?_
  intro a d _ hP
  unfold boopStep applyBoopAction
  cases boopDecision a.board piece.type r c d with
  | none => exact hP
  | some act =>
    dsimp only
    cases act.dest with
    | none =>
      unfold returnToPool
      rw [updateSlot_isSome]
      exact hP
    | some dest => exact hP

theorem checkAndExecuteGraduation_single (g : GameState) (c : PlayerColor)
    (o : List Cell) (ho : findGraduationOptions g.board c = [o]) :
    checkAndExecuteGraduation g c = executeGraduationOption g o c := by
  unfold checkAndExecuteGraduation executeGraduationOption
  cases hsp : slotPlayer g.players c with
  | none => rfl
  | some p =>
    dsimp only
    rw [ho]

theorem checkAndExecuteGraduation_multi (g : GameState) (c : PlayerColor)
    (opts : List (List Cell)) (hsp : (slotPlayer g.players c).isSome = true)
    (hopts : findGraduationOptions g.board c = opts) (hlen : 2 ≤ opts.length) :
    checkAndExecuteGraduation g c =
      ({ g with
          phase := Phase.selecting_graduation
          pendingGraduationOptions := some opts
          pendingGraduationPlayer := some c }, 0) := by
  unfold checkAndExecuteGraduation
  cases hsp' : slotPlayer g.players c with
  | none => rw [hsp'] at hsp; cases hsp
  | some p =>
    dsimp only
    rw [hopts]
    cases opts with
    | nil => simp at hlen
    | cons o rest =>
      cases rest with
      | nil => simp at hlen
      | cons o2 rest2 => rfl

/-- C5: for every valid placement, if the post-boop board has exactly one
graduation option for the acting color, it is applied immediately inside
the same `placePiece` call (per-cell conversion as in
`executeGraduationOption`) without entering `selecting_graduation`; with
two or more options none is applied, the phase becomes
`selecting_graduation`, the option list and acting color are stored, the
turn is not switched, and the win check does not run (winner unchanged). -/
theorem graduation_branching (g : GameState) (sid : String) (row col : Int)
    (pt : PieceType) (slot : PlayerColor) (player : PlayerState)
    (hfp : findPlayer g.players sid = some (slot, player))
    (hphase : g.phase = Phase.playing)
    (hturn : player.color = g.currentTurn)
    (hcol : player.color = slot)
    (hpos : isValidPosition row col = true)
    (hcell : getCell g.board row col = none)
    (hk : ¬(pt = PieceType.kitten ∧ player.kittensInPool = 0))
    (hc : ¬(pt = PieceType.cat ∧ player.catsInPool = 0))
    (hpend : g.pendingGraduationOptions = none) :
    (∀ o, findGraduationOptions
        (postBoopState g slot player row col pt).board player.color = [o] →
      (placePiece g sid row col pt).1.board
        = (executeGraduationOption (postBoopState g slot player row col pt)
            o player.color).1.board ∧
      (placePiece g sid row col pt).1.players
        = (executeGraduationOption (postBoopState g slot player row col pt)
            o player.color).1.players ∧
      (placePiece g sid row col pt).1.graduatedPieces
        = (executeGraduationOption (postBoopState g slot player row col pt)
            o player.color).1.graduatedPieces ∧
      (placePiece g sid row col pt).1.phase ≠ Phase.selecting_graduation ∧
      (placePiece g sid row col pt).1.pendingGraduationOptions = none ∧
      (placePiece g sid row col pt).2.newCatsEarned
        = (executeGraduationOption (postBoopState g slot player row col pt)
            o player.color).2 ∧
      (placePiece g sid row col pt).2.requiresGraduationChoice = false) ∧
    (∀ opts, findGraduationOptions
        (postBoopState g slot player row col pt).board player.color = opts →
      2 ≤ opts.length →
      (placePiece g sid row col pt).1.phase = Phase.selecting_graduation ∧
      (placePiece g sid row col pt).1.pendingGraduationOptions = some opts ∧
      (placePiece g sid row col pt).1.pendingGraduationPlayer
        = some player.color ∧
      (placePiece g sid row col pt).1.currentTurn = g.currentTurn ∧
      (placePiece g sid row col pt).1.winner = g.winner ∧
      (placePiece g sid row col pt).1.board
        = (postBoopState g slot player row col pt).board ∧
      (placePiece g sid row col pt).1.players
        = (postBoopState g slot player row col pt).players ∧
      (placePiece g sid row col pt).2.requiresGraduationChoice = true ∧
      (placePiece g sid row col pt).2.pendingGraduationOptions = some opts) := by
  rw [placePiece_valid_eq g sid row col pt slot player hfp hphase hturn hpos
    hcell hk hc]
  constructor
  · intro o ho
    have hsingle := checkAndExecuteGraduation_single
      (postBoopState g slot player row col pt) player.color o ho
    unfold postBoopState at hsingle
    unfold placePieceCore
    dsimp only
    rw [hsingle]
    have hfr := executeGraduationOption_frame
      (afterBoop { g with boopedPieces := [], graduatedPieces := [] }
        slot player row col pt) o player.color
    have hpend2 : (executeGraduationOption
        (afterBoop { g with boopedPieces := [], graduatedPieces := [] }
          slot player row col pt) o player.color).1.pendingGraduationOptions
        = none := hfr.2.2.2.2.1.trans hpend
    have hpl : pendingLarge (executeGraduationOption
        (afterBoop { g with boopedPieces := [], graduatedPieces := [] }
          slot player row col pt) o player.color).1 = false := by
      unfold pendingLarge
      rw [hpend2]
    rw [if_neg (by rw [hpl]; exact fun h => Bool.noConfusion h)]
    have hph3 : (executeGraduationOption
        (afterBoop { g with boopedPieces := [], graduatedPieces := [] }
          slot player row col pt) o player.color).1.phase = Phase.playing :=
      hfr.2.1.trans hphase
    by_cases hw : (checkWinCondition (executeGraduationOption
        (afterBoop { g with boopedPieces := [], graduatedPieces := [] }
          slot player row col pt) o player.color).1 player.color).isSome = true
    · rw [if_pos hw]
      unfold postBoopState
      exact ⟨rfl, rfl, rfl,
        show Phase.finished ≠ Phase.selecting_graduation by decide,
        hpend2, rfl, rfl⟩
    · rw [if_neg hw]
      unfold postBoopState
      refine ⟨rfl, rfl, rfl, ?_, hpend2, rfl, rfl⟩
      show (executeGraduationOption
        (afterBoop { g with boopedPieces := [], graduatedPieces := [] }
          slot player row col pt) o player.color).1.phase
          ≠ Phase.selecting_graduation
      rw [hph3]
      decide
  · intro opts hopts hlen
    have hsome : (slotPlayer (postBoopState g slot player row col pt).players
        player.color).isSome = true := by
      unfold postBoopState afterBoop
      dsimp only
      rw [executeBoop_slot_isSome]
      unfold afterPlace
      dsimp only
      rw [hcol, slotPlayer_setSlot_same]
      rfl
    have hmulti := checkAndExecuteGraduation_multi
      (postBoopState g slot player row col pt) player.color opts hsome hopts hlen
    unfold postBoopState at hmulti
    unfold placePieceCore
    dsimp only
    rw [hmulti]
    have hpl : pendingLarge ({ afterBoop
        { g with boopedPieces := [], graduatedPieces := [] }
          slot player row col pt with
        phase := Phase.selecting_graduation
        pendingGraduationOptions := some opts
        pendingGraduationPlayer := some player.color } : GameState) = true := by
      unfold pendingLarge
      dsimp only
      exact decide_eq_true (by omega)
    rw [if_pos hpl]
    unfold postBoopState
    exact ⟨rfl, rfl, rfl, rfl, rfl, rfl, rfl, rfl, rfl⟩

set_option maxRecDepth 400000 in
/-- Witness for C5 at `gC5`: the kitten placement (0,2) creates exactly one
graduation option, which is auto-applied without suspending. -/
theorem graduation_branching_witness :
    (placePiece gC5 "o" 0 2 PieceType.kitten).1.board
      = (executeGraduationOption
          (postBoopState gC5 PlayerColor.orange
            (mkPlayer PlayerColor.orange 6 0 0 "o") 0 2 PieceType.kitten)
          [⟨0, 0⟩, ⟨0, 1⟩, ⟨0, 2⟩] PlayerColor.orange).1.board ∧
    (placePiece gC5 "o" 0 2 PieceType.kitten).1.players
      = (executeGraduationOption
          (postBoopState gC5 PlayerColor.orange
            (mkPlayer PlayerColor.orange 6 0 0 "o") 0 2 PieceType.kitten)
          [⟨0, 0⟩, ⟨0, 1⟩, ⟨0, 2⟩] PlayerColor.orange).1.players ∧
    (placePiece gC5 "o" 0 2 PieceType.kitten).1.graduatedPieces
      = (executeGraduationOption
          (postBoopState gC5 PlayerColor.orange
            (mkPlayer PlayerColor.orange 6 0 0 "o") 0 2 PieceType.kitten)
          [⟨0, 0⟩, ⟨0, 1⟩, ⟨0, 2⟩] PlayerColor.orange).1.graduatedPieces ∧
    (placePiece gC5 "o" 0 2 PieceType.kitten).1.phase
      ≠ Phase.selecting_graduation ∧
    (placePiece gC5 "o" 0 2 PieceType.kitten).1.pendingGraduationOptions
      = none ∧
    (placePiece gC5 "o" 0 2 PieceType.kitten).2.newCatsEarned
      = (executeGraduationOption
          (postBoopState gC5 PlayerColor.orange
            (mkPlayer PlayerColor.orange 6 0 0 "o") 0 2 PieceType.kitten)
          [⟨0, 0⟩, ⟨0, 1⟩, ⟨0, 2⟩] PlayerColor.orange).2 ∧
    (placePiece gC5 "o" 0 2 PieceType.kitten).2.requiresGraduationChoice
      = false :=
  (graduation_branching gC5 "o" 0 2 PieceType.kitten PlayerColor.orange
    (mkPlayer PlayerColor.orange 6 0 0 "o") (by decide) rfl rfl rfl
    (by decide) (by decide) (by decide) (by decide) rfl).1
    [⟨0, 0⟩, ⟨0, 1⟩, ⟨0, 2⟩] (by decide)

/-! ## C1: conservation — supporting lemmas -/

theorem getCell_some_toPos {b : Board} {r c : Int} {p : Piece}
    (h : getCell b r c = some p) : ∃ q, toPos? r c = some q ∧ b q = some p := by
  unfold getCell at h
  cases hq : toPos? r c with
  | none => rw [hq] at h; cases h
  | some q => rw [hq] at h; exact ⟨q, rfl, h⟩

theorem isValid_toPos {r c : Int} (h : isValidPosition r c = true) :
    ∃ q, toPos? r c = some q := by
  unfold isValidPosition at h
  simp only [Bool.and_eq_true, decide_eq_true_eq] at h
  unfold toPos?
  rw [dif_pos ⟨h.1.1.1, h.1.1.2, h.1.2, h.2⟩]
  exact ⟨_, rfl⟩

theorem slotPlayer_updateSlot_same (ps : Players) (c : PlayerColor)
    (f : PlayerState → PlayerState) :
    slotPlayer (updateSlot ps c f) c = Option.map f (slotPlayer ps c) := by
  unfold updateSlot
  cases hsp : slotPlayer ps c with
  | none => rw [hsp]; rfl
  | some p =>
    rw [slotPlayer_setSlot_same]
    rfl

theorem slotPlayer_updateSlot_ne (ps : Players) {c' c : PlayerColor}
    (f : PlayerState → PlayerState) (h : c' ≠ c) :
    slotPlayer (updateSlot ps c' f) c = slotPlayer ps c := by
  unfold updateSlot
  cases hsp : slotPlayer ps c' with
  | none => rfl
  | some p => rw [slotPlayer_setSlot_ne _ _ h]

theorem findPlayer_slot {ps : Players} {sid : String} {slot : PlayerColor}
    {player : PlayerState} (h : findPlayer ps sid = some (slot, player)) :
    slotPlayer ps slot = some player := by
  unfold findPlayer at h
  cases ho : ps.orange with
  | some p =>
    rw [ho] at h
    dsimp only at h
    by_cases hs : p.socketId = sid
    · rw [if_pos hs] at h
      injection h with h2
      injection h2 with ha hb
      rw [← ha, ← hb]
      exact ho
    · rw [if_neg hs] at h
      cases hg : ps.gray with
      | some q =>
        rw [hg] at h
        dsimp only at h
        by_cases hs2 : q.socketId = sid
        · rw [if_pos hs2] at h
          injection h with h2
          injection h2 with ha hb
          rw [← ha, ← hb]
          exact hg
        · rw [if_neg hs2] at h
          cases h
      | none => rw [hg] at h; cases h
  | none =>
    rw [ho] at h
    dsimp only at h
    cases hg : ps.gray with
    | some q =>
      rw [hg] at h
      dsimp only at h
      by_cases hs2 : q.socketId = sid
      · rw [if_pos hs2] at h
        injection h with h2
        injection h2 with ha hb
        rw [← ha, ← hb]
        exact hg
      · rw [if_neg hs2] at h
        cases h
    | none => rw [hg] at h; cases h

theorem boopDecision_spec {b : Board} {t : PieceType} {pr pc : Int}
    {d : Int × Int} {a : BoopAction} (hd : d ∈ DIRECTIONS)
    (h : boopDecision b t pr pc d = some a) :
    getCell b a.fromR a.fromC = some a.piece ∧
    (∀ dr dc, a.dest = some (dr, dc) →
      isValidPosition dr dc = true ∧ getCell b dr dc = none ∧
      (dr, dc) ≠ (a.fromR, a.fromC)) ∧
    a.fromR = pr + d.1 ∧ a.fromC = pc + d.2 := by
  have hdne : ¬(d.1 = 0 ∧ d.2 = 0) := by
    fin_cases hd <;> simp
  unfold boopDecision at h
  dsimp only at h
  cases hadj : getCell b (pr + d.1) (pc + d.2) with
  | none => rw [hadj] at h; cases h
  | some adjPiece =>
    rw [hadj] at h
    dsimp only at h
    by_cases h1 : t = PieceType.kitten ∧ adjPiece.type = PieceType.cat
    · rw [if_pos h1] at h; cases h
    rw [if_neg h1] at h
    by_cases h2 : isValidPosition (pr + d.1 + d.1) (pc + d.2 + d.2) = true ∧
        getCell b (pr + d.1 + d.1) (pc + d.2 + d.2) ≠ none
    · rw [if_pos h2] at h; cases h
    rw [if_neg h2] at h
    by_cases h3 : isValidPosition (pr + d.1 + d.1) (pc + d.2 + d.2) = true
    · rw [if_pos h3] at h
      injection h with h4
      subst h4
      dsimp only
      refine ⟨hadj, ?_, rfl, rfl⟩
      intro dr dc hdest
      injection hdest with h5
      injection h5 with ha hb
      subst ha; subst hb
      refine ⟨h3, ?_, ?_⟩
      · by_cases hocc : getCell b (pr + d.1 + d.1) (pc + d.2 + d.2) = none
        · exact hocc
        · exact absurd ⟨h3, hocc⟩ h2
      · intro he
        injection he with he1 he2
        omega
    · rw [if_neg h3] at h
      injection h with h4
      subst h4
      dsimp only
      refine ⟨hadj, ?_, rfl, rfl⟩
      intro dr dc hdest
      simp at hdest

theorem returnToPool_slot_same (ps : Players) (p : Piece) {pl : PlayerState}
    (hsp : slotPlayer ps p.color = some pl) :
    slotPlayer (returnToPool ps p) p.color =
      some (if p.type = PieceType.kitten then
        { pl with kittensInPool := pl.kittensInPool + 1 }
      else { pl with catsInPool := pl.catsInPool + 1 }) := by
  unfold returnToPool
  rw [slotPlayer_updateSlot_same, hsp]
  rfl

theorem returnToPool_slot_ne (ps : Players) (p : Piece) {c : PlayerColor}
    (h : p.color ≠ c) :
    slotPlayer (returnToPool ps p) c = slotPlayer ps c := by
  unfold returnToPool
  exact slotPlayer_updateSlot_ne _ _ h

theorem boopStep_consOk (t : PieceType) (pr pc : Int) (d : Int × Int)
    (hd : d ∈ DIRECTIONS) (s : BoopState) (c : PlayerColor)
    (h : consOk s.board s.players c) :
    consOk (boopStep t pr pc s d).board (boopStep t pr pc s d).players c := by
  unfold boopStep
  cases hdec : boopDecision s.board t pr pc d with
  | none => exact h
  | some a =>
    obtain ⟨hfrom, hdest, hfr, hfc⟩ := boopDecision_spec hd hdec
    obtain ⟨qf, hqf, hbf⟩ := getCell_some_toPos hfrom
    unfold applyBoopAction
    dsimp only
    cases hd2 : a.dest with
    | some rc =>
      obtain ⟨dr, dc⟩ := rc
      dsimp only
      obtain ⟨hdv, hdnone, hdne⟩ := hdest dr dc hd2
      obtain ⟨qd, hqd⟩ := isValid_toPos hdv
      have hb1d : getCell (setCell s.board a.fromR a.fromC none) dr dc = none := by
        rw [getCell_setCell_ne (Ne.symm hdne)]
        exact hdnone
      have hcount : ∀ pred, countP
          (setCell (setCell s.board a.fromR a.fromC none) dr dc (some a.piece))
          pred = countP s.board pred := by
        intro pred
        have h1 := countP_setCell s.board none hqf pred
        rw [hbf] at h1
        have hgp : getCell (setCell s.board a.fromR a.fromC none) dr dc
            = (setCell s.board a.fromR a.fromC none) qd := getCell_pos hqd
        have hb1qd : (setCell s.board a.fromR a.fromC none) qd = none :=
          hgp.symm.trans hb1d
        have h2 := countP_setCell (setCell s.board a.fromR a.fromC none)
          (some a.piece) hqd pred
        rw [hb1qd] at h2
        simp only [contrib] at h1 h2
        omega
      obtain ⟨pl, hsp, hcol, hk8, hc8⟩ := h
      refine ⟨pl, hsp, hcol, ?_, ?_⟩
      · unfold kittensOnBoard
        rw [hcount]
        exact hk8
      · unfold catsOnBoard
        rw [hcount]
        exact hc8
    | none =>
      dsimp only
      obtain ⟨pl, hsp, hcol, hk8, hc8⟩ := h
      have h1 : ∀ pred, countP (setCell s.board a.fromR a.fromC none) pred
          + contrib (some a.piece) pred = countP s.board pred := by
        intro pred
        have h0 := countP_setCell s.board none hqf pred
        rw [hbf] at h0
        simp only [contrib] at h0 ⊢
        omega
      by_cases hpc : a.piece.color = c
      · have hsp2 : slotPlayer s.players a.piece.color = some pl := by
          rw [hpc]
          exact hsp
        have hslot := returnToPool_slot_same s.players a.piece hsp2
        rw [hpc] at hslot
        cases hty : a.piece.type with
        | kitten =>
          rw [hty, if_pos rfl] at hslot
          refine ⟨_, hslot, hcol, ?_, ?_⟩
          · have hk1 := h1 (fun p => p.color = c && p.type = PieceType.kitten)
            have hck : contrib (some a.piece)
                (fun p => p.color = c && p.type = PieceType.kitten) = 1 := by
              simp [contrib, hpc, hty]
            rw [hck] at hk1
            unfold kittensOnBoard at hk8 ⊢
            dsimp only
            omega
          · have hk1 := h1 (fun p => p.color = c && p.type = PieceType.cat)
            have hck : contrib (some a.piece)
                (fun p => p.color = c && p.type = PieceType.cat) = 0 := by
              simp [contrib, hty]
            rw [hck] at hk1
            unfold catsOnBoard at hc8 ⊢
            dsimp only
            omega
        | cat =>
          rw [hty, if_neg (by decide)] at hslot
          refine ⟨_, hslot, hcol, ?_, ?_⟩
          · have hk1 := h1 (fun p => p.color = c && p.type = PieceType.kitten)
            have hck : contrib (some a.piece)
                (fun p => p.color = c && p.type = PieceType.kitten) = 0 := by
              simp [contrib, hty]
            rw [hck] at hk1
            unfold kittensOnBoard at hk8 ⊢
            dsimp only
            omega
          · have hk1 := h1 (fun p => p.color = c && p.type = PieceType.cat)
            have hck : contrib (some a.piece)
                (fun p => p.color = c && p.type = PieceType.cat) = 1 := by
              simp [contrib, hpc, hty]
            rw [hck] at hk1
            unfold catsOnBoard at hc8 ⊢
            dsimp only
            omega
      · have hslot := returnToPool_slot_ne s.players a.piece hpc
        refine ⟨pl, by rw [hslot]; exact hsp, hcol, ?_, ?_⟩
        · have hk1 := h1 (fun p => p.color = c && p.type = PieceType.kitten)
          have hck : contrib (some a.piece)
              (fun p => p.color = c && p.type = PieceType.kitten) = 0 := by
            simp [contrib, hpc]
          rw [hck] at hk1
          unfold kittensOnBoard at hk8 ⊢
          omega
        · have hk1 := h1 (fun p => p.color = c && p.type = PieceType.cat)
          have hck : contrib (some a.piece)
              (fun p => p.color = c && p.type = PieceType.cat) = 0 := by
            simp [contrib, hpc]
          rw [hck] at hk1
          unfold catsOnBoard at hc8 ⊢
          omega

theorem executeBoop_consOk (b : Board) (ps : Players) (pr pc : Int)
    (piece : Piece) (c : PlayerColor) (h : consOk b ps c) :
    consOk (executeBoop b ps pr pc piece).board
      (executeBoop b ps pr pc piece).players c := by
  unfold executeBoop
  refine foldl_preserve (fun s : BoopState => consOk s.board s.players c)
    _ DIRECTIONS ⟨b, ps, []⟩ h ?_
  intro s d hd hP
  exact boopStep_consOk piece.type pr pc d hd s c hP

theorem setCell_none_sub (b : Board) (r c : Int) (q : Pos) :
    setCell b r c none q = b q ∨ setCell b r c none q = none := by
  unfold setCell
  cases toPos? r c with
  | none => exact Or.inl rfl
  | some q0 =>
    dsimp only
    by_cases he : q = q0
    · subst he
      rw [Function.update_same]
      exact Or.inr rfl
    · rw [Function.update_noteq he]
      exact Or.inl rfl

theorem gradStep_consOk (pc0 : PlayerColor) (acc : GameState × Nat) (cell : Cell)
    (hcell : ∀ piece, getCell acc.1.board cell.row cell.col = some piece →
      piece.color = pc0)
    (c : PlayerColor) (h : consOk acc.1.board acc.1.players c) :
    consOk (gradStep pc0 acc cell).1.board (gradStep pc0 acc cell).1.players c := by
  obtain ⟨g, n⟩ := acc
  unfold gradStep
  dsimp only at hcell h ⊢
  cases hc : getCell g.board cell.row cell.col with
  | none => exact h
  | some piece =>
    dsimp only
    have hpcol : piece.color = pc0 := hcell piece hc
    obtain ⟨qf, hqf, hbf⟩ := getCell_some_toPos hc
    have h1 : ∀ pred, countP (setCell g.board cell.row cell.col none) pred
        + contrib (some piece) pred = countP g.board pred := by
      intro pred
      have h0 := countP_setCell g.board none hqf pred
      rw [hbf] at h0
      simp only [contrib] at h0 ⊢
      omega
    obtain ⟨pl, hsp, hcol, hk8, hc8⟩ := h
    by_cases hpc : pc0 = c
    · subst hpc
      cases hty : piece.type with
      | kitten =>
        rw [if_pos rfl]
        dsimp only
        refine ⟨{ pl with kittensRetired := pl.kittensRetired + 1
                          catsInPool := pl.catsInPool + 1 }, ?_, hcol, ?_, ?_⟩
        · rw [slotPlayer_updateSlot_same, hsp]
          rfl
        · have hk1 := h1 (fun p => p.color = pc0 && p.type = PieceType.kitten)
          have hck : contrib (some piece)
              (fun p => p.color = pc0 && p.type = PieceType.kitten) = 1 := by
            simp [contrib, hpcol, hty]
          rw [hck] at hk1
          unfold kittensOnBoard at hk8 ⊢
          dsimp only
          omega
        · have hk1 := h1 (fun p => p.color = pc0 && p.type = PieceType.cat)
          have hck : contrib (some piece)
              (fun p => p.color = pc0 && p.type = PieceType.cat) = 0 := by
            simp [contrib, hty]
          rw [hck] at hk1
          unfold catsOnBoard at hc8 ⊢
          dsimp only
          omega
      | cat =>
        rw [if_neg (by decide)]
        dsimp only
        refine ⟨{ pl with catsInPool := pl.catsInPool + 1 }, ?_, hcol, ?_, ?_⟩
        · rw [slotPlayer_updateSlot_same, hsp]
          rfl
        · have hk1 := h1 (fun p => p.color = pc0 && p.type = PieceType.kitten)
          have hck : contrib (some piece)
              (fun p => p.color = pc0 && p.type = PieceType.kitten) = 0 := by
            simp [contrib, hty]
          rw [hck] at hk1
          unfold kittensOnBoard at hk8 ⊢
          dsimp only
          omega
        · have hk1 := h1 (fun p => p.color = pc0 && p.type = PieceType.cat)
          have hck : contrib (some piece)
              (fun p => p.color = pc0 && p.type = PieceType.cat) = 1 := by
            simp [contrib, hpcol, hty]
          rw [hck] at hk1
          unfold catsOnBoard at hc8 ⊢
          dsimp only
          omega
    · have hpcc : piece.color ≠ c := by
        rw [hpcol]
        exact hpc
      have hck1 : contrib (some piece)
          (fun p => p.color = c && p.type = PieceType.kitten) = 0 := by
        simp [contrib, hpcc]
      have hck2 : contrib (some piece)
          (fun p => p.color = c && p.type = PieceType.cat) = 0 := by
        simp [contrib, hpcc]
      have hk1 := h1 (fun p => p.color = c && p.type = PieceType.kitten)
      have hk2 := h1 (fun p => p.color = c && p.type = PieceType.cat)
      rw [hck1] at hk1
      rw [hck2] at hk2
      cases hty : piece.type with
      | kitten =>
        rw [if_pos rfl]
        dsimp only
        refine ⟨pl, ?_, hcol, ?_, ?_⟩
        · rw [slotPlayer_updateSlot_ne _ _ hpc]
          exact hsp
        · unfold kittensOnBoard at hk8 ⊢
          omega
        · unfold catsOnBoard at hc8 ⊢
          omega
      | cat =>
        rw [if_neg (by decide)]
        dsimp only
        refine ⟨pl, ?_, hcol, ?_, ?_⟩
        · rw [slotPlayer_updateSlot_ne _ _ hpc]
          exact hsp
        · unfold kittensOnBoard at hk8 ⊢
          omega
        · unfold catsOnBoard at hc8 ⊢
          omega

theorem gradStep_board_sub (pc0 : PlayerColor) (acc : GameState × Nat)
    (cell : Cell) (q : Pos) :
    (gradStep pc0 acc cell).1.board q = acc.1.board q ∨
    (gradStep pc0 acc cell).1.board q = none := by
  obtain ⟨g, n⟩ := acc
  unfold gradStep
  dsimp only
  cases hc : getCell g.board cell.row cell.col with
  | none => exact Or.inl rfl
  | some piece =>
    dsimp only
    cases hty : piece.type with
    | kitten =>
      rw [if_pos rfl]
      exact setCell_none_sub g.board cell.row cell.col q
    | cat =>
      rw [if_neg (by decide)]
      exact setCell_none_sub g.board cell.row cell.col q

theorem executeGraduationOption_consOk (g : GameState) (option : List Cell)
    (pc0 c : PlayerColor)
    (hopt : ∀ cell ∈ option, ∀ piece,
      getCell g.board cell.row cell.col = some piece → piece.color = pc0)
    (h : consOk g.board g.players c) :
    consOk (executeGraduationOption g option pc0).1.board
      (executeGraduationOption g option pc0).1.players c := by
  unfold executeGraduationOption
  cases hsp : slotPlayer g.players pc0 with
  | none => exact h
  | some p =>
    refine (foldl_preserve
      (fun acc : GameState × Nat =>
        consOk acc.1.board acc.1.players c ∧
        ∀ q, acc.1.board q = g.board q ∨ acc.1.board q = none)
      (gradStep pc0) option (g, 0) ⟨h, fun q => Or.inl rfl⟩ ?_).1
    intro acc cell hmem hP
    obtain ⟨hc1, hsub⟩ := hP
    constructor
    · refine gradStep_consOk pc0 acc cell ?_ c hc1
      intro piece hpc
      obtain ⟨q, hq, hbq⟩ := getCell_some_toPos hpc
      rcases hsub q with he | he
      · have hgb : getCell g.board cell.row cell.col = some piece := by
          rw [getCell_pos hq, ← he]
          exact hbq
        exact hopt cell hmem piece hgb
      · rw [he] at hbq
        cases hbq
    · intro q
      rcases gradStep_board_sub pc0 acc cell q with he | he
      · rw [he]
        exact hsub q
      · exact Or.inr he

theorem getLineAux_mem {b : Board} {d : Int × Int} {color : PlayerColor} :
    ∀ {fuel : Nat} {r c : Int} {cell : Cell},
      cell ∈ getLineAux b d color fuel r c →
      ∃ p, getCell b cell.row cell.col = some p ∧ p.color = color := by
  intro fuel
  induction fuel with
  | zero =>
    intro r c cell h
    cases h
  | succ n ih =>
    intro r c cell h
    unfold getLineAux at h
    cases hg : getCell b r c with
    | none => rw [hg] at h; cases h
    | some p =>
      rw [hg] at h
      dsimp only at h
      by_cases hcol : p.color = color
      · rw [if_pos hcol] at h
        rcases List.mem_cons.mp h with he | ht
        · subst he
          exact ⟨p, hg, hcol⟩
        · exact ih ht
      · rw [if_neg hcol] at h
        cases h

theorem window_subset {line : List Cell} {i : Nat} {cell : Cell}
    (h : cell ∈ window line i) : cell ∈ line := by
  unfold window at h
  exact List.mem_of_mem_drop (List.mem_of_mem_take h)

theorem addLineOptions_mem {b : Board} {line : List Cell}
    {acc : List (List Cell) × List (List (Int × Int))} {opt : List Cell}
    (h : opt ∈ (addLineOptions b line acc).1) :
    opt ∈ acc.1 ∨ ∃ i, opt = window line i ∧ hasKittenAt b opt = true := by
  unfold addLineOptions at h
  refine (foldl_preserve
    (fun a2 : List (List Cell) × List (List (Int × Int)) =>
      ∀ o ∈ a2.1, o ∈ acc.1 ∨
        ∃ i, o = window line i ∧ hasKittenAt b o = true)
    _ _ acc (fun o ho => Or.inl ho) ?_) opt h
  intro a2 i hi hP o ho
  dsimp only at ho
  by_cases hk : hasKittenAt b (window line i) = true
  · rw [if_pos hk] at ho
    by_cases hseen : optKey (window line i) ∈ a2.2
    · rw [if_pos hseen] at ho
      exact hP o ho
    · rw [if_neg hseen] at ho
      dsimp only at ho
      rcases List.mem_append.mp ho with h1 | h2
      · exact hP o h1
      · have he : o = window line i := List.mem_singleton.mp h2
        exact Or.inr ⟨i, he, he ▸ hk⟩
  · rw [if_neg hk] at ho
    exact hP o ho

theorem findGraduationOptions_mem {b : Board} {color : PlayerColor}
    {opt : List Cell} (h : opt ∈ findGraduationOptions b color) :
    ∃ t ∈ scanTriples,
      3 ≤ (getLineFrom b t.1 t.2.1 t.2.2 color).length ∧
      hasKittenAt b (getLineFrom b t.1 t.2.1 t.2.2 color) = true ∧
      ∃ i, opt = window (getLineFrom b t.1 t.2.1 t.2.2 color) i ∧
        hasKittenAt b opt = true := by
  unfold findGraduationOptions at h
  refine (foldl_preserve
    (fun a2 : List (List Cell) × List (List (Int × Int)) =>
      ∀ o ∈ a2.1, ∃ t ∈ scanTriples,
        3 ≤ (getLineFrom b t.1 t.2.1 t.2.2 color).length ∧
        hasKittenAt b (getLineFrom b t.1 t.2.1 t.2.2 color) = true ∧
        ∃ i, o = window (getLineFrom b t.1 t.2.1 t.2.2 color) i ∧
          hasKittenAt b o = true)
    (scanStep b color) scanTriples ([], [])
    (fun o ho => absurd ho (List.not_mem_nil o)) ?_) opt h
  intro a2 t ht hP o ho
  unfold scanStep at ho
  by_cases hcond : 3 ≤ (getLineFrom b t.1 t.2.1 t.2.2 color).length ∧
      hasKittenAt b (getLineFrom b t.1 t.2.1 t.2.2 color) = true
  · rw [if_pos hcond] at ho
    rcases addLineOptions_mem ho with h1 | ⟨i, hw, hk⟩
    · exact hP o h1
    · exact ⟨t, ht, hcond.1, hcond.2, i, hw, hk⟩
  · rw [if_neg hcond] at ho
    exact hP o ho

theorem findGraduationOptions_sound {b : Board} {color : PlayerColor}
    {opt : List Cell} (h : opt ∈ findGraduationOptions b color) :
    ∀ cell ∈ opt, ∃ p, getCell b cell.row cell.col = some p ∧
      p.color = color := by
  obtain ⟨t, ht, hlen, hkit, i, hw, hk⟩ := findGraduationOptions_mem h
  intro cell hcell
  rw [hw] at hcell
  have hl : cell ∈ getLineFrom b t.1 t.2.1 t.2.2 color := window_subset hcell
  unfold getLineFrom at hl
  exact getLineAux_mem hl

theorem findSome?_some {α β : Type _} {l : List α} {f : α → Option β} {y : β}
    (h : l.findSome? f = some y) : ∃ x ∈ l, f x = some y := by
  induction l with
  | nil => cases h
  | cons a t ih =>
    rw [List.findSome?_cons] at h
    cases hfa : f a with
    | some z =>
      rw [hfa] at h
      dsimp only at h
      exact ⟨a, by simp, by rw [hfa, h]⟩
    | none =>
      rw [hfa] at h
      dsimp only at h
      obtain ⟨x, hx, hfx⟩ := ih h
      exact ⟨x, by simp [hx], hfx⟩

theorem findFirstKitten_spec {b : Board} {color : PlayerColor} {cell : Cell}
    (h : findFirstKitten b color = some cell) :
    ∃ p, getCell b cell.row cell.col = some p ∧ p.color = color ∧
      p.type = PieceType.kitten := by
  unfold findFirstKitten at h
  obtain ⟨rc, hrc, hf⟩ := findSome?_some h
  cases hg : getCell b rc.1 rc.2 with
  | none => rw [hg] at hf; cases hf
  | some p =>
    rw [hg] at hf
    dsimp only at hf
    by_cases hcond : p.color = color ∧ p.type = PieceType.kitten
    · rw [if_pos hcond] at hf
      injection hf with he
      refine ⟨p, ?_, hcond.1, hcond.2⟩
      rw [← he]
      exact hg
    · rw [if_neg hcond] at hf
      cases hf

theorem checkAndExecuteGraduation_consOk (g : GameState) (pc0 c : PlayerColor)
    (h : consOk g.board g.players c) :
    consOk (checkAndExecuteGraduation g pc0).1.board
      (checkAndExecuteGraduation g pc0).1.players c := by
  unfold checkAndExecuteGraduation
  cases hsp : slotPlayer g.players pc0 with
  | none => exact h
  | some player =>
    dsimp only
    cases hopt : findGraduationOptions g.board pc0 with
    | nil =>
      dsimp only
      by_cases hcond : 8 ≤ countPiecesOnBoard g.board pc0 ∧
          player.kittensRetired + player.catsInPool < 8
      · rw [if_pos hcond]
        cases hk : findFirstKitten g.board pc0 with
        | none => exact h
        | some cell =>
          obtain ⟨p, hgc, hpcol, hpty⟩ := findFirstKitten_spec hk
          have hstep := gradStep_consOk pc0 (g, 0) cell
            (fun piece hp => by
              rw [hgc] at hp
              injection hp with he
              rw [← he]
              exact hpcol)
            c h
          have heq : gradStep pc0 (g, 0) cell =
              ({ g with
                  board := setCell g.board cell.row cell.col none
                  players := updateSlot g.players pc0 fun p =>
                    { p with kittensRetired := p.kittensRetired + 1
                             catsInPool := p.catsInPool + 1 }
                  graduatedPieces := g.graduatedPieces ++ [cell] }, 1) := by
            unfold gradStep
            dsimp only
            rw [hgc]
            dsimp only
            rw [if_pos hpty]
          rw [heq] at hstep
          exact hstep
      · rw [if_neg hcond]
        exact h
    | cons o rest =>
      cases rest with
      | nil =>
        have hsound : ∀ cell ∈ o, ∃ p,
            getCell g.board cell.row cell.col = some p ∧ p.color = pc0 := by
          refine findGraduationOptions_sound ?_
          rw [hopt]
          exact List.mem_singleton.mpr rfl
        exact executeGraduationOption_consOk g o pc0 c
          (fun cell hc piece hp => by
            obtain ⟨p2, hp2, hc2⟩ := hsound cell hc
            rw [hp2] at hp
            injection hp with he
            rw [← he]
            exact hc2)
          h
      | cons o2 r2 => exact h

set_option maxHeartbeats 1000000 in
theorem afterPlace_consOk (g : GameState) (slot : PlayerColor)
    (player : PlayerState) (row col : Int) (pt : PieceType) (c : PlayerColor)
    (hsp : slotPlayer g.players slot = some player)
    (hpc : player.color = slot)
    (hcell : getCell g.board row col = none)
    (hv : isValidPosition row col = true)
    (hkit : ¬(pt = PieceType.kitten ∧ player.kittensInPool = 0))
    (hcat : ¬(pt = PieceType.cat ∧ player.catsInPool = 0))
    (h : consOk g.board g.players c) :
    consOk (afterPlace g slot player row col pt).board
      (afterPlace g slot player row col pt).players c := by
  unfold afterPlace
  dsimp only
  obtain ⟨qf, hqf⟩ := isValid_toPos hv
  have hgq : getCell g.board row col = g.board qf := getCell_pos hqf
  have hbq : g.board qf = none := hgq.symm.trans hcell
  have h1 : ∀ pred, countP (setCell g.board row col (some ⟨player.color, pt⟩))
      pred = countP g.board pred + contrib (some ⟨player.color, pt⟩) pred := by
    intro pred
    have h0 := countP_setCell g.board (some ⟨player.color, pt⟩) hqf pred
    rw [hbq] at h0
    simp only [contrib] at h0 ⊢
    omega
  obtain ⟨pl, hspc, hcol, hk8, hc8⟩ := h
  by_cases hcs : slot = c
  · subst hcs
    have hpp : pl = player := Option.some.inj (hspc.symm.trans hsp)
    subst hpp
    cases hpt : pt with
    | kitten =>
      have hk0 : pl.kittensInPool ≠ 0 := fun hz => hkit ⟨hpt, hz⟩
      rw [if_pos rfl]
      refine ⟨{ pl with kittensInPool := pl.kittensInPool - 1 }, ?_, hcol, ?_, ?_⟩
      · rw [slotPlayer_setSlot_same]
      · have hk1 := h1 (fun p => p.color = slot && p.type = PieceType.kitten)
        rw [hpt] at hk1
        have hck : contrib (some (⟨pl.color, PieceType.kitten⟩ : Piece))
            (fun p => p.color = slot && p.type = PieceType.kitten) = 1 := by
          simp [contrib, hpc]
        rw [hck] at hk1
        unfold kittensOnBoard at hk8 ⊢
        dsimp only
        omega
      · have hk1 := h1 (fun p => p.color = slot && p.type = PieceType.cat)
        rw [hpt] at hk1
        have hck : contrib (some (⟨pl.color, PieceType.kitten⟩ : Piece))
            (fun p => p.color = slot && p.type = PieceType.cat) = 0 := by
          simp [contrib]
        rw [hck] at hk1
        unfold catsOnBoard at hc8 ⊢
        dsimp only
        omega
    | cat =>
      have hc0 : pl.catsInPool ≠ 0 := fun hz => hcat ⟨hpt, hz⟩
      rw [if_neg (by decide)]
      refine ⟨{ pl with catsInPool := pl.catsInPool - 1 }, ?_, hcol, ?_, ?_⟩
      · rw [slotPlayer_setSlot_same]
      · have hk1 := h1 (fun p => p.color = slot && p.type = PieceType.kitten)
        rw [hpt] at hk1
        have hck : contrib (some (⟨pl.color, PieceType.cat⟩ : Piece))
            (fun p => p.color = slot && p.type = PieceType.kitten) = 0 := by
          simp [contrib]
        rw [hck] at hk1
        unfold kittensOnBoard at hk8 ⊢
        dsimp only
        omega
      · have hk1 := h1 (fun p => p.color = slot && p.type = PieceType.cat)
        rw [hpt] at hk1
        have hck : contrib (some (⟨pl.color, PieceType.cat⟩ : Piece))
            (fun p => p.color = slot && p.type = PieceType.cat) = 1 := by
          simp [contrib, hpc]
        rw [hck] at hk1
        unfold catsOnBoard at hc8 ⊢
        dsimp only
        omega
  · have hplc : player.color ≠ c := by
      rw [hpc]
      exact hcs
    have hck1 : contrib (some (⟨player.color, pt⟩ : Piece))
        (fun p => p.color = c && p.type = PieceType.kitten) = 0 := by
      simp [contrib, hplc]
    have hck2 : contrib (some (⟨player.color, pt⟩ : Piece))
        (fun p => p.color = c && p.type = PieceType.cat) = 0 := by
      simp [contrib, hplc]
    have hk1 := h1 (fun p => p.color = c && p.type = PieceType.kitten)
    have hk2 := h1 (fun p => p.color = c && p.type = PieceType.cat)
    rw [hck1] at hk1
    rw [hck2] at hk2
    refine ⟨pl, ?_, hcol, ?_, ?_⟩
    · rw [slotPlayer_setSlot_ne _ _ hcs]
      exact hspc
    · unfold kittensOnBoard at hk8 ⊢
      omega
    · unfold catsOnBoard at hc8 ⊢
      omega

theorem checkAndExecuteGraduation_pending (g : GameState) (c : PlayerColor)
    (hpend : g.pendingGraduationOptions = none) :
    ((checkAndExecuteGraduation g c).1.pendingGraduationOptions = none ∧
      (checkAndExecuteGraduation g c).1.phase = g.phase) ∨
    ((checkAndExecuteGraduation g c).1.pendingGraduationOptions
        = some (findGraduationOptions g.board c) ∧
      2 ≤ (findGraduationOptions g.board c).length ∧
      (checkAndExecuteGraduation g c).1.pendingGraduationPlayer = some c ∧
      (checkAndExecuteGraduation g c).1.phase = Phase.selecting_graduation ∧
      (checkAndExecuteGraduation g c).1.board = g.board) := by
  unfold checkAndExecuteGraduation
  cases hsp : slotPlayer g.players c with
  | none => exact Or.inl ⟨hpend, rfl⟩
  | some player =>
    dsimp only
    cases hopt : findGraduationOptions g.board c with
    | nil =>
      dsimp only
      by_cases hcond : 8 ≤ countPiecesOnBoard g.board c ∧
          player.kittensRetired + player.catsInPool < 8
      · rw [if_pos hcond]
        cases hk : findFirstKitten g.board c with
        | none => exact Or.inl ⟨hpend, rfl⟩
        | some cell => exact Or.inl ⟨hpend, rfl⟩
      · rw [if_neg hcond]
        exact Or.inl ⟨hpend, rfl⟩
    | cons o rest =>
      cases rest with
      | nil =>
        have hfr := executeGraduationOption_frame g o c
        exact Or.inl ⟨hfr.2.2.2.2.1.trans hpend, hfr.2.1⟩
      | cons o2 r2 =>
        dsimp only
        refine Or.inr ⟨rfl, ?_, rfl, rfl, rfl⟩
        simp only [List.length_cons]
        omega

theorem countP_empty (pred : Piece → Bool) : countP emptyBoard pred = 0 := by
  simp [countP, emptyBoard, contrib]

/-- The fresh two-player game in closed form: both `addPlayer` calls
succeed (orange first, then gray) and the second one starts the game. -/
theorem freshGame_eq (sid1 name1 : String) (t1 : Option String)
    (sid2 name2 : String) (t2 : Option String) :
    freshGame sid1 name1 t1 sid2 name2 t2 =
      { board := emptyBoard
        players :=
          { orange := some (fillSlot none PlayerColor.orange sid1 name1 t1)
            gray := some (fillSlot none PlayerColor.gray sid2 name2 t2) }
        currentTurn := PlayerColor.orange
        phase := Phase.playing
        winner := none
        lastMove := none
        boopedPieces := []
        graduatedPieces := []
        pendingGraduationOptions := none
        pendingGraduationPlayer := none } := rfl

theorem Inv_fresh (sid1 name1 : String) (t1 : Option String)
    (sid2 name2 : String) (t2 : Option String) :
    Inv (freshGame sid1 name1 t1 sid2 name2 t2) := by
  rw [freshGame_eq]
  refine ⟨⟨fillSlot none PlayerColor.orange sid1 name1 t1, rfl, rfl, ?_, ?_⟩,
    ⟨fillSlot none PlayerColor.gray sid2 name2 t2, rfl, rfl, ?_, ?_⟩,
    ?_, ?_⟩
  · simp [fillSlot, kittensOnBoard, countP_empty]
  · simp [fillSlot, catsOnBoard, countP_empty]
  · simp [fillSlot, kittensOnBoard, countP_empty]
  · simp [fillSlot, catsOnBoard, countP_empty]
  · intro opts h
    cases h
  · intro _
    rfl

theorem placePieceCore_Inv (g : GameState) (slot : PlayerColor)
    (player : PlayerState) (row col : Int) (pt : PieceType)
    (hsp : slotPlayer g.players slot = some player)
    (hpc : player.color = slot)
    (hcell : getCell g.board row col = none)
    (hv : isValidPosition row col = true)
    (hkit : ¬(pt = PieceType.kitten ∧ player.kittensInPool = 0))
    (hcat : ¬(pt = PieceType.cat ∧ player.catsInPool = 0))
    (hpend : g.pendingGraduationOptions = none)
    (hco : consOk g.board g.players PlayerColor.orange)
    (hcg : consOk g.board g.players PlayerColor.gray) :
    Inv (placePieceCore g slot player row col pt).1 := by
  have hcons : ∀ c, consOk g.board g.players c →
      consOk (checkAndExecuteGraduation (afterBoop g slot player row col pt)
          player.color).1.board
        (checkAndExecuteGraduation (afterBoop g slot player row col pt)
          player.color).1.players c := by
    intro c hc
    have h1 := afterPlace_consOk g slot player row col pt c
      hsp hpc hcell hv hkit hcat hc
    have h2 := executeBoop_consOk (afterPlace g slot player row col pt).board
      (afterPlace g slot player row col pt).players row col
      ⟨player.color, pt⟩ c h1
    have h3 : consOk (afterBoop g slot player row col pt).board
        (afterBoop g slot player row col pt).players c := h2
    exact checkAndExecuteGraduation_consOk (afterBoop g slot player row col pt)
      player.color c h3
  have hg2pend : (afterBoop g slot player row col pt).pendingGraduationOptions
      = none := hpend
  have hpd := checkAndExecuteGraduation_pending
    (afterBoop g slot player row col pt) player.color hg2pend
  unfold placePieceCore
  dsimp only
  split
  · next hpl =>
    rcases hpd with ⟨hp3, hph3⟩ | ⟨hp3, hlen, hpl3, hph3, hb3⟩
    · exact absurd hpl (by
        unfold pendingLarge
        rw [hp3]
        decide)
    · dsimp only
      unfold Inv
      refine ⟨hcons _ hco, hcons _ hcg, ?_, ?_⟩
      · intro opts hopts
        rw [hp3] at hopts
        injection hopts with he
        refine ⟨player.color, hpl3, ?_⟩
        intro opt hopt cell hcellm piece hpiece
        rw [hb3] at hpiece
        rw [← he] at hopt
        obtain ⟨p2, hp2, hc2⟩ := findGraduationOptions_sound hopt cell hcellm
        rw [hp2] at hpiece
        injection hpiece with he2
        rw [← he2]
        exact hc2
      · intro hph
        exact absurd hph3 hph
  · next hpl =>
    have hp3 : (checkAndExecuteGraduation (afterBoop g slot player row col pt)
        player.color).1.pendingGraduationOptions = none := by
      rcases hpd with ⟨hp3, _⟩ | ⟨hp3, hlen, _, _, _⟩
      · exact hp3
      · refine absurd ?_ hpl
        unfold pendingLarge
        rw [hp3]
        dsimp only
        exact decide_eq_true (by omega)
    dsimp only
    split
    · unfold Inv
      refine ⟨hcons _ hco, hcons _ hcg, ?_, ?_⟩
      · intro opts hopts
        have h2 : (checkAndExecuteGraduation (afterBoop g slot player row col pt)
            player.color).1.pendingGraduationOptions = some opts := hopts
        rw [hp3] at h2
        cases h2
      · intro _
        exact hp3
    · unfold Inv
      refine ⟨hcons _ hco, hcons _ hcg, ?_, ?_⟩
      · intro opts hopts
        have h2 : (checkAndExecuteGraduation (afterBoop g slot player row col pt)
            player.color).1.pendingGraduationOptions = some opts := hopts
        rw [hp3] at h2
        cases h2
      · intro _
        exact hp3

theorem placePiece_Inv (g : GameState) (sid : String) (row col : Int)
    (pt : PieceType) (hInv : Inv g) : Inv (placePiece g sid row col pt).1 := by
  obtain ⟨hco, hcg, hPend, hPh⟩ := hInv
  rcases placePiece_cases g sid row col pt with ⟨err, heq⟩ |
    ⟨slot, player, hfp, hph, hturn, hv, hcell, hkit, hcat, heq⟩
  · rw [heq]
    exact ⟨hco, hcg, hPend, hPh⟩
  · rw [heq]
    have hsp : slotPlayer g.players slot = some player := findPlayer_slot hfp
    have hcs : consOk g.board g.players slot := by
      cases slot
      · exact hco
      · exact hcg
    obtain ⟨pl, hsp2, hcol, -, -⟩ := hcs
    have hpe : pl = player := Option.some.inj (hsp2.symm.trans hsp)
    have hpc : player.color = slot := by
      rw [← hpe]
      exact hcol
    have hpend : g.pendingGraduationOptions = none := by
      refine hPh ?_
      rw [hph]
      decide
    exact placePieceCore_Inv { g with boopedPieces := [], graduatedPieces := [] }
      slot player row col pt hsp hpc hcell hv hkit hcat hpend hco hcg

theorem selectGraduationCore_Inv (g : GameState) (player : PlayerState)
    (opts : List (List Cell)) (i : Int)
    (hpo : g.pendingGraduationOptions = some opts)
    (hpp : g.pendingGraduationPlayer = some player.color)
    (h0 : 0 ≤ i) (hlt : i < (opts.length : Int))
    (hPend : PendingOk g)
    (hco : consOk g.board g.players PlayerColor.orange)
    (hcg : consOk g.board g.players PlayerColor.gray) :
    Inv (selectGraduationCore g player opts i).1 := by
  obtain ⟨p, hp, hall⟩ := hPend opts hpo
  have hpe : p = player.color := by
    rw [hpp] at hp
    injection hp with he
    exact he.symm
  subst hpe
  have hn : i.toNat < opts.length := by omega
  have hmem : opts.getD i.toNat [] ∈ opts := by
    rw [List.getD_eq_getElem opts [] hn]
    exact List.getElem_mem hn
  have hcolors : ∀ cell ∈ opts.getD i.toNat [], ∀ piece,
      getCell g.board cell.row cell.col = some piece →
        piece.color = player.color :=
    fun cell hc piece hpc => hall _ hmem cell hc piece hpc
  have hcons : ∀ c, consOk g.board g.players c →
      consOk (executeGraduationOption { g with graduatedPieces := [] }
          (opts.getD i.toNat []) player.color).1.board
        (executeGraduationOption { g with graduatedPieces := [] }
          (opts.getD i.toNat []) player.color).1.players c := by
    intro c hc
    exact executeGraduationOption_consOk { g with graduatedPieces := [] }
      (opts.getD i.toNat []) player.color c hcolors hc
  unfold selectGraduationCore
  dsimp only
  split
  · unfold Inv
    refine ⟨hcons _ hco, hcons _ hcg, ?_, ?_⟩
    · intro opts2 h2
      cases h2
    · intro _
      rfl
  · unfold Inv
    refine ⟨hcons _ hco, hcons _ hcg, ?_, ?_⟩
    · intro opts2 h2
      cases h2
    · intro _
      rfl

theorem selectGraduation_Inv (g : GameState) (sid : String) (i : Int)
    (hInv : Inv g) : Inv (selectGraduation g sid i).1 := by
  obtain ⟨hco, hcg, hPend, hPh⟩ := hInv
  rcases selectGraduation_cases g sid i with ⟨err, heq⟩ |
    ⟨slot, player, opts, hfp, hph, hpp, hpo, h0, hlt, heq⟩
  · rw [heq]
    exact ⟨hco, hcg, hPend, hPh⟩
  · rw [heq]
    exact selectGraduationCore_Inv g player opts i hpo hpp h0 hlt hPend hco hcg

theorem Reachable_Inv (g : GameState) (h : Reachable g) : Inv g := by
  induction h with
  | fresh sid1 name1 t1 sid2 name2 t2 =>
    exact Inv_fresh sid1 name1 t1 sid2 name2 t2
  | place g sid row col pt hg ih =>
    exact placePiece_Inv g sid row col pt ih
  | select g sid i hg ih =>
    exact selectGraduation_Inv g sid i ih

/-! ## C4: the boop pass is a single order-independent sweep -/

/-- The write phase leaves every cell other than the action's source and
destination untouched. -/
theorem applyBoopAction_getCell (s : BoopState) (act : Option BoopAction)
    (r c : Int)
    (h : ∀ a, act = some a → ((r, c) : Int × Int) ≠ (a.fromR, a.fromC) ∧
      ∀ dr dc, a.dest = some (dr, dc) → ((r, c) : Int × Int) ≠ (dr, dc)) :
    getCell (applyBoopAction s act).board r c = getCell s.board r c := by
  cases act with
  | none => rfl
  | some a =>
    obtain ⟨hfrom, hdest⟩ := h a rfl
    unfold applyBoopAction
    dsimp only
    cases hd : a.dest with
    | some p =>
      obtain ⟨dr, dc⟩ := p
      dsimp only
      rw [getCell_setCell_ne (Ne.symm (hdest dr dc hd))]
      exact getCell_setCell_ne (Ne.symm hfrom)
    | none =>
      dsimp only
      exact getCell_setCell_ne (Ne.symm hfrom)

/-- The read phase only looks at the adjacent cell and the landing cell. -/
theorem boopDecision_congr (b1 b2 : Board) (t : PieceType) (pr pc : Int)
    (d : Int × Int)
    (h1 : getCell b1 (pr + d.1) (pc + d.2) = getCell b2 (pr + d.1) (pc + d.2))
    (h2 : getCell b1 (pr + d.1 + d.1) (pc + d.2 + d.2)
        = getCell b2 (pr + d.1 + d.1) (pc + d.2 + d.2)) :
    boopDecision b1 t pr pc d = boopDecision b2 t pr pc d := by
  unfold boopDecision
  dsimp only
  rw [h1, h2]

/-- If a direction produces an action with an on-board destination, that
destination is the cell two steps out in the same direction. -/
theorem boopDecision_dest {b : Board} {t : PieceType} {pr pc : Int}
    {d : Int × Int} {a : BoopAction} (h : boopDecision b t pr pc d = some a) :
    a.dest = none ∨ a.dest = some (pr + d.1 + d.1, pc + d.2 + d.2) := by
  unfold boopDecision at h
  dsimp only at h
  cases hadj : getCell b (pr + d.1) (pc + d.2) with
  | none =>
    rw [hadj] at h
    cases h
  | some adjPiece =>
    rw [hadj] at h
    dsimp only at h
    by_cases h1 : t = PieceType.kitten ∧ adjPiece.type = PieceType.cat
    · rw [if_pos h1] at h
      cases h
    rw [if_neg h1] at h
    by_cases h2 : isValidPosition (pr + d.1 + d.1) (pc + d.2 + d.2) = true ∧
        getCell b (pr + d.1 + d.1) (pc + d.2 + d.2) ≠ none
    · rw [if_pos h2] at h
      cases h
    rw [if_neg h2] at h
    by_cases h3 : isValidPosition (pr + d.1 + d.1) (pc + d.2 + d.2) = true
    · rw [if_pos h3] at h
      injection h with h4
      subst h4
      exact Or.inr rfl
    · rw [if_neg h3] at h
      injection h with h4
      subst h4
      exact Or.inl rfl

/-- Two distinct boop directions never clash: neither's adjacent cell or
landing cell coincides with the other's. -/
theorem DIRECTIONS_pairwise_core :
    ∀ d ∈ DIRECTIONS, ∀ d2 ∈ DIRECTIONS, d2 ≠ d →
      (d2.1 ≠ d.1 ∨ d2.2 ≠ d.2) ∧
      (d2.1 ≠ d.1 + d.1 ∨ d2.2 ≠ d.2 + d.2) ∧
      (d2.1 + d2.1 ≠ d.1 ∨ d2.2 + d2.2 ≠ d.2) ∧
      (d2.1 + d2.1 ≠ d.1 + d.1 ∨ d2.2 + d2.2 ≠ d.2 + d.2) := by
  decide

/-- Folding the loop body over a clash-free direction list equals mapping
the read phase over the *initial* board and then folding the write phase. -/
theorem boopFold_eq_decisions (b : Board) (t : PieceType) (pr pc : Int)
    (l : List (Int × Int)) (hsub : ∀ d ∈ l, d ∈ DIRECTIONS) (hnd : l.Nodup)
    (s : BoopState)
    (hagree : ∀ d ∈ l,
      getCell s.board (pr + d.1) (pc + d.2) = getCell b (pr + d.1) (pc + d.2) ∧
      getCell s.board (pr + d.1 + d.1) (pc + d.2 + d.2)
        = getCell b (pr + d.1 + d.1) (pc + d.2 + d.2)) :
    l.foldl (boopStep t pr pc) s
      = (l.map (boopDecision b t pr pc)).foldl applyBoopAction s := by
  induction l generalizing s with
  | nil => rfl
  | cons d l2 ih =>
    simp only [List.foldl_cons, List.map_cons]
    obtain ⟨ha1, ha2⟩ := hagree d (List.mem_cons_self d l2)
    have hstep : boopStep t pr pc s d
        = applyBoopAction s (boopDecision b t pr pc d) := by
      unfold boopStep
      rw [boopDecision_congr s.board b t pr pc d ha1 ha2]
    rw [hstep]
    refine ih (fun d2 h2 => hsub d2 (List.mem_cons_of_mem d h2))
      (List.nodup_cons.mp hnd).2
      (applyBoopAction s (boopDecision b t pr pc d)) ?_
    intro d2 hd2
    have hne : d2 ≠ d := fun he => (List.nodup_cons.mp hnd).1 (he ▸ hd2)
    obtain ⟨hc1, hc2, hc3, hc4⟩ := DIRECTIONS_pairwise_core d
      (hsub d (List.mem_cons_self d l2)) d2
      (hsub d2 (List.mem_cons_of_mem d hd2)) hne
    obtain ⟨hb1, hb2⟩ := hagree d2 (List.mem_cons_of_mem d hd2)
    have hkeep : ∀ r c : Int,
        ((r, c) : Int × Int) ≠ (pr + d.1, pc + d.2) →
        ((r, c) : Int × Int) ≠ (pr + d.1 + d.1, pc + d.2 + d.2) →
        getCell (applyBoopAction s (boopDecision b t pr pc d)).board r c
          = getCell s.board r c := by
      intro r c hr1 hr2
      refine applyBoopAction_getCell s (boopDecision b t pr pc d) r c ?_
      intro a hsome
      obtain ⟨hocc, hdests, hfr, hfc⟩ := boopDecision_spec
        (hsub d (List.mem_cons_self d l2)) hsome
      constructor
      · rw [hfr, hfc]
        exact hr1
      · intro dr dc hdd
        rcases boopDecision_dest hsome with hn | hs
        · rw [hdd] at hn
          cases hn
        · have he := hdd.symm.trans hs
          injection he with he2
          injection he2 with e1 e2
          rw [e1, e2]
          exact hr2
    have hne1 : ((pr + d2.1, pc + d2.2) : Int × Int) ≠ (pr + d.1, pc + d.2) := by
      intro he
      injection he with e1 e2
      rcases hc1 with h | h
      · exact h (by omega)
      · exact h (by omega)
    have hne2 : ((pr + d2.1, pc + d2.2) : Int × Int)
        ≠ (pr + d.1 + d.1, pc + d.2 + d.2) := by
      intro he
      injection he with e1 e2
      rcases hc2 with h | h
      · exact h (by omega)
      · exact h (by omega)
    have hne3 : ((pr + d2.1 + d2.1, pc + d2.2 + d2.2) : Int × Int)
        ≠ (pr + d.1, pc + d.2) := by
      intro he
      injection he with e1 e2
      rcases hc3 with h | h
      · exact h (by omega)
      · exact h (by omega)
    have hne4 : ((pr + d2.1 + d2.1, pc + d2.2 + d2.2) : Int × Int)
        ≠ (pr + d.1 + d.1, pc + d.2 + d.2) := by
      intro he
      injection he with e1 e2
      rcases hc4 with h | h
      · exact h (by omega)
      · exact h (by omega)
    constructor
    · rw [hkeep (pr + d2.1) (pc + d2.2) hne1 hne2]
      exact hb1
    · rw [hkeep (pr + d2.1 + d2.1) (pc + d2.2 + d2.2) hne3 hne4]
      exact hb2

/-- C4: the boop pass, although implemented as a sequential mutation over
the 8 directions, equals computing all 8 decisions against the original
post-placement board and then applying the 8 writes — so booped pieces
never trigger further boops within the same placement, and each direction
moves at most the piece directly adjacent to the placed one, with its
landing cell valid and empty on the original board. -/
theorem executeBoop_order_independent (b : Board) (ps : Players)
    (pr pc : Int) (piece : Piece) :
    executeBoop b ps pr pc piece
      = (DIRECTIONS.map (boopDecision b piece.type pr pc)).foldl
          applyBoopAction ⟨b, ps, []⟩ ∧
    (∀ d ∈ DIRECTIONS, ∀ a, boopDecision b piece.type pr pc d = some a →
      getCell b a.fromR a.fromC = some a.piece ∧
      a.fromR = pr + d.1 ∧ a.fromC = pc + d.2 ∧
      ∀ dr dc, a.dest = some (dr, dc) →
        isValidPosition dr dc = true ∧ getCell b dr dc = none) := by
  constructor
  · unfold executeBoop
    exact boopFold_eq_decisions b piece.type pr pc DIRECTIONS
      (fun d hd => hd) (by decide) ⟨b, ps, []⟩ (fun d hd => ⟨rfl, rfl⟩)
  · intro d hd a ha
    obtain ⟨hocc, hdests, hfr, hfc⟩ := boopDecision_spec hd ha
    exact ⟨hocc, hfr, hfc, fun dr dc hdd =>
      ⟨(hdests dr dc hdd).1, (hdests dr dc hdd).2.1⟩⟩

/-- C4 witness: the single-pass equivalence evaluated at a concrete
placement. -/
theorem executeBoop_order_independent_witness :
    executeBoop gC5.board gC5.players 0 2
        (Piece.mk PlayerColor.orange PieceType.kitten)
      = (DIRECTIONS.map (boopDecision gC5.board
          (Piece.mk PlayerColor.orange PieceType.kitten).type 0 2)).foldl
          applyBoopAction ⟨gC5.board, gC5.players, []⟩ ∧
    (∀ d ∈ DIRECTIONS, ∀ a, boopDecision gC5.board
          (Piece.mk PlayerColor.orange PieceType.kitten).type 0 2 d = some a →
      getCell gC5.board a.fromR a.fromC = some a.piece ∧
      a.fromR = 0 + d.1 ∧ a.fromC = 2 + d.2 ∧
      ∀ dr dc, a.dest = some (dr, dc) →
        isValidPosition dr dc = true ∧ getCell gC5.board dr dc = none) :=
  executeBoop_order_independent gC5.board gC5.players 0 2
    (Piece.mk PlayerColor.orange PieceType.kitten)

/-! ## C6: graduation options of an isolated 4-line -/

theorem getLineAux_succ (b : Board) (d : Int × Int) (color : PlayerColor)
    (fuel : Nat) (r c : Int) :
    getLineAux b d color (fuel + 1) r c =
      if cellColored b r c color = true then
        ⟨r, c⟩ :: getLineAux b d color fuel (r + d.1) (c + d.2)
      else [] := by
  rw [getLineAux]
  unfold cellColored
  cases hg : getCell b r c with
  | none => simp
  | some p =>
    dsimp only
    by_cases hc : p.color = color
    · rw [if_pos hc]
      simp [hc]
    · rw [if_neg hc]
      simp [hc]

theorem getLineAux_one {b : Board} {d : Int × Int} {color : PlayerColor} :
    ∀ {fuel : Nat} {r c : Int},
      1 ≤ (getLineAux b d color fuel r c).length →
      cellColored b r c color = true := by
  intro fuel r c h
  cases fuel with
  | zero => simp [getLineAux] at h
  | succ n =>
    rw [getLineAux_succ] at h
    by_cases h0 : cellColored b r c color = true
    · exact h0
    · rw [if_neg h0] at h
      simp at h

theorem getLineAux_two {b : Board} {d : Int × Int} {color : PlayerColor} :
    ∀ {fuel : Nat} {r c : Int},
      2 ≤ (getLineAux b d color fuel r c).length →
      cellColored b r c color = true ∧
      cellColored b (r + d.1) (c + d.2) color = true := by
  intro fuel r c h
  cases fuel with
  | zero => simp [getLineAux] at h
  | succ n =>
    rw [getLineAux_succ] at h
    by_cases h0 : cellColored b r c color = true
    · rw [if_pos h0] at h
      simp only [List.length_cons] at h
      have h1 : 1 ≤ (getLineAux b d color n (r + d.1) (c + d.2)).length := by
        omega
      exact ⟨h0, getLineAux_one h1⟩
    · rw [if_neg h0] at h
      simp at h

theorem getLineAux_three {b : Board} {d : Int × Int} {color : PlayerColor} :
    ∀ {fuel : Nat} {r c : Int},
      3 ≤ (getLineAux b d color fuel r c).length →
      cellColored b r c color = true ∧
      cellColored b (r + d.1) (c + d.2) color = true ∧
      cellColored b (r + d.1 + d.1) (c + d.2 + d.2) color = true := by
  intro fuel r c h
  cases fuel with
  | zero => simp [getLineAux] at h
  | succ n =>
    rw [getLineAux_succ] at h
    by_cases h0 : cellColored b r c color = true
    · rw [if_pos h0] at h
      simp only [List.length_cons] at h
      have hx : 2 ≤ (getLineAux b d color n (r + d.1) (c + d.2)).length := by
        omega
      obtain ⟨h1, h2⟩ := getLineAux_two hx
      exact ⟨h0, h1, h2⟩
    · rw [if_neg h0] at h
      simp at h

theorem getLineFrom_four {b : Board} {d : Int × Int} {color : PlayerColor}
    {r c : Int}
    (h0 : cellColored b r c color = true)
    (h1 : cellColored b (r + d.1) (c + d.2) color = true)
    (h2 : cellColored b (r + d.1 + d.1) (c + d.2 + d.2) color = true)
    (h3 : cellColored b (r + d.1 + d.1 + d.1) (c + d.2 + d.2 + d.2) color
      = true)
    (h4 : cellColored b (r + d.1 + d.1 + d.1 + d.1)
      (c + d.2 + d.2 + d.2 + d.2) color = false) :
    getLineFrom b r c d color =
      [⟨r, c⟩, ⟨r + d.1, c + d.2⟩, ⟨r + d.1 + d.1, c + d.2 + d.2⟩,
        ⟨r + d.1 + d.1 + d.1, c + d.2 + d.2 + d.2⟩] := by
  unfold getLineFrom
  rw [show (8 : Nat) = 7 + 1 from rfl, getLineAux_succ, if_pos h0]
  rw [show (7 : Nat) = 6 + 1 from rfl, getLineAux_succ, if_pos h1]
  rw [show (6 : Nat) = 5 + 1 from rfl, getLineAux_succ, if_pos h2]
  rw [show (5 : Nat) = 4 + 1 from rfl, getLineAux_succ, if_pos h3]
  rw [show (4 : Nat) = 3 + 1 from rfl, getLineAux_succ,
    if_neg (by rw [h4]; decide)]

theorem getLineFrom_three {b : Board} {d : Int × Int} {color : PlayerColor}
    {r c : Int}
    (h0 : cellColored b r c color = true)
    (h1 : cellColored b (r + d.1) (c + d.2) color = true)
    (h2 : cellColored b (r + d.1 + d.1) (c + d.2 + d.2) color = true)
    (h3 : cellColored b (r + d.1 + d.1 + d.1) (c + d.2 + d.2 + d.2) color
      = false) :
    getLineFrom b r c d color =
      [⟨r, c⟩, ⟨r + d.1, c + d.2⟩, ⟨r + d.1 + d.1, c + d.2 + d.2⟩] := by
  unfold getLineFrom
  rw [show (8 : Nat) = 7 + 1 from rfl, getLineAux_succ, if_pos h0]
  rw [show (7 : Nat) = 6 + 1 from rfl, getLineAux_succ, if_pos h1]
  rw [show (6 : Nat) = 5 + 1 from rfl, getLineAux_succ, if_pos h2]
  rw [show (5 : Nat) = 4 + 1 from rfl, getLineAux_succ,
    if_neg (by rw [h3]; decide)]

theorem keyInsert_mem (x y : Int × Int) :
    ∀ l : List (Int × Int), x ∈ keyInsert y l ↔ x = y ∨ x ∈ l := by
  intro l
  induction l with
  | nil => simp [keyInsert]
  | cons z zs ih =>
    unfold keyInsert
    by_cases h : keyLe y z = true
    · rw [if_pos h]
      simp
    · rw [if_neg h]
      simp only [List.mem_cons, ih]
      tauto

theorem keySort_mem (x : Int × Int) :
    ∀ l : List (Int × Int), x ∈ keySort l ↔ x ∈ l := by
  intro l
  induction l with
  | nil => simp [keySort]
  | cons z zs ih =>
    unfold keySort at ih ⊢
    simp only [List.foldr_cons, keyInsert_mem, List.mem_cons, ih]

theorem foldl_id {α β : Type _} (f : α → β → α) (l : List β)
    (h : ∀ t ∈ l, ∀ a, f a t = a) (a0 : α) : l.foldl f a0 = a0 := by
  induction l generalizing a0 with
  | nil => rfl
  | cons x xs ih =>
    rw [List.foldl_cons, h x (by simp)]
    exact ih (fun t ht a => h t (by simp [ht]) a) a0

theorem foldl_one {α β : Type _} (f : α → β → α) (l : List β) (t : β)
    (ht : t ∈ l) (hnd : l.Nodup)
    (hid : ∀ u ∈ l, u ≠ t → ∀ a, f a u = a) (a0 : α) :
    l.foldl f a0 = f a0 t := by
  induction l generalizing a0 with
  | nil => cases ht
  | cons x xs ih =>
    rw [List.foldl_cons]
    by_cases hx : x = t
    · subst hx
      have hxs : x ∉ xs := (List.nodup_cons.mp hnd).1
      exact foldl_id f xs
        (fun u hu a => hid u (by simp [hu]) (fun he => hxs (he ▸ hu)) a)
        (f a0 x)
    · rw [hid x (by simp) hx]
      exact ih (List.mem_of_ne_of_mem (fun he => hx he.symm) ht)
        (List.nodup_cons.mp hnd).2
        (fun u hu hune a => hid u (by simp [hu]) hune a) a0

theorem foldl_two {α β : Type _} (f : α → β → α) (l : List β) (t0 t1 : β)
    (h0 : t0 ∈ l) (h1 : t1 ∈ l) (hne : t0 ≠ t1) (hnd : l.Nodup)
    (hid : ∀ u ∈ l, u ≠ t0 → u ≠ t1 → ∀ a, f a u = a) (a0 : α) :
    l.foldl f a0 = f (f a0 t0) t1 ∨ l.foldl f a0 = f (f a0 t1) t0 := by
  induction l generalizing a0 with
  | nil => cases h0
  | cons x xs ih =>
    rw [List.foldl_cons]
    by_cases hx0 : x = t0
    · subst hx0
      left
      have hxs : x ∉ xs := (List.nodup_cons.mp hnd).1
      have h1' : t1 ∈ xs :=
        List.mem_of_ne_of_mem (fun he => hne (he.symm ▸ rfl)) h1
      exact foldl_one f xs t1 h1' (List.nodup_cons.mp hnd).2
        (fun u hu hune a =>
          hid u (by simp [hu]) (fun he => hxs (he ▸ hu)) hune a) (f a0 x)
    · by_cases hx1 : x = t1
      · subst hx1
        right
        have hxs : x ∉ xs := (List.nodup_cons.mp hnd).1
        have h0' : t0 ∈ xs := by
          rcases List.mem_cons.mp h0 with he | h
          · exact absurd he.symm hx0
          · exact h
        exact foldl_one f xs t0 h0' (List.nodup_cons.mp hnd).2
          (fun u hu hune a =>
            hid u (by simp [hu]) hune (fun he => hxs (he ▸ hu)) a) (f a0 x)
      · rw [hid x (by simp) hx0 hx1]
        have h0' : t0 ∈ xs := by
          rcases List.mem_cons.mp h0 with he | h
          · exact absurd he.symm hx0
          · exact h
        have h1' : t1 ∈ xs := by
          rcases List.mem_cons.mp h1 with he | h
          · exact absurd he.symm hx1
          · exact h
        exact ih h0' h1' (List.nodup_cons.mp hnd).2
          (fun u hu hu0 hu1 a => hid u (by simp [hu]) hu0 hu1 a) a0

theorem mem_scanTriples {t : Int × Int × (Int × Int)} :
    t ∈ scanTriples ↔ (t.1, t.2.1) ∈ cellList ∧ t.2.2 ∈ LINE_DIRECTIONS := by
  unfold scanTriples
  simp only [List.mem_flatMap, List.mem_map]
  constructor
  · rintro ⟨rc, hrc, d, hd, rfl⟩
    exact ⟨hrc, hd⟩
  · rintro ⟨h1, h2⟩
    exact ⟨(t.1, t.2.1), h1, t.2.2, h2, rfl⟩

set_option maxRecDepth 400000 in
theorem scanTriples_nodup : scanTriples.Nodup := by decide

theorem LINE_DIRECTIONS_form {d : Int × Int} (hd : d ∈ LINE_DIRECTIONS) :
    (d.1 = 0 ∧ d.2 = 1) ∨ (d.1 = 1 ∧ d.2 = 0) ∨ (d.1 = 1 ∧ d.2 = 1) ∨
    (d.1 = 1 ∧ d.2 = -1) := by
  fin_cases hd <;> simp

set_option maxHeartbeats 4000000 in
/-- C6 (amended): on a board whose only pieces of color `c` are four
consecutive cells along a line direction `d` starting at `(sr, sc)`, the
option enumeration returns exactly those of the two 3-cell windows
`[0,1,2]` / `[1,2,3]` that themselves contain a kitten — each offered once
(so exactly 2 distinct options when both windows have a kitten, but only 1
when the line's sole kitten sits at an end). -/
theorem four_line_window_options (b : Board) (c : PlayerColor)
    (sr sc : Int) (d : Int × Int) (hd : d ∈ LINE_DIRECTIONS)
    (h0 : cellColored b sr sc c = true)
    (h1 : cellColored b (sr + d.1) (sc + d.2) c = true)
    (h2 : cellColored b (sr + d.1 + d.1) (sc + d.2 + d.2) c = true)
    (h3 : cellColored b (sr + d.1 + d.1 + d.1) (sc + d.2 + d.2 + d.2) c
      = true)
    (honly : ∀ q : Pos,
      cellColored b ((q.1 : Nat) : Int) ((q.2 : Nat) : Int) c = true →
      ((((q.1 : Nat) : Int), ((q.2 : Nat) : Int)) : Int × Int) = (sr, sc) ∨
      ((((q.1 : Nat) : Int), ((q.2 : Nat) : Int)) : Int × Int)
        = (sr + d.1, sc + d.2) ∨
      ((((q.1 : Nat) : Int), ((q.2 : Nat) : Int)) : Int × Int)
        = (sr + d.1 + d.1, sc + d.2 + d.2) ∨
      ((((q.1 : Nat) : Int), ((q.2 : Nat) : Int)) : Int × Int)
        = (sr + d.1 + d.1 + d.1, sc + d.2 + d.2 + d.2)) :
    (findGraduationOptions b c).length
      = (if hasKittenAt b (windowA sr sc d) = true then 1 else 0)
        + (if hasKittenAt b (windowB sr sc d) = true then 1 else 0) ∧
    ∀ opt, opt ∈ findGraduationOptions b c ↔
      (hasKittenAt b (windowA sr sc d) = true ∧ opt = windowA sr sc d) ∨
      (hasKittenAt b (windowB sr sc d) = true ∧ opt = windowB sr sc d) := by
  have dF := LINE_DIRECTIONS_form hd
  have honlyI : ∀ r cc : Int, cellColored b r cc c = true →
      ((r, cc) : Int × Int) = (sr, sc) ∨
      ((r, cc) : Int × Int) = (sr + d.1, sc + d.2) ∨
      ((r, cc) : Int × Int) = (sr + d.1 + d.1, sc + d.2 + d.2) ∨
      ((r, cc) : Int × Int) = (sr + d.1 + d.1 + d.1, sc + d.2 + d.2 + d.2) := by
    intro r cc hcol
    have hg : ∃ p, getCell b r cc = some p := by
      unfold cellColored at hcol
      cases hgc : getCell b r cc with
      | none =>
        rw [hgc] at hcol
        cases hcol
      | some p => exact ⟨p, rfl⟩
    obtain ⟨p, hp⟩ := hg
    obtain ⟨q, hq, hbq⟩ := getCell_some_toPos hp
    obtain ⟨hr, hc2⟩ := toPos?_coords hq
    have hcolq : cellColored b ((q.1 : Nat) : Int) ((q.2 : Nat) : Int) c
        = true := by
      unfold cellColored getCell at hcol ⊢
      rw [toPos?_roundtrip q]
      rw [hq] at hcol
      exact hcol
    have h5 := honly q hcolq
    rw [hr, hc2] at h5
    exact h5
  have hcellmem : ∀ r cc : Int, cellColored b r cc c = true →
      ((r, cc) : Int × Int) ∈ cellList := by
    intro r cc hcol
    have hg : ∃ p, getCell b r cc = some p := by
      unfold cellColored at hcol
      cases hgc : getCell b r cc with
      | none =>
        rw [hgc] at hcol
        cases hcol
      | some p => exact ⟨p, rfl⟩
    obtain ⟨p, hp⟩ := hg
    obtain ⟨q, hq, hbq⟩ := getCell_some_toPos hp
    obtain ⟨hr, hc2⟩ := toPos?_coords hq
    have hm := cellList_complete q
    rw [hr, hc2] at hm
    exact hm
  have h4 : cellColored b (sr + d.1 + d.1 + d.1 + d.1)
      (sc + d.2 + d.2 + d.2 + d.2) c = false := by
    cases h5 : cellColored b (sr + d.1 + d.1 + d.1 + d.1)
        (sc + d.2 + d.2 + d.2 + d.2) c
    · rfl
    · exfalso
      have h6 := honlyI _ _ h5
      simp only [Prod.mk.injEq] at h6
      omega
  have hline4 : getLineFrom b sr sc d c =
      [⟨sr, sc⟩, ⟨sr + d.1, sc + d.2⟩, ⟨sr + d.1 + d.1, sc + d.2 + d.2⟩,
        ⟨sr + d.1 + d.1 + d.1, sc + d.2 + d.2 + d.2⟩] :=
    getLineFrom_four h0 h1 h2 h3 h4
  have hline3 : getLineFrom b (sr + d.1) (sc + d.2) d c = windowB sr sc d :=
    getLineFrom_three h1 h2 h3 h4
  have hsplit : hasKittenAt b
      [⟨sr, sc⟩, ⟨sr + d.1, sc + d.2⟩, ⟨sr + d.1 + d.1, sc + d.2 + d.2⟩,
        ⟨sr + d.1 + d.1 + d.1, sc + d.2 + d.2 + d.2⟩]
      = (hasKittenAt b (windowA sr sc d) || hasKittenAt b (windowB sr sc d)) := by
    show ([⟨sr, sc⟩, ⟨sr + d.1, sc + d.2⟩,
        ⟨sr + d.1 + d.1, sc + d.2 + d.2⟩,
        ⟨sr + d.1 + d.1 + d.1, sc + d.2 + d.2 + d.2⟩] : List Cell).any
          (kittenAt b)
      = (((windowA sr sc d).any (kittenAt b))
          || ((windowB sr sc d).any (kittenAt b)))
    simp only [windowA, windowB, List.any_cons, List.any_nil]
    cases kittenAt b ⟨sr, sc⟩ <;>
      cases kittenAt b ⟨sr + d.1, sc + d.2⟩ <;>
      cases kittenAt b ⟨sr + d.1 + d.1, sc + d.2 + d.2⟩ <;>
      cases kittenAt b ⟨sr + d.1 + d.1 + d.1, sc + d.2 + d.2 + d.2⟩ <;>
      rfl
  have hkeyne : optKey (windowB sr sc d) ≠ optKey (windowA sr sc d) := by
    intro he
    have hmem : ((sr, sc) : Int × Int) ∈ optKey (windowA sr sc d) := by
      unfold optKey
      rw [keySort_mem]
      simp [windowA]
    rw [← he] at hmem
    unfold optKey at hmem
    rw [keySort_mem] at hmem
    simp only [windowB, List.map_cons, List.map_nil, List.mem_cons,
      List.not_mem_nil, or_false, Prod.mk.injEq] at hmem
    omega
  have hkeyneA : optKey (windowA sr sc d) ≠ optKey (windowB sr sc d) :=
    fun he => hkeyne he.symm
  have hT0 : ((sr, sc, d) : Int × Int × (Int × Int)) ∈ scanTriples :=
    mem_scanTriples.mpr ⟨hcellmem sr sc h0, hd⟩
  have hT1 : ((sr + d.1, sc + d.2, d) : Int × Int × (Int × Int)) ∈ scanTriples :=
    mem_scanTriples.mpr ⟨hcellmem (sr + d.1) (sc + d.2) h1, hd⟩
  have hT01 : ((sr, sc, d) : Int × Int × (Int × Int))
      ≠ (sr + d.1, sc + d.2, d) := by
    intro he
    simp only [Prod.mk.injEq, and_true] at he
    omega
  have hid : ∀ t ∈ scanTriples, t ≠ (sr, sc, d) →
      t ≠ (sr + d.1, sc + d.2, d) → ∀ acc, scanStep b c acc t = acc := by
    intro t ht hne0 hne1 acc
    have hd2 : t.2.2 ∈ LINE_DIRECTIONS := (mem_scanTriples.mp ht).2
    have dF2 := LINE_DIRECTIONS_form hd2
    have hnc : ¬(3 ≤ (getLineFrom b t.1 t.2.1 t.2.2 c).length ∧
        hasKittenAt b (getLineFrom b t.1 t.2.1 t.2.2 c) = true) := by
      rintro ⟨hlen, -⟩
      obtain ⟨e0, e1, e2⟩ := getLineAux_three hlen
      have f0 := honlyI _ _ e0
      have f1 := honlyI _ _ e1
      have f2 := honlyI _ _ e2
      simp only [Prod.mk.injEq] at f0 f1 f2
      have hgoal : (t.1 = sr ∧ t.2.1 = sc ∧ t.2.2.1 = d.1 ∧ t.2.2.2 = d.2) ∨
          (t.1 = sr + d.1 ∧ t.2.1 = sc + d.2 ∧ t.2.2.1 = d.1 ∧
            t.2.2.2 = d.2) := by
        omega
      rcases hgoal with ⟨g1, g2, g3, g4⟩ | ⟨g1, g2, g3, g4⟩
      · refine hne0 ?_
        have hdd : t.2.2 = d := Prod.ext_iff.mpr ⟨g3, g4⟩
        rw [show t = (t.1, t.2.1, t.2.2) from rfl, g1, g2, hdd]
      · refine hne1 ?_
        have hdd : t.2.2 = d := Prod.ext_iff.mpr ⟨g3, g4⟩
        rw [show t = (t.1, t.2.1, t.2.2) from rfl, g1, g2, hdd]
    unfold scanStep
    dsimp only
    rw [if_neg hnc]
  have hfgo : findGraduationOptions b c
      = (scanTriples.foldl (scanStep b c) ([], [])).1 := rfl
  have hfin := foldl_two (scanStep b c) scanTriples (sr, sc, d)
    (sr + d.1, sc + d.2, d) hT0 hT1 hT01 scanTriples_nodup hid ([], [])
  have hlenB : (windowB sr sc d).length = 3 := rfl
  by_cases hk0 : hasKittenAt b (windowA sr sc d) = true <;>
    by_cases hk1 : hasKittenAt b (windowB sr sc d) = true
  · -- both windows have a kitten
    have hres : findGraduationOptions b c = [windowA sr sc d, windowB sr sc d] ∨
        findGraduationOptions b c = [windowB sr sc d, windowA sr sc d] := by
      rcases hfin with hfin | hfin
      · left
        rw [hfgo, hfin]
        unfold scanStep
        dsimp only
        rw [hline4, hline3]
        unfold addLineOptions
        rw [show List.range
            (([⟨sr, sc⟩, ⟨sr + d.1, sc + d.2⟩,
              ⟨sr + d.1 + d.1, sc + d.2 + d.2⟩,
              ⟨sr + d.1 + d.1 + d.1, sc + d.2 + d.2 + d.2⟩] : List Cell).length
              - 2) = [0, 1] from rfl]
        rw [show List.range ((windowB sr sc d).length - 2) = [0] from rfl]
        simp only [List.foldl_cons, List.foldl_nil]
        rw [show window
            ([⟨sr, sc⟩, ⟨sr + d.1, sc + d.2⟩,
              ⟨sr + d.1 + d.1, sc + d.2 + d.2⟩,
              ⟨sr + d.1 + d.1 + d.1, sc + d.2 + d.2 + d.2⟩] : List Cell) 0
            = windowA sr sc d from rfl]
        rw [show window
            ([⟨sr, sc⟩, ⟨sr + d.1, sc + d.2⟩,
              ⟨sr + d.1 + d.1, sc + d.2 + d.2⟩,
              ⟨sr + d.1 + d.1 + d.1, sc + d.2 + d.2 + d.2⟩] : List Cell) 1
            = windowB sr sc d from rfl]
        rw [show window (windowB sr sc d) 0 = windowB sr sc d from rfl]
        simp [hsplit, hk0, hk1, hkeyne, hlenB]
      · right
        rw [hfgo, hfin]
        unfold scanStep
        dsimp only
        rw [hline4, hline3]
        unfold addLineOptions
        rw [show List.range
            (([⟨sr, sc⟩, ⟨sr + d.1, sc + d.2⟩,
              ⟨sr + d.1 + d.1, sc + d.2 + d.2⟩,
              ⟨sr + d.1 + d.1 + d.1, sc + d.2 + d.2 + d.2⟩] : List Cell).length
              - 2) = [0, 1] from rfl]
        rw [show List.range ((windowB sr sc d).length - 2) = [0] from rfl]
        simp only [List.foldl_cons, List.foldl_nil]
        rw [show window
            ([⟨sr, sc⟩, ⟨sr + d.1, sc + d.2⟩,
              ⟨sr + d.1 + d.1, sc + d.2 + d.2⟩,
              ⟨sr + d.1 + d.1 + d.1, sc + d.2 + d.2 + d.2⟩] : List Cell) 0
            = windowA sr sc d from rfl]
        rw [show window
            ([⟨sr, sc⟩, ⟨sr + d.1, sc + d.2⟩,
              ⟨sr + d.1 + d.1, sc + d.2 + d.2⟩,
              ⟨sr + d.1 + d.1 + d.1, sc + d.2 + d.2 + d.2⟩] : List Cell) 1
            = windowB sr sc d from rfl]
        rw [show window (windowB sr sc d) 0 = windowB sr sc d from rfl]
        simp [hsplit, hk0, hk1, hkeyneA, hlenB]
    rcases hres with hres | hres <;> rw [hres] <;>
      refine ⟨by simp [hk0, hk1], fun opt => ?_⟩ <;>
      simp [hk0, hk1, List.mem_cons] <;> tauto
  · -- only the `[0,1,2]` window has a kitten
    have hres : findGraduationOptions b c = [windowA sr sc d] := by
      rcases hfin with hfin | hfin <;>
        · rw [hfgo, hfin]
          unfold scanStep
          dsimp only
          rw [hline4, hline3]
          unfold addLineOptions
          rw [show List.range
              (([⟨sr, sc⟩, ⟨sr + d.1, sc + d.2⟩,
                ⟨sr + d.1 + d.1, sc + d.2 + d.2⟩,
                ⟨sr + d.1 + d.1 + d.1,
                  sc + d.2 + d.2 + d.2⟩] : List Cell).length
                - 2) = [0, 1] from rfl]
          rw [show List.range ((windowB sr sc d).length - 2) = [0] from rfl]
          simp only [List.foldl_cons, List.foldl_nil]
          rw [show window
              ([⟨sr, sc⟩, ⟨sr + d.1, sc + d.2⟩,
                ⟨sr + d.1 + d.1, sc + d.2 + d.2⟩,
                ⟨sr + d.1 + d.1 + d.1,
                  sc + d.2 + d.2 + d.2⟩] : List Cell) 0
              = windowA sr sc d from rfl]
          rw [show window
              ([⟨sr, sc⟩, ⟨sr + d.1, sc + d.2⟩,
                ⟨sr + d.1 + d.1, sc + d.2 + d.2⟩,
                ⟨sr + d.1 + d.1 + d.1,
                  sc + d.2 + d.2 + d.2⟩] : List Cell) 1
              = windowB sr sc d from rfl]
          rw [show window (windowB sr sc d) 0 = windowB sr sc d from rfl]
          simp [hsplit, hk0, hk1, hlenB]
    rw [hres]
    refine ⟨by simp [hk0, hk1], fun opt => ?_⟩
    simp [hk0, hk1, List.mem_cons]
  · -- only the `[1,2,3]` window has a kitten
    have hres : findGraduationOptions b c = [windowB sr sc d] := by
      rcases hfin with hfin | hfin <;>
        · rw [hfgo, hfin]
          unfold scanStep
          dsimp only
          rw [hline4, hline3]
          unfold addLineOptions
          rw [show List.range
              (([⟨sr, sc⟩, ⟨sr + d.1, sc + d.2⟩,
                ⟨sr + d.1 + d.1, sc + d.2 + d.2⟩,
                ⟨sr + d.1 + d.1 + d.1,
                  sc + d.2 + d.2 + d.2⟩] : List Cell).length
                - 2) = [0, 1] from rfl]
          rw [show List.range ((windowB sr sc d).length - 2) = [0] from rfl]
          simp only [List.foldl_cons, List.foldl_nil]
          rw [show window
              ([⟨sr, sc⟩, ⟨sr + d.1, sc + d.2⟩,
                ⟨sr + d.1 + d.1, sc + d.2 + d.2⟩,
                ⟨sr + d.1 + d.1 + d.1,
                  sc + d.2 + d.2 + d.2⟩] : List Cell) 0
              = windowA sr sc d from rfl]
          rw [show window
              ([⟨sr, sc⟩, ⟨sr + d.1, sc + d.2⟩,
                ⟨sr + d.1 + d.1, sc + d.2 + d.2⟩,
                ⟨sr + d.1 + d.1 + d.1,
                  sc + d.2 + d.2 + d.2⟩] : List Cell) 1
              = windowB sr sc d from rfl]
          rw [show window (windowB sr sc d) 0 = windowB sr sc d from rfl]
          simp [hsplit, hk0, hk1, hlenB]
    rw [hres]
    refine ⟨by simp [hk0, hk1], fun opt => ?_⟩
    simp [hk0, hk1, List.mem_cons]
  · -- no kitten in either window: no options at all
    have hres : findGraduationOptions b c = [] := by
      rcases hfin with hfin | hfin <;>
        · rw [hfgo, hfin]
          unfold scanStep
          dsimp only
          rw [hline4, hline3]
          simp [hsplit, hk0, hk1, hlenB]
    rw [hres]
    refine ⟨by simp [hk0, hk1], fun opt => ?_⟩
    simp [hk0, hk1]

set_option maxRecDepth 400000 in
set_option maxHeartbeats 4000000 in
/-- C6 counterexample: `bC6` holds a maximal straight line of exactly 4
orange pieces (row 2, columns 0-3) whose last cell is a kitten, and no
other orange pieces — yet `findGraduationOptions` returns exactly ONE
option (the `[1,2,3]` window), not two: the `[0,1,2]` window is all cats,
and the code only offers windows that themselves contain a kitten. -/
theorem four_line_one_option_counterexample :
    cellColored bC6 2 0 PlayerColor.orange = true ∧
    cellColored bC6 2 1 PlayerColor.orange = true ∧
    cellColored bC6 2 2 PlayerColor.orange = true ∧
    cellColored bC6 2 3 PlayerColor.orange = true ∧
    cellColored bC6 2 4 PlayerColor.orange = false ∧
    hasKittenAt bC6 [⟨2, 0⟩, ⟨2, 1⟩, ⟨2, 2⟩, ⟨2, 3⟩] = true ∧
    (∀ q : Pos, cellColored bC6 ((q.1 : Nat) : Int) ((q.2 : Nat) : Int)
        PlayerColor.orange = true →
      ((((q.1 : Nat) : Int), ((q.2 : Nat) : Int)) : Int × Int) = (2, 0) ∨
      ((((q.1 : Nat) : Int), ((q.2 : Nat) : Int)) : Int × Int) = (2, 1) ∨
      ((((q.1 : Nat) : Int), ((q.2 : Nat) : Int)) : Int × Int) = (2, 2) ∨
      ((((q.1 : Nat) : Int), ((q.2 : Nat) : Int)) : Int × Int) = (2, 3)) ∧
    (findGraduationOptions bC6 PlayerColor.orange).length = 1 ∧
    findGraduationOptions bC6 PlayerColor.orange
      = [[⟨2, 1⟩, ⟨2, 2⟩, ⟨2, 3⟩]] := by decide

set_option maxRecDepth 400000 in
set_option maxHeartbeats 4000000 in
/-- C6 witness: the amended window enumeration evaluated on a 4-kitten
line, where both windows have a kitten and exactly 2 options result. -/
theorem four_line_window_options_witness :
    ((0, 1) : Int × Int) ∈ LINE_DIRECTIONS ∧
    cellColored bW6 1 1 PlayerColor.gray = true ∧
    cellColored bW6 1 2 PlayerColor.gray = true ∧
    cellColored bW6 1 3 PlayerColor.gray = true ∧
    cellColored bW6 1 4 PlayerColor.gray = true ∧
    (∀ q : Pos, cellColored bW6 ((q.1 : Nat) : Int) ((q.2 : Nat) : Int)
        PlayerColor.gray = true →
      ((((q.1 : Nat) : Int), ((q.2 : Nat) : Int)) : Int × Int) = (1, 1) ∨
      ((((q.1 : Nat) : Int), ((q.2 : Nat) : Int)) : Int × Int) = (1, 2) ∨
      ((((q.1 : Nat) : Int), ((q.2 : Nat) : Int)) : Int × Int) = (1, 3) ∨
      ((((q.1 : Nat) : Int), ((q.2 : Nat) : Int)) : Int × Int) = (1, 4)) ∧
    ((findGraduationOptions bW6 PlayerColor.gray).length
        = (if hasKittenAt bW6 (windowA 1 1 (0, 1)) = true then 1 else 0)
          + (if hasKittenAt bW6 (windowB 1 1 (0, 1)) = true then 1 else 0) ∧
      ∀ opt, opt ∈ findGraduationOptions bW6 PlayerColor.gray ↔
        (hasKittenAt bW6 (windowA 1 1 (0, 1)) = true ∧
          opt = windowA 1 1 (0, 1)) ∨
        (hasKittenAt bW6 (windowB 1 1 (0, 1)) = true ∧
          opt = windowB 1 1 (0, 1))) :=
  ⟨by decide, by decide, by decide, by decide, by decide, by decide,
    four_line_window_options bW6 PlayerColor.gray 1 1 (0, 1) (by decide)
      (by decide) (by decide) (by decide) (by decide) (by decide)⟩

/-- C1: in every state reachable from a fresh two-player game by
`placePiece` / `selectGraduation` calls, each present player slot satisfies
the conservation laws: kittens in pool + kittens on board + kittens retired
= 8, and cats in pool + cats on board = kittens retired (hence at most 8). -/
theorem conservation (g : GameState) (hg : Reachable g) (c : PlayerColor)
    (pl : PlayerState) (hsp : slotPlayer g.players c = some pl) :
    pl.kittensInPool + kittensOnBoard g.board c + pl.kittensRetired = 8 ∧
    pl.catsInPool + catsOnBoard g.board c = pl.kittensRetired ∧
    pl.catsInPool + catsOnBoard g.board c ≤ 8 := by
  obtain ⟨hco, hcg, -, -⟩ := Reachable_Inv g hg
  have hc : consOk g.board g.players c := by
    cases c
    · exact hco
    · exact hcg
  obtain ⟨pl2, hsp2, -, hk, hcc⟩ := hc
  have hpe : pl2 = pl := Option.some.inj (hsp2.symm.trans hsp)
  subst hpe
  exact ⟨hk, hcc, by omega⟩

/-- C1 witness: the conservation law evaluated at the fresh game itself. -/
theorem conservation_witness :
    Reachable (freshGame "s1" "Alice" none "s2" "Bob" none) ∧
    slotPlayer (freshGame "s1" "Alice" none "s2" "Bob" none).players
        PlayerColor.orange
      = some (fillSlot none PlayerColor.orange "s1" "Alice" none) ∧
    ((fillSlot none PlayerColor.orange "s1" "Alice" none).kittensInPool +
        kittensOnBoard (freshGame "s1" "Alice" none "s2" "Bob" none).board
          PlayerColor.orange +
        (fillSlot none PlayerColor.orange "s1" "Alice" none).kittensRetired
        = 8 ∧
      (fillSlot none PlayerColor.orange "s1" "Alice" none).catsInPool +
        catsOnBoard (freshGame "s1" "Alice" none "s2" "Bob" none).board
          PlayerColor.orange
        = (fillSlot none PlayerColor.orange "s1" "Alice" none).kittensRetired ∧
      (fillSlot none PlayerColor.orange "s1" "Alice" none).catsInPool +
        catsOnBoard (freshGame "s1" "Alice" none "s2" "Bob" none).board
          PlayerColor.orange ≤ 8) :=
  ⟨Reachable.fresh "s1" "Alice" none "s2" "Bob" none, rfl,
    conservation (freshGame "s1" "Alice" none "s2" "Bob" none)
      (Reachable.fresh "s1" "Alice" none "s2" "Bob" none) PlayerColor.orange
      (fillSlot none PlayerColor.orange "s1" "Alice" none) rfl⟩


/-! ## C8: the simulator never touches the caller's objects -/

theorem preservedBelow_refl (nb np : Nat) (h : Heap) :
    PreservedBelow nb np h h :=
  ⟨fun _ _ => rfl, fun _ _ => rfl⟩

theorem preservedBelow_trans {nb np : Nat} {h0 h1 h2 : Heap}
    (a : PreservedBelow nb np h0 h1) (b2 : PreservedBelow nb np h1 h2) :
    PreservedBelow nb np h0 h2 :=
  ⟨fun i hi => (b2.1 i hi).trans (a.1 i hi),
   fun j hj => (b2.2 j hj).trans (a.2 j hj)⟩

theorem writeB_preserved {nb np : Nat} {h : Heap} {r : BRef} (b : Board)
    (hr : nb ≤ r) : PreservedBelow nb np h (writeB h r b) := by
  constructor
  · intro i hi
    show (h.boards.set r b).getD i emptyBoard = _
    have hne : r ≠ i := by
      intro he
      rw [he] at hr
      exact absurd hi (Nat.not_lt.mpr hr)
    simp [List.getD_eq_getElem?_getD, List.getElem?_set_ne hne]
  · intro j hj
    rfl

theorem writeP_preserved {nb np : Nat} {h : Heap} {r : PRef} (p : PlayerState)
    (hr : np ≤ r) : PreservedBelow nb np h (writeP h r p) := by
  constructor
  · intro i hi
    rfl
  · intro j hj
    show (h.players.set r p).getD j defaultPlayer = _
    have hne : r ≠ j := by
      intro he
      rw [he] at hr
      exact absurd hj (Nat.not_lt.mpr hr)
    simp [List.getD_eq_getElem?_getD, List.getElem?_set_ne hne]

theorem allocB_preserved {nb np : Nat} {h : Heap} (b : Board)
    (hlen : nb ≤ h.boards.length) :
    PreservedBelow nb np h (allocB h b).1 := by
  constructor
  · intro i hi
    show (h.boards ++ [b]).getD i emptyBoard = _
    have hlt : i < h.boards.length := by omega
    simp [List.getD_eq_getElem?_getD, List.getElem?_append_left hlt]
  · intro j hj
    rfl

theorem allocP_preserved {nb np : Nat} {h : Heap} (p : PlayerState)
    (hlen : np ≤ h.players.length) :
    PreservedBelow nb np h (allocP h p).1 := by
  constructor
  · intro i hi
    rfl
  · intro j hj
    show (h.players ++ [p]).getD j defaultPlayer = _
    have hlt : j < h.players.length := by omega
    simp [List.getD_eq_getElem?_getD, List.getElem?_append_left hlt]

theorem heapGE_writeB {nb np : Nat} {h : Heap} {r : BRef} {b : Board}
    (hg : HeapGE nb np h) : HeapGE nb np (writeB h r b) := by
  obtain ⟨h1, h2⟩ := hg
  exact ⟨by simpa [writeB] using h1, h2⟩

theorem heapGE_writeP {nb np : Nat} {h : Heap} {r : PRef} {p : PlayerState}
    (hg : HeapGE nb np h) : HeapGE nb np (writeP h r p) := by
  obtain ⟨h1, h2⟩ := hg
  exact ⟨h1, by simpa [writeP] using h2⟩

theorem heapGE_allocB {nb np : Nat} {h : Heap} {b : Board}
    (hg : HeapGE nb np h) : HeapGE nb np (allocB h b).1 := by
  obtain ⟨h1, h2⟩ := hg
  refine ⟨?_, h2⟩
  show nb ≤ (h.boards ++ [b]).length
  simp only [List.length_append, List.length_cons, List.length_nil]
  omega

theorem heapGE_allocP {nb np : Nat} {h : Heap} {p : PlayerState}
    (hg : HeapGE nb np h) : HeapGE nb np (allocP h p).1 := by
  obtain ⟨h1, h2⟩ := hg
  refine ⟨h1, ?_⟩
  show np ≤ (h.players ++ [p]).length
  simp only [List.length_append, List.length_cons, List.length_nil]
  omega

theorem hslot_cases {o g : Option PRef} {c : PlayerColor} {r : PRef}
    (h : hslot o g c = some r) : o = some r ∨ g = some r := by
  cases c
  · exact Or.inl h
  · exact Or.inr h

theorem boopStepH_frame (nb np : Nat) (h0 : Heap) (pr pc : Int)
    (t : PieceType) (po pg : Option PRef) (rb : BRef)
    (hrb : nb ≤ rb) (hpo : ∀ r, po = some r → np ≤ r)
    (hpg : ∀ r, pg = some r → np ≤ r)
    (acc : Heap × List BoopEffect) (d : Int × Int)
    (hacc : PreservedBelow nb np h0 acc.1 ∧ HeapGE nb np acc.1) :
    PreservedBelow nb np h0 (boopStepH pr pc t po pg rb acc d).1 ∧
      HeapGE nb np (boopStepH pr pc t po pg rb acc d).1 := by
  obtain ⟨hp, hg⟩ := hacc
  unfold boopStepH
  dsimp only
  cases hadj : getCell (readB acc.1 rb) (pr + d.1) (pc + d.2) with
  | none => exact ⟨hp, hg⟩
  | some adjPiece =>
    dsimp only
    by_cases h1 : t = PieceType.kitten ∧ adjPiece.type = PieceType.cat
    · rw [if_pos h1]
      exact ⟨hp, hg⟩
    rw [if_neg h1]
    by_cases h2 : isValidPosition (pr + d.1 + d.1) (pc + d.2 + d.2) = true ∧
        getCell (readB acc.1 rb) (pr + d.1 + d.1) (pc + d.2 + d.2) ≠ none
    · rw [if_pos h2]
      exact ⟨hp, hg⟩
    rw [if_neg h2]
    by_cases h3 : isValidPosition (pr + d.1 + d.1) (pc + d.2 + d.2) = true
    · rw [if_pos h3]
      dsimp only
      exact ⟨preservedBelow_trans hp (preservedBelow_trans
          (writeB_preserved _ hrb) (writeB_preserved _ hrb)),
        heapGE_writeB (heapGE_writeB hg)⟩
    · rw [if_neg h3]
      cases hsl : hslot po pg adjPiece.color with
      | none =>
        dsimp only
        exact ⟨preservedBelow_trans hp (writeB_preserved _ hrb),
          heapGE_writeB hg⟩
      | some owner =>
        dsimp only
        have hown : np ≤ owner := by
          rcases hslot_cases hsl with h4 | h4
          · exact hpo owner h4
          · exact hpg owner h4
        exact ⟨preservedBelow_trans hp (preservedBelow_trans
            (writeB_preserved _ hrb) (writeP_preserved _ hown)),
          heapGE_writeP (heapGE_writeB hg)⟩

theorem executeBoopH_frame (nb np : Nat) (h : Heap) (rb0 : BRef)
    (pr pc : Int) (piece : Piece) (po pg : Option PRef)
    (hpo : ∀ r, po = some r → np ≤ r) (hpg : ∀ r, pg = some r → np ≤ r)
    (hgh : HeapGE nb np h) :
    PreservedBelow nb np h (executeBoopH h rb0 pr pc piece po pg).1 ∧
      HeapGE nb np (executeBoopH h rb0 pr pc piece po pg).1 := by
  unfold executeBoopH
  dsimp only
  refine foldl_preserve
    (fun a : Heap × List BoopEffect =>
      PreservedBelow nb np h a.1 ∧ HeapGE nb np a.1) _ DIRECTIONS
    ((allocB h (readB h rb0)).1, []) ?_ ?_
  · exact ⟨allocB_preserved _ hgh.1, heapGE_allocB hgh⟩
  · intro a d hd hP
    exact boopStepH_frame nb np h pr pc piece.type po pg h.boards.length
      hgh.1 hpo hpg a d hP

theorem gradStepH_frame (nb np : Nat) (h0 : Heap) (rp : PRef) (rb : BRef)
    (hrb : nb ≤ rb) (hrp : np ≤ rp)
    (acc : Heap × List Cell × Nat) (cell : Cell)
    (hacc : PreservedBelow nb np h0 acc.1 ∧ HeapGE nb np acc.1) :
    PreservedBelow nb np h0 (gradStepH rp rb acc cell).1 ∧
      HeapGE nb np (gradStepH rp rb acc cell).1 := by
  obtain ⟨hp, hg⟩ := hacc
  unfold gradStepH
  dsimp only
  cases hc : getCell (readB acc.1 rb) cell.row cell.col with
  | none => exact ⟨hp, hg⟩
  | some piece =>
    dsimp only
    by_cases ht : piece.type = PieceType.kitten
    · rw [if_pos ht]
      exact ⟨preservedBelow_trans hp (preservedBelow_trans
          (writeB_preserved _ hrb) (writeP_preserved _ hrp)),
        heapGE_writeP (heapGE_writeB hg)⟩
    · rw [if_neg ht]
      exact ⟨preservedBelow_trans hp (preservedBelow_trans
          (writeB_preserved _ hrb) (writeP_preserved _ hrp)),
        heapGE_writeP (heapGE_writeB hg)⟩

theorem executeGraduationOptionH_frame (nb np : Nat) (h : Heap) (rb0 : BRef)
    (option : List Cell) (rp : PRef) (hrp : np ≤ rp) (hgh : HeapGE nb np h) :
    PreservedBelow nb np h (executeGraduationOptionH h rb0 option rp).1 ∧
      HeapGE nb np (executeGraduationOptionH h rb0 option rp).1 := by
  unfold executeGraduationOptionH
  dsimp only
  refine foldl_preserve
    (fun a : Heap × List Cell × Nat =>
      PreservedBelow nb np h a.1 ∧ HeapGE nb np a.1) _ option
    ((allocB h (readB h rb0)).1, [], 0) ?_ ?_
  · exact ⟨allocB_preserved _ hgh.1, heapGE_allocB hgh⟩
  · intro a cell hcell hP
    exact gradStepH_frame nb np h rp h.boards.length hgh.1 hrp a cell hP

theorem checkAndExecuteGraduationH_frame (nb np : Nat) (h : Heap) (rb0 : BRef)
    (rp : PRef) (color : PlayerColor) (hrp : np ≤ rp) (hgh : HeapGE nb np h) :
    PreservedBelow nb np h (checkAndExecuteGraduationH h rb0 rp color).1 ∧
      HeapGE nb np (checkAndExecuteGraduationH h rb0 rp color).1 := by
  unfold checkAndExecuteGraduationH
  dsimp only
  have hp0 : PreservedBelow nb np h (allocB h (readB h rb0)).1 :=
    allocB_preserved _ hgh.1
  have hg0 : HeapGE nb np (allocB h (readB h rb0)).1 := heapGE_allocB hgh
  cases hopt : findGraduationOptions
      (readB (allocB h (readB h rb0)).1 (allocB h (readB h rb0)).2) color with
  | nil =>
    dsimp only
    by_cases hcond : 8 ≤ countPiecesOnBoard
        (readB (allocB h (readB h rb0)).1 (allocB h (readB h rb0)).2) color ∧
        (readP (allocB h (readB h rb0)).1 rp).kittensRetired +
          (readP (allocB h (readB h rb0)).1 rp).catsInPool < 8
    · rw [if_pos hcond]
      cases hk : findFirstKitten
          (readB (allocB h (readB h rb0)).1 (allocB h (readB h rb0)).2)
          color with
      | none => exact ⟨hp0, hg0⟩
      | some cell =>
        dsimp only
        exact ⟨preservedBelow_trans hp0 (preservedBelow_trans
            (writeB_preserved _ hgh.1) (writeP_preserved _ hrp)),
          heapGE_writeP (heapGE_writeB hg0)⟩
    · rw [if_neg hcond]
      exact ⟨hp0, hg0⟩
  | cons o rest =>
    cases rest with
    | nil =>
      have hf := executeGraduationOptionH_frame nb np
        (allocB h (readB h rb0)).1 (allocB h (readB h rb0)).2 o rp hrp hg0
      exact ⟨preservedBelow_trans hp0 hf.1, hf.2⟩
    | cons o2 r2 => exact ⟨hp0, hg0⟩

theorem simCoreH_frame (nb np : Nat) (h2 : Heap) (sb : BRef)
    (po pg : Option PRef) (rpSim : PRef) (row col : Int) (pt : PieceType)
    (color : PlayerColor) (hgh : HeapGE nb np h2) (hrp : np ≤ rpSim)
    (hpo : ∀ r, po = some r → np ≤ r) (hpg : ∀ r, pg = some r → np ≤ r) :
    PreservedBelow nb np h2
      (simCoreH h2 sb po pg rpSim row col pt color).1 ∧
      HeapGE nb np (simCoreH h2 sb po pg rpSim row col pt color).1 := by
  unfold simCoreH
  dsimp only
  exact ⟨preservedBelow_trans (allocB_preserved _ hgh.1)
      (preservedBelow_trans (writeB_preserved _ hgh.1)
        (preservedBelow_trans (writeP_preserved _ hrp)
          (preservedBelow_trans
            (executeBoopH_frame nb np _ _ row col _ po pg hpo hpg
              (heapGE_writeP (heapGE_writeB (heapGE_allocB hgh)))).1
            (checkAndExecuteGraduationH_frame nb np _ _ rpSim color hrp
              (executeBoopH_frame nb np _ _ row col _ po pg hpo hpg
                (heapGE_writeP (heapGE_writeB (heapGE_allocB hgh)))).2).1))),
    (checkAndExecuteGraduationH_frame nb np _ _ rpSim color hrp
      (executeBoopH_frame nb np _ _ row col _ po pg hpo hpg
        (heapGE_writeP (heapGE_writeB (heapGE_allocB hgh)))).2).2⟩

theorem simulateMoveH_frame (h : Heap) (s : HGameState) (row col : Int)
    (pt : PieceType) (color : PlayerColor) :
    PreservedBelow h.boards.length h.players.length h
      (simulateMoveH h s row col pt color).1 := by
  unfold simulateMoveH
  dsimp only
  by_cases hv : ¬ isValidPosition row col = true ∨
      getCell (readB h s.board) row col ≠ none
  · rw [if_pos hv]
    exact preservedBelow_refl _ _ _
  rw [if_neg hv]
  cases hsl : hslot s.orange s.gray color with
  | none => exact preservedBelow_refl _ _ _
  | some rp0 =>
    dsimp only
    by_cases hk : pt = PieceType.kitten ∧ (readP h rp0).kittensInPool = 0
    · rw [if_pos hk]
      exact preservedBelow_refl _ _ _
    rw [if_neg hk]
    by_cases hc : pt = PieceType.cat ∧ (readP h rp0).catsInPool = 0
    · rw [if_pos hc]
      exact preservedBelow_refl _ _ _
    rw [if_neg hc]
    cases ho : s.orange with
    | none =>
      cases hg2 : s.gray with
      | none =>
        rw [ho, hg2] at hsl
        cases color <;> simp [hslot] at hsl
      | some rg =>
        rw [ho, hg2] at hsl
        cases color with
        | orange => simp [hslot] at hsl
        | gray =>
          dsimp only
          refine preservedBelow_trans (allocP_preserved _ (Nat.le_refl _))
            ((simCoreH_frame h.boards.length h.players.length _ s.board
              _ _ _ row col pt PlayerColor.gray ?_ ?_ ?_ ?_).1)
          · exact heapGE_allocP ⟨Nat.le_refl _, Nat.le_refl _⟩
          · exact Nat.le_refl _
          · intro r hr
            cases hr
          · intro r hr
            injection hr with he
            rw [← he]
            exact Nat.le_refl _
    | some ro =>
      cases hg2 : s.gray with
      | none =>
        rw [ho, hg2] at hsl
        cases color with
        | gray => simp [hslot] at hsl
        | orange =>
          dsimp only
          refine preservedBelow_trans (allocP_preserved _ (Nat.le_refl _))
            ((simCoreH_frame h.boards.length h.players.length _ s.board
              _ _ _ row col pt PlayerColor.orange ?_ ?_ ?_ ?_).1)
          · exact heapGE_allocP ⟨Nat.le_refl _, Nat.le_refl _⟩
          · exact Nat.le_refl _
          · intro r hr
            injection hr with he
            rw [← he]
            exact Nat.le_refl _
          · intro r hr
            cases hr
      | some rg =>
        dsimp only
        have hlen1 : h.players.length
            ≤ (allocP h (readP h ro)).1.players.length := by
          show h.players.length ≤ (h.players ++ [readP h ro]).length
          simp
        cases color with
        | orange =>
          refine preservedBelow_trans (allocP_preserved _ (Nat.le_refl _))
            (preservedBelow_trans (allocP_preserved _ hlen1)
              ((simCoreH_frame h.boards.length h.players.length _ s.board
                _ _ _ row col pt PlayerColor.orange ?_ ?_ ?_ ?_).1))
          · exact heapGE_allocP (heapGE_allocP ⟨Nat.le_refl _, Nat.le_refl _⟩)
          · exact Nat.le_refl _
          · intro r hr
            injection hr with he
            rw [← he]
            exact Nat.le_refl _
          · intro r hr
            injection hr with he
            rw [← he]
            exact hlen1
        | gray =>
          refine preservedBelow_trans (allocP_preserved _ (Nat.le_refl _))
            (preservedBelow_trans (allocP_preserved _ hlen1)
              ((simCoreH_frame h.boards.length h.players.length _ s.board
                _ _ _ row col pt PlayerColor.gray ?_ ?_ ?_ ?_).1))
          · exact heapGE_allocP (heapGE_allocP ⟨Nat.le_refl _, Nat.le_refl _⟩)
          · exact hlen1
          · intro r hr
            injection hr with he
            rw [← he]
            exact Nat.le_refl _
          · intro r hr
            injection hr with he
            rw [← he]
            exact hlen1

/-- C8: `simulateMove` operates entirely on clones.  Whether or not the
simulated move is valid, every board object and every player object that
existed in the heap before the call — in particular the caller's board and
both of its player objects — reads back exactly the same afterwards. -/
theorem simulateMove_pure (h : Heap) (s : HGameState) (row col : Int)
    (pt : PieceType) (color : PlayerColor) :
    (∀ i, i < h.boards.length →
      (simulateMoveH h s row col pt color).1.boards.getD i emptyBoard
        = h.boards.getD i emptyBoard) ∧
    (∀ j, j < h.players.length →
      (simulateMoveH h s row col pt color).1.players.getD j defaultPlayer
        = h.players.getD j defaultPlayer) ∧
    (s.board < h.boards.length →
      readB (simulateMoveH h s row col pt color).1 s.board = readB h s.board) ∧
    (∀ r, (s.orange = some r ∨ s.gray = some r) → r < h.players.length →
      readP (simulateMoveH h s row col pt color).1 r = readP h r) := by
  have hf := simulateMoveH_frame h s row col pt color
  exact ⟨hf.1, hf.2, fun hb => hf.1 s.board hb, fun r _ hlt => hf.2 r hlt⟩

/-- C8 witness: the purity frame evaluated at a concrete one-player heap
and a concrete move. -/
theorem simulateMove_pure_witness :
    (∀ i, i < hC8.boards.length →
      (simulateMoveH hC8 sC8 2 2 PieceType.kitten PlayerColor.orange).1.boards.getD
          i emptyBoard
        = hC8.boards.getD i emptyBoard) ∧
    (∀ j, j < hC8.players.length →
      (simulateMoveH hC8 sC8 2 2 PieceType.kitten
          PlayerColor.orange).1.players.getD j defaultPlayer
        = hC8.players.getD j defaultPlayer) ∧
    (sC8.board < hC8.boards.length →
      readB (simulateMoveH hC8 sC8 2 2 PieceType.kitten
        PlayerColor.orange).1 sC8.board = readB hC8 sC8.board) ∧
    (∀ r, (sC8.orange = some r ∨ sC8.gray = some r) →
      r < hC8.players.length →
      readP (simulateMoveH hC8 sC8 2 2 PieceType.kitten
        PlayerColor.orange).1 r = readP hC8 r) :=
  simulateMove_pure hC8 sC8 2 2 PieceType.kitten PlayerColor.orange

end Boop
